import Mathlib

/-!
# Position table and greedy next-hop selection of `myprotocol`

A shallow embedding of `src/model/myprotocol-rtable.cc` (the position table with
`AddRoute`, `Update`, `DeleteRoute`, `Clear`, and the lookups `PredictPosition`,
`LookupNeighbor`, `BestNeighbor`, `MatchRecovery`) and, from
`src/model/myprotocol-routing-protocol.cc`, of the beacon handler
`RoutingProtocol::RecvMyprotocol`, of the forwarding decision
`RoutingProtocol::Forwarding` and of local origination `RoutingProtocol::RouteOutput`.

Conventions of the embedding

* `Ipv4Address` is the 32-bit host-order value of the address, ordered as
  `Ipv4Address::operator<` orders it; `0` is `Ipv4Address::GetZero ()`.
* `std::map<Ipv4Address, RoutingTableEntry>` is an association list that is
  iterated front to back; `StdMap.insert` puts a new key at its place in the
  key order and leaves an existing key alone, as `std::map::insert` does.
* The simulator clock `Simulator::Now ().ToInteger (Time::S)` is the explicit
  argument `now`.
* Machine integers are `Nat`/`Int`; a conversion to `uint16_t` is `toUint16`
  (reduction modulo `2^16`), a conversion to `int16_t` is `toInt16`.
* `ns3::Vector` holds doubles.  Every position the table produces is a triple of
  `uint16_t` values or the triple (-1,-1,-1); such a triple is a `Vector` with
  integer coordinates.  The position of the node itself, `MM->GetPosition ()`, is
  any triple of doubles: it is a `Vector3D` of `Double` values, an IEEE 754
  binary64 number being `Double.finite n` (the value `n * 2 ^ (-1074)`), an
  infinity or a NaN, with `Double.sub`, `add`, `mul` and `sqrt` rounding to nearest,
  ties to even.  `CalculateDistance` is `ns3::CalculateDistance` in that
  arithmetic, and the definitions of the namespace `Binary64` are the lookups and
  `Forwarding` at a node position of doubles; there a conversion of a double to
  `uint16_t` is `Double.toUint16`, which truncates and is `none` where the
  conversion is undefined.
* The definitions outside `Binary64` take the node position at a point with integer
  coordinates.  On such points the sum of squares is exact in double precision and
  the rounded square root keeps `<`, `=` and the comparison with 250
  (`CalculateDistance_lattice`, `Double.sqrt_ofInt_cmp`), and `ns3::CalculateDistance`
  is only ever compared (`<`, `>`, `<= 250`, `== 0`) in the embedded code, so they
  compare the squares: `CalculateDistanceSq` is the exact square of the Euclidean
  distance, and `distance <= 250` becomes `CalculateDistanceSq <= 250 * 250`.
  `Binary64.LookupNeighbor_lattice`, `Binary64.BestNeighbor_lattice` and
  `Forwarding_lattice` show that the two forms agree at such a node position.
* `RoutingProtocol::GetRightVelocity` is declared outside the sources at hand; the
  beacon handler takes it as an argument.
* A call of `Forwarding` or `RouteOutput` is described by what it leaves behind:
  the value returned, the data header on the packet, and the callbacks invoked.
  A `Ptr<Ipv4Route>` is a route or the null pointer.
-/

namespace myprotocol

/-- An IPv4 address, as its 32-bit value. -/
abbrev Ipv4Address := Nat

/-- The address `0.0.0.0` returned by `Ipv4Address::GetZero ()`. -/
def GetZero : Ipv4Address := 0

/-- Conversion of an integer value to `uint16_t`. -/
def toUint16 (i : Int) : Int := i % 65536

/-- Conversion of an integer value to `int16_t` (two's complement). -/
def toInt16 (i : Int) : Int := (i + 32768) % 65536 - 32768

/-- The `ns3::Vector` of three coordinates. -/
structure Vector where
  x : Int
  y : Int
  z : Int
  deriving DecidableEq, Repr

/-- Square of `ns3::CalculateDistance (a, b)`. -/
def CalculateDistanceSq (a b : Vector) : Int :=
  (a.x - b.x) * (a.x - b.x) + (a.y - b.y) * (a.y - b.y) + (a.z - b.z) * (a.z - b.z)

/-- The position fields of `RoutingTableEntry` (`m_x` .. `m_adress`). -/
structure RoutingTableEntry where
  m_x : Nat := 0
  m_y : Nat := 0
  m_z : Nat := 0
  m_vx : Int := 0
  m_vy : Int := 0
  m_vz : Int := 0
  m_timestamp : Nat := 0
  m_adress : Ipv4Address := 0
  deriving DecidableEq, Repr

/-- The contents of a `std::map<Ipv4Address, RoutingTableEntry>`, in iteration order. -/
abbrev StdMap := List (Ipv4Address × RoutingTableEntry)

namespace StdMap

/-- The keys of the map, in iteration order. -/
def keys (m : StdMap) : List Ipv4Address := m.map Prod.fst

/-- The value found by `std::map::find`, `none` standing for `end ()`. -/
def find : StdMap → Ipv4Address → Option RoutingTableEntry
  | [], _ => none
  | (k, v) :: rest, id => if id = k then some v else find rest id

/-- The map after `std::map::insert (std::make_pair (k, v))`, with the flag
`result.second`: an existing key keeps its value. -/
def insert : StdMap → Ipv4Address → RoutingTableEntry → StdMap × Bool
  | [], k, v => ([(k, v)], true)
  | (k', v') :: rest, k, v =>
    if k = k' then ((k', v') :: rest, false)
    else if k < k' then ((k, v) :: (k', v') :: rest, true)
    else ((k', v') :: (insert rest k v).1, (insert rest k v).2)

/-- The map after `i->second = v` for the iterator `i = find (k)`, when it is
not `end ()`. -/
def assign : StdMap → Ipv4Address → RoutingTableEntry → StdMap
  | [], _, _ => []
  | (k', v') :: rest, k, v =>
    if k = k' then (k', v) :: rest else (k', v') :: assign rest k v

end StdMap

/-- The position table: `RoutingTable::m_ipv4AddressEntry`. -/
structure RoutingTable where
  m_ipv4AddressEntry : StdMap := []
  deriving DecidableEq, Repr

namespace RoutingTable

/-- `RoutingTable::LookupRoute (id, rt)`: `some rt` when it returns true. -/
def LookupRoute (t : RoutingTable) (id : Ipv4Address) : Option RoutingTableEntry :=
  if t.m_ipv4AddressEntry.isEmpty then none
  else StdMap.find t.m_ipv4AddressEntry id

/-- `RoutingTable::RoutingTableSize`: the number of entries of the map. -/
def RoutingTableSize (t : RoutingTable) : Nat := t.m_ipv4AddressEntry.length

/-- `RoutingTable::AddRoute (rt)`: the returned flag and the table afterwards. -/
def AddRoute (t : RoutingTable) (rt : RoutingTableEntry) : Bool × RoutingTable :=
  let result := StdMap.insert t.m_ipv4AddressEntry rt.m_adress rt
  (result.2, { m_ipv4AddressEntry := result.1 })

/-- `RoutingTable::PredictPosition (id)` at clock value `now`. -/
def PredictPosition (t : RoutingTable) (now : Int) (id : Ipv4Address) : Vector :=
  match t.LookupRoute id with
  | none => Vector.mk (-1) (-1) (-1)
  | some rt =>
    let deltaTime := toUint16 (now - rt.m_timestamp)
    let newX := toUint16 (rt.m_x + deltaTime * rt.m_vx)
    let newY := toUint16 (rt.m_y + deltaTime * rt.m_vy)
    let newZ := toUint16 (rt.m_z + deltaTime * rt.m_vz)
    Vector.mk newX newY newZ

/-- One iteration of the loop of `RoutingTable::LookupNeighbor`. -/
def LookupNeighborStep (t : RoutingTable) (now : Int) (myPos : Vector)
    (neighborTable : StdMap) (i : Ipv4Address × RoutingTableEntry) : StdMap :=
  let predictPos := t.PredictPosition now i.1
  if CalculateDistanceSq predictPos (Vector.mk (-1) (-1) (-1)) = 0 then neighborTable
  else if CalculateDistanceSq predictPos myPos ≤ 250 * 250 then
    (StdMap.insert neighborTable i.1 i.2).1
  else neighborTable

/-- `RoutingTable::LookupNeighbor (neighborTable, myPos)`: the output map afterwards. -/
def LookupNeighbor (t : RoutingTable) (now : Int) (neighborTable : StdMap)
    (myPos : Vector) : StdMap :=
  t.m_ipv4AddressEntry.foldl (LookupNeighborStep t now myPos) neighborTable

/-- One iteration of the selection loop of `RoutingTable::BestNeighbor`, on the
pair `(bestFoundID, bestFoundDistance)`. -/
def BestNeighborStep (t : RoutingTable) (now : Int) (predictDstPos : Vector)
    (best : Ipv4Address × Int) (i : Ipv4Address × RoutingTableEntry) : Ipv4Address × Int :=
  if best.2 > CalculateDistanceSq (t.PredictPosition now i.1) predictDstPos then
    (i.1, CalculateDistanceSq (t.PredictPosition now i.1) predictDstPos)
  else best

/-- `RoutingTable::BestNeighbor (dst, myPos)` at clock value `now`. -/
def BestNeighbor (t : RoutingTable) (now : Int) (dst : Ipv4Address) (myPos : Vector) :
    Ipv4Address :=
  let neighborTable := t.LookupNeighbor now [] myPos
  let predictDstPos := t.PredictPosition now dst
  if CalculateDistanceSq predictDstPos (Vector.mk (-1) (-1) (-1)) = 0 then GetZero
  else
    let initialDistance := CalculateDistanceSq predictDstPos myPos
    match neighborTable with
    | [] => GetZero
    | first :: _ =>
      let best := neighborTable.foldl (BestNeighborStep t now predictDstPos)
        (first.1, CalculateDistanceSq (t.PredictPosition now first.1) predictDstPos)
      if initialDistance > best.2 then best.1 else GetZero

/-- `RoutingTable::Update (rt)`: the returned flag and the table afterwards. -/
def Update (t : RoutingTable) (rt : RoutingTableEntry) : Bool × RoutingTable :=
  match StdMap.find t.m_ipv4AddressEntry rt.m_adress with
  | none => (false, t)
  | some _ => (true, { m_ipv4AddressEntry := StdMap.assign t.m_ipv4AddressEntry rt.m_adress rt })

/-- The table after `AddRoute` has been called on each entry of `es`, first to
last, starting from the empty table. -/
def addAll (es : List RoutingTableEntry) : RoutingTable :=
  es.foldl (fun t rt => (t.AddRoute rt).2) {}

/-- The test an entry's key passes in the loop of `LookupNeighbor`. -/
def withinRange (t : RoutingTable) (now : Int) (myPos : Vector) (k : Ipv4Address) : Prop :=
  ¬ CalculateDistanceSq (t.PredictPosition now k) (Vector.mk (-1) (-1) (-1)) = 0 ∧
    CalculateDistanceSq (t.PredictPosition now k) myPos ≤ 250 * 250

instance (t : RoutingTable) (now : Int) (myPos : Vector) (k : Ipv4Address) :
    Decidable (t.withinRange now myPos k) := by
  unfold withinRange; infer_instance

end RoutingTable

/-- The fields of the beacon header `MyprotocolHeader`, all `uint16_t` but the address. -/
structure MyprotocolHeader where
  m_x : Nat := 0
  m_y : Nat := 0
  m_z : Nat := 0
  m_vx : Nat := 0
  m_vy : Nat := 0
  m_vz : Nat := 0
  m_sign : Nat := 0
  m_timestamp : Nat := 0
  m_myadress : Ipv4Address := 0
  deriving DecidableEq, Repr

/-- Modelled from the spec: `RoutingProtocol::GetRightVelocity` is not among the
sources.  A beacon carries the velocity as three unsigned magnitudes and a sign
code saying which components are negative; the codes 0 to 7 are read as the comment
at `MyprotocolHeader::m_sign` lists them (0 none, 1 x, 2 y, 3 z, 4 x and y,
5 x and z, 6 y and z, 7 all).  `RecvMyprotocol` below takes the function as an
argument, so its theorems hold for every reading of the sign code. -/
def GetRightVelocity (vx vy vz sign : Nat) : Vector :=
  match sign with
  | 1 => Vector.mk (-vx) vy vz
  | 2 => Vector.mk vx (-vy) vz
  | 3 => Vector.mk vx vy (-vz)
  | 4 => Vector.mk (-vx) (-vy) vz
  | 5 => Vector.mk (-vx) vy (-vz)
  | 6 => Vector.mk vx (-vy) (-vz)
  | 7 => Vector.mk (-vx) (-vy) (-vz)
  | _ => Vector.mk vx vy vz

/-- The entry `newEntry` that `RecvMyprotocol` builds from a beacon; `velocity` is
the result of `GetRightVelocity`, converted to the `int16_t` constructor arguments. -/
def newEntry (hdr : MyprotocolHeader) (velocity : Vector) : RoutingTableEntry :=
  { m_x := hdr.m_x, m_y := hdr.m_y, m_z := hdr.m_z,
    m_vx := toInt16 velocity.x, m_vy := toInt16 velocity.y, m_vz := toInt16 velocity.z,
    m_timestamp := hdr.m_timestamp, m_adress := hdr.m_myadress }

/-- `RoutingProtocol::RecvMyprotocol` on a received beacon header: the position
table afterwards, and the value the local variable `rt` holds when the function
returns.  `getRightVelocity` stands for `RoutingProtocol::GetRightVelocity`.  In the
last branch the setters are applied to the local copy `rt` that `LookupRoute`
filled in; the function ends there, without a call of `RoutingTable::Update`. -/
def RecvMyprotocol (getRightVelocity : Nat → Nat → Nat → Nat → Vector)
    (t : RoutingTable) (hdr : MyprotocolHeader) : RoutingTable × RoutingTableEntry :=
  let source := hdr.m_myadress
  let velocity := getRightVelocity hdr.m_vx hdr.m_vy hdr.m_vz hdr.m_sign
  match t.LookupRoute source with
  | none => ((t.AddRoute (newEntry hdr velocity)).2, {})
  | some rt =>
    if rt.m_timestamp > hdr.m_timestamp then (t, rt)
    else
      (t, { rt with
              m_x := hdr.m_x, m_y := hdr.m_y, m_z := hdr.m_z,
              m_vx := toInt16 velocity.x, m_vy := toInt16 velocity.y,
              m_vz := toInt16 velocity.z,
              m_timestamp := hdr.m_timestamp, m_adress := hdr.m_myadress })

/-! ## Data forwarding -/

/-- Modelled from the spec: the data header that `Forwarding` and `RouteOutput`
read and write (`GetDstPosx` .. `GetLastPosz`, `GetUpdated`, `GetInRec`) is a later
revision of `DataHeader` than the one declared in `myprotocol-packet.h`.  Its eleven
`uint16_t` fields are those of the data forwarding header of the spec, in the order
of the constructor calls in `Forwarding`: destination position, its update time,
recovery-entry position, recovery flag, last-hop position. -/
structure DataHeader where
  m_dstPosx : Int := 0
  m_dstPosy : Int := 0
  m_dstPosz : Int := 0
  m_updated : Int := 0
  m_recPosx : Int := 0
  m_recPosy : Int := 0
  m_recPosz : Int := 0
  m_inRec : Int := 0
  m_lastPosx : Int := 0
  m_lastPosy : Int := 0
  m_lastPosz : Int := 0
  deriving DecidableEq, Repr

/-- Every field of the header holds a `uint16_t` value. -/
def DataHeader.valid (h : DataHeader) : Prop :=
  (0 ≤ h.m_dstPosx ∧ h.m_dstPosx ≤ 65535) ∧ (0 ≤ h.m_dstPosy ∧ h.m_dstPosy ≤ 65535) ∧
  (0 ≤ h.m_dstPosz ∧ h.m_dstPosz ≤ 65535) ∧ (0 ≤ h.m_updated ∧ h.m_updated ≤ 65535) ∧
  (0 ≤ h.m_recPosx ∧ h.m_recPosx ≤ 65535) ∧ (0 ≤ h.m_recPosy ∧ h.m_recPosy ≤ 65535) ∧
  (0 ≤ h.m_recPosz ∧ h.m_recPosz ≤ 65535) ∧ (0 ≤ h.m_inRec ∧ h.m_inRec ≤ 65535) ∧
  (0 ≤ h.m_lastPosx ∧ h.m_lastPosx ≤ 65535) ∧ (0 ≤ h.m_lastPosy ∧ h.m_lastPosy ≤ 65535) ∧
  (0 ≤ h.m_lastPosz ∧ h.m_lastPosz ≤ 65535)

instance (h : DataHeader) : Decidable h.valid := by
  unfold DataHeader.valid; infer_instance

/-- The destination position that a data header carries. -/
def DataHeader.dstPos (h : DataHeader) : Vector :=
  Vector.mk h.m_dstPosx h.m_dstPosy h.m_dstPosz

/-- The recovery-entry position that a data header carries. -/
def DataHeader.recPos (h : DataHeader) : Vector :=
  Vector.mk h.m_recPosx h.m_recPosy h.m_recPosz

/-- The last-hop position that a data header carries. -/
def DataHeader.lastPos (h : DataHeader) : Vector :=
  Vector.mk h.m_lastPosx h.m_lastPosy h.m_lastPosz

/-- The coordinates of `v` are `uint16_t` values. -/
def Vector.inUint16 (v : Vector) : Prop :=
  (0 ≤ v.x ∧ v.x ≤ 65535) ∧ (0 ≤ v.y ∧ v.y ≤ 65535) ∧ (0 ≤ v.z ∧ v.z ≤ 65535)

instance (v : Vector) : Decidable v.inUint16 := by
  unfold Vector.inUint16; infer_instance

/-- The coordinates of `v`, each converted to `uint16_t`. -/
def Vector.castUint16 (v : Vector) : Vector :=
  Vector.mk (toUint16 v.x) (toUint16 v.y) (toUint16 v.z)

/-- The destination and source address of the `Ipv4Header` of a packet. -/
structure Ipv4Header where
  m_destination : Ipv4Address := 0
  m_source : Ipv4Address := 0
  deriving DecidableEq, Repr

/-- The fields of `ns3::Ipv4Route`; the output device is the index `i` of
`m_ipv4->GetNetDevice (i)`, the loopback device `m_lo` being device 0. -/
structure Ipv4Route where
  m_dest : Ipv4Address := 0
  m_source : Ipv4Address := 0
  m_gateway : Ipv4Address := 0
  m_outputDevice : Nat := 0
  deriving DecidableEq, Repr

/-- The values of `Socket::SocketErrno` that the routing protocol uses. -/
inductive SocketErrno where
  | ERROR_NOTERROR
  | ERROR_NOROUTETOHOST
  deriving DecidableEq, Repr

/-- A call of one of the callbacks handed to `Forwarding`: `ucb (route, p, header)`
with the data header that `p` carries, or `ecb (p, header, err)`. -/
inductive CallbackCall where
  | ucb (route : Ipv4Route) (p : DataHeader) (header : Ipv4Header)
  | ecb (header : Ipv4Header) (err : SocketErrno)
  deriving DecidableEq, Repr

/-- What a call of `Forwarding` leaves behind: the returned flag, the data header
on the packet copy `p` when the function returns (`none` when no header was put
back), and the callbacks invoked, in order. -/
structure ForwardingResult where
  ret : Bool
  p : Option DataHeader
  calls : List CallbackCall
  deriving DecidableEq, Repr

/-- `RoutingTable::MatchRecovery (dst, myPos)` at clock value `now`. -/
def RoutingTable.MatchRecovery (t : RoutingTable) (now : Int) (dst : Ipv4Address)
    (myPos : Vector) : Bool :=
  if CalculateDistanceSq (t.PredictPosition now dst) (Vector.mk (-1) (-1) (-1)) = 0 then false
  else
    let neighborTable := t.LookupNeighbor now [] myPos
    if neighborTable.isEmpty then false else true

/-- `RoutingProtocol::Forwarding (packet, header, ucb, ecb)` at a node with position
table `t`, clock value `now` and position `myPos` (`MM->GetPosition ()`); `dataHeader`
is the header that `p->RemoveHeader (dataHeader)` takes off the packet.  The blocks
`if (inRec == 1)` and `if (inRec == 0)` follow each other in the source; the first
one leaves `inRec` alone, so at most one of them runs. -/
def Forwarding (t : RoutingTable) (now : Int) (myPos : Vector) (dataHeader : DataHeader)
    (header : Ipv4Header) : ForwardingResult :=
  let dst := header.m_destination
  let DstPosition := Vector.mk dataHeader.m_dstPosx dataHeader.m_dstPosy dataHeader.m_dstPosz
  let updated := dataHeader.m_updated
  let RecPosition := Vector.mk dataHeader.m_recPosx dataHeader.m_recPosy dataHeader.m_recPosz
  let inRec := dataHeader.m_inRec
  let neighborTable := t.LookupNeighbor now [] myPos
  match StdMap.find neighborTable dst with
  | some _ =>
    let dthdr : DataHeader :=
      { m_dstPosx := toUint16 DstPosition.x, m_dstPosy := toUint16 DstPosition.y,
        m_dstPosz := toUint16 DstPosition.y, m_updated := updated,
        m_recPosx := 0, m_recPosy := 0, m_recPosz := 0, m_inRec := 0,
        m_lastPosx := toUint16 myPos.x, m_lastPosy := toUint16 myPos.y,
        m_lastPosz := toUint16 myPos.z }
    let route : Ipv4Route :=
      { m_dest := dst, m_gateway := dst, m_outputDevice := 1, m_source := header.m_source }
    { ret := true, p := some dthdr, calls := [CallbackCall.ucb route dthdr header] }
  | none =>
    let leave : Bool := inRec = 1 ∧
      CalculateDistanceSq myPos DstPosition < CalculateDistanceSq RecPosition DstPosition
    let inRec := if leave then 0 else inRec
    let dataHeader := if leave then { dataHeader with m_inRec := 0 } else dataHeader
    if inRec = 1 then
      let dataHeader := { dataHeader with
        m_lastPosx := toUint16 myPos.x, m_lastPosy := toUint16 myPos.y,
        m_lastPosz := toUint16 myPos.z }
      { ret := true, p := some dataHeader, calls := [] }
    else if inRec = 0 then
      let nextHop := t.BestNeighbor now dst myPos
      if nextHop ≠ GetZero then
        let dthdr : DataHeader :=
          { m_dstPosx := toUint16 DstPosition.x, m_dstPosy := toUint16 DstPosition.y,
            m_dstPosz := toUint16 DstPosition.z, m_updated := updated,
            m_recPosx := 0, m_recPosy := 0, m_recPosz := 0, m_inRec := 0,
            m_lastPosx := toUint16 myPos.x, m_lastPosy := toUint16 myPos.y,
            m_lastPosz := toUint16 myPos.z }
        let route : Ipv4Route :=
          { m_dest := dst, m_source := header.m_source, m_gateway := nextHop,
            m_outputDevice := 1 }
        { ret := true, p := some dthdr, calls := [CallbackCall.ucb route dthdr header] }
      else
        let dataHeader := { dataHeader with
          m_inRec := 1,
          m_recPosx := toUint16 myPos.x, m_recPosy := toUint16 myPos.y,
          m_recPosz := toUint16 myPos.z,
          m_lastPosx := toUint16 DstPosition.x, m_lastPosy := toUint16 DstPosition.y,
          m_lastPosz := toUint16 DstPosition.z }
        { ret := true, p := some dataHeader, calls := [] }
    else
      { ret := true, p := none, calls := [] }

/-- The greedy attempt is made: the packet arrived in greedy mode, or in recovery
mode at a node closer to the carried destination position than the recovery-entry
position. -/
def greedyAttempt (myPos : Vector) (dataHeader : DataHeader) : Prop :=
  dataHeader.m_inRec = 0 ∨
    (dataHeader.m_inRec = 1 ∧
      CalculateDistanceSq myPos dataHeader.dstPos <
        CalculateDistanceSq dataHeader.recPos dataHeader.dstPos)

instance (myPos : Vector) (dataHeader : DataHeader) :
    Decidable (greedyAttempt myPos dataHeader) := by
  unfold greedyAttempt; infer_instance

/-- The address `127.0.0.1`. -/
def GetLoopback : Ipv4Address := 2130706433

/-- The value of a default-constructed `Ipv4Address ()`, which `Ipv4Route` holds as
source until `SetSource` is called. -/
def Ipv4AddressUnset : Ipv4Address := 1717986918

/-- `RoutingProtocol::LoopbackRoute (hdr, oif)`.  `m_socketAddresses` lists, in
iteration order, the interface index and the local address of each socket; `oif` is
the interface index of the requested output device, when one is given. -/
def LoopbackRoute (m_socketAddresses : List (Nat × Ipv4Address)) (hdr : Ipv4Header)
    (oif : Option Nat) : Ipv4Route :=
  let source : Ipv4Address :=
    match oif with
    | some dev =>
      match m_socketAddresses.find? (fun j => j.1 == dev) with
      | some j => j.2
      | none => Ipv4AddressUnset
    | none =>
      match m_socketAddresses with
      | j :: _ => j.2
      | [] => Ipv4AddressUnset
  { m_dest := hdr.m_destination, m_source := source, m_gateway := GetLoopback,
    m_outputDevice := 0 }

/-- What `RouteOutput` hands back: a route, the null `Ptr<Ipv4Route>`, or no return
at all because `route->...` was evaluated on the null `Ptr<Ipv4Route>`. -/
inductive RouteOutputReturn where
  | route (r : Ipv4Route)
  | nullRoute
  | nullDereference
  deriving DecidableEq, Repr

/-- What a call of `RouteOutput` leaves behind: what it returns, the value written
to `sockerr` (`none` when it is not written), and the data header added to the
packet (`none` when none is added). -/
structure RouteOutputResult where
  ret : RouteOutputReturn
  sockerr : Option SocketErrno
  p : Option DataHeader
  deriving DecidableEq, Repr

/-- `RoutingProtocol::RouteOutput (p, header, oif, sockerr)` at a node with position
table `t`, clock value `now` and position `myPos`.  `hasPacket` says that `p` is not
null; `broadcast1` is `m_ipv4->GetAddress (1, 0).GetBroadcast ()`.  The variable
`route` is declared as `Ptr<Ipv4Route> route;` and never assigned, so it is the null
pointer wherever it is used: the calls `route->SetDestination (...)` that open the
broadcast branch and follow `p->AddHeader (dataHeader)` are made on the null pointer,
and the statements after them are not reached. -/
def RouteOutput (t : RoutingTable) (now : Int) (myPos : Vector)
    (m_socketAddresses : List (Nat × Ipv4Address)) (broadcast1 : Ipv4Address)
    (hasPacket : Bool) (header : Ipv4Header) (oif : Option Nat) : RouteOutputResult :=
  if !hasPacket then
    { ret := RouteOutputReturn.route (LoopbackRoute m_socketAddresses header oif),
      sockerr := none, p := none }
  else if m_socketAddresses.isEmpty then
    { ret := RouteOutputReturn.nullRoute, sockerr := some SocketErrno.ERROR_NOROUTETOHOST,
      p := none }
  else
    let dst := header.m_destination
    if dst = broadcast1 then
      { ret := RouteOutputReturn.nullDereference, sockerr := none, p := none }
    else
      let nexthop := t.BestNeighbor now dst myPos
      if nexthop ≠ GetZero then
        let rt : RoutingTableEntry := (t.LookupRoute dst).getD {}
        let dataHeader : DataHeader :=
          { m_dstPosx := rt.m_x, m_dstPosy := rt.m_y, m_dstPosz := rt.m_z,
            m_updated := rt.m_timestamp,
            m_recPosx := 0, m_recPosy := 0, m_recPosz := 0, m_inRec := 0,
            m_lastPosx := toUint16 myPos.x, m_lastPosy := toUint16 myPos.y,
            m_lastPosz := toUint16 myPos.z }
        { ret := RouteOutputReturn.nullDereference, sockerr := none, p := some dataHeader }
      else if t.MatchRecovery now dst myPos then
        { ret := RouteOutputReturn.nullRoute, sockerr := none, p := none }
      else
        { ret := RouteOutputReturn.route (LoopbackRoute m_socketAddresses header oif),
          sockerr := none, p := none }

/-- The table after `RecvMyprotocol` has processed the beacons `hdrs`, first to last. -/
def recvAll (getRightVelocity : Nat → Nat → Nat → Nat → Vector) (t : RoutingTable)
    (hdrs : List MyprotocolHeader) : RoutingTable :=
  hdrs.foldl (fun t hdr => (RecvMyprotocol getRightVelocity t hdr).1) t

/-! ## Table maintenance -/

/-- `std::map::erase (k)`: the map afterwards and the number of elements removed. -/
def StdMap.erase (m : StdMap) (k : Ipv4Address) : StdMap × Nat :=
  (m.filter (fun i => i.1 != k), (m.filter (fun i => i.1 == k)).length)

/-- `RoutingTable::DeleteRoute (dst)`: the returned flag and the table afterwards. -/
def RoutingTable.DeleteRoute (t : RoutingTable) (dst : Ipv4Address) : Bool × RoutingTable :=
  let erased := StdMap.erase t.m_ipv4AddressEntry dst
  if erased.2 ≠ 0 then (true, { m_ipv4AddressEntry := erased.1 })
  else (false, { m_ipv4AddressEntry := erased.1 })

/-- `RoutingTable::Clear ()`: the table afterwards. -/
def RoutingTable.Clear (_t : RoutingTable) : RoutingTable :=
  { m_ipv4AddressEntry := [] }

/-- A call of one of the member functions that write the position table. -/
inductive TableOp where
  | AddRoute (rt : RoutingTableEntry)
  | Update (rt : RoutingTableEntry)
  | DeleteRoute (dst : Ipv4Address)
  | Clear
  deriving DecidableEq, Repr

/-- The table after one call. -/
def RoutingTable.apply (t : RoutingTable) : TableOp → RoutingTable
  | TableOp.AddRoute rt => (t.AddRoute rt).2
  | TableOp.Update rt => (t.Update rt).2
  | TableOp.DeleteRoute dst => (t.DeleteRoute dst).2
  | TableOp.Clear => t.Clear

/-- The table reached from the empty table by the calls `ops`, first to last. -/
def RoutingTable.reached (ops : List TableOp) : RoutingTable :=
  ops.foldl RoutingTable.apply {}

/-- The invariant of `std::map`: the keys are iterated in strictly increasing order. -/
def RoutingTable.ordered (t : RoutingTable) : Prop :=
  (StdMap.keys t.m_ipv4AddressEntry).Pairwise (· < ·)

instance (t : RoutingTable) : Decidable t.ordered := by
  unfold RoutingTable.ordered; infer_instance

/-- Each entry of the table is stored under its own address. -/
def RoutingTable.keyed (t : RoutingTable) : Prop :=
  ∀ i ∈ t.m_ipv4AddressEntry, i.2.m_adress = i.1

instance (t : RoutingTable) : Decidable t.keyed := by
  unfold RoutingTable.keyed; infer_instance

/-! ## Chains of greedy next hops -/

/-- A node of the network: its address, its position table and its own position. -/
structure Node where
  address : Ipv4Address
  table : RoutingTable
  pos : Vector
  deriving DecidableEq, Repr

/-- Node `n` hands a packet for `dst` to node `m` by greedy forwarding at clock value
`now`: the table of `n` predicts `dst` at `predictDstPos`, `BestNeighbor` at `n`
returns the address of `m`, which is a next hop and not the zero address, and `m` is
at the position that the table of `n` predicts for it. -/
def greedyHop (now : Int) (dst : Ipv4Address) (predictDstPos : Vector) (n m : Node) : Prop :=
  n.table.PredictPosition now dst = predictDstPos ∧
    n.table.BestNeighbor now dst n.pos = m.address ∧ m.address ≠ GetZero ∧
    m.pos = n.table.PredictPosition now m.address

instance (now : Int) (dst : Ipv4Address) (predictDstPos : Vector) (n m : Node) :
    Decidable (greedyHop now dst predictDstPos n m) := by
  unfold greedyHop; infer_instance

/-! ## The lookups as state transformers

The member functions below are not `const`.  Here each of them is written once more
with the position table passed through every statement and every call, as the object
state `m_ipv4AddressEntry` on which the function runs: the result comes with the
table in which the call leaves the object. -/

/-- `RoutingTable::LookupRoute (id, rt)` on the object state `t`: `empty ()` and
`find (id)` read the map, the entry found is copied to the caller's `rt`. -/
def LookupRouteS (t : RoutingTable) (id : Ipv4Address) :
    Option RoutingTableEntry × RoutingTable :=
  if t.m_ipv4AddressEntry.isEmpty then (none, t)
  else (StdMap.find t.m_ipv4AddressEntry id, t)

/-- `RoutingTable::PredictPosition (id)` on the object state `t`. -/
def PredictPositionS (t : RoutingTable) (now : Int) (id : Ipv4Address) :
    Vector × RoutingTable :=
  match LookupRouteS t id with
  | (none, t1) => (Vector.mk (-1) (-1) (-1), t1)
  | (some rt, t1) =>
    let deltaTime := toUint16 (now - rt.m_timestamp)
    let newX := toUint16 (rt.m_x + deltaTime * rt.m_vx)
    let newY := toUint16 (rt.m_y + deltaTime * rt.m_vy)
    let newZ := toUint16 (rt.m_z + deltaTime * rt.m_vz)
    (Vector.mk newX newY newZ, t1)

/-- One iteration of the loop of `LookupNeighbor`, on the output map and the object
state. -/
def LookupNeighborStepS (now : Int) (myPos : Vector) (s : StdMap × RoutingTable)
    (i : Ipv4Address × RoutingTableEntry) : StdMap × RoutingTable :=
  match PredictPositionS s.2 now i.1 with
  | (predictPos, t1) =>
    if CalculateDistanceSq predictPos (Vector.mk (-1) (-1) (-1)) = 0 then (s.1, t1)
    else if CalculateDistanceSq predictPos myPos ≤ 250 * 250 then
      ((StdMap.insert s.1 i.1 i.2).1, t1)
    else (s.1, t1)

/-- `RoutingTable::LookupNeighbor (neighborTable, myPos)` on the object state `t`;
the loop runs over the entries that the map holds when the loop starts. -/
def LookupNeighborS (t : RoutingTable) (now : Int) (neighborTable : StdMap)
    (myPos : Vector) : StdMap × RoutingTable :=
  t.m_ipv4AddressEntry.foldl (LookupNeighborStepS now myPos) (neighborTable, t)

/-- One iteration of the selection loop of `BestNeighbor`, on the pair
`(bestFoundID, bestFoundDistance)` and the object state. -/
def BestNeighborStepS (now : Int) (predictDstPos : Vector)
    (s : (Ipv4Address × Int) × RoutingTable) (i : Ipv4Address × RoutingTableEntry) :
    (Ipv4Address × Int) × RoutingTable :=
  match PredictPositionS s.2 now i.1 with
  | (pos1, t1) =>
    if s.1.2 > CalculateDistanceSq pos1 predictDstPos then
      match PredictPositionS t1 now i.1 with
      | (pos2, t2) => ((i.1, CalculateDistanceSq pos2 predictDstPos), t2)
    else (s.1, t1)

/-- `RoutingTable::BestNeighbor (dst, myPos)` on the object state `t`. -/
def BestNeighborS (t : RoutingTable) (now : Int) (dst : Ipv4Address) (myPos : Vector) :
    Ipv4Address × RoutingTable :=
  match LookupNeighborS t now [] myPos with
  | (neighborTable, t1) =>
    match PredictPositionS t1 now dst with
    | (predictDstPos, t2) =>
      if CalculateDistanceSq predictDstPos (Vector.mk (-1) (-1) (-1)) = 0 then (GetZero, t2)
      else
        let initialDistance := CalculateDistanceSq predictDstPos myPos
        match neighborTable with
        | [] => (GetZero, t2)
        | first :: _ =>
          match PredictPositionS t2 now first.1 with
          | (pos0, t3) =>
            match neighborTable.foldl (BestNeighborStepS now predictDstPos)
                ((first.1, CalculateDistanceSq pos0 predictDstPos), t3) with
            | (best, t4) => if initialDistance > best.2 then (best.1, t4) else (GetZero, t4)

/-- `RoutingTable::MatchRecovery (dst, myPos)` on the object state `t`. -/
def MatchRecoveryS (t : RoutingTable) (now : Int) (dst : Ipv4Address) (myPos : Vector) :
    Bool × RoutingTable :=
  match PredictPositionS t now dst with
  | (predictDstPos, t1) =>
    if CalculateDistanceSq predictDstPos (Vector.mk (-1) (-1) (-1)) = 0 then (false, t1)
    else
      match LookupNeighborS t1 now [] myPos with
      | (neighborTable, t2) => if neighborTable.isEmpty then (false, t2) else (true, t2)

/-! ## The loopback entry -/

/-- The entry `rt` that `RoutingProtocol::SetIpv4` builds for the loopback route:
position (0,0,0), velocity (0,0,0), timestamp 0 and address `127.0.0.1`. -/
def SetIpv4_rt : RoutingTableEntry :=
  { m_x := 0, m_y := 0, m_z := 0, m_vx := 0, m_vy := 0, m_vz := 0, m_timestamp := 0,
    m_adress := GetLoopback }

/-- `RoutingProtocol::SetIpv4`, as far as the position table `m_routingTable` goes:
`m_routingTable.AddRoute (rt)`. -/
def SetIpv4 (m_routingTable : RoutingTable) : RoutingTable :=
  (m_routingTable.AddRoute SetIpv4_rt).2

/-! ## Double-precision arithmetic -/

/-- Binary search for the exponent `e` with `2 ^ e ≤ n < 2 ^ (e + 1)`: the bits of
`e` are fixed from bit `b - 1` down to bit 0. -/
def ilog2Aux (n : Nat) : Nat → Nat → Nat
  | 0, e => e
  | b + 1, e => if 2 ^ (e + 2 ^ b) ≤ n then ilog2Aux n b (e + 2 ^ b) else ilog2Aux n b e

/-- The exponent of the leading bit of `n`, `Nat.log2 n`, in a form that evaluates
on numerals: the binary search answers for `n < 2 ^ 8192`, and its answer is kept
only when it passes the test that characterises the logarithm. -/
def ilog2 (n : Nat) : Nat :=
  let e := ilog2Aux n 13 0
  if 2 ^ e ≤ n ∧ n < 2 ^ (e + 1) then e else Nat.log2 n

/-- Newton iteration for the integer square root, at most `fuel` steps. -/
def isqrtIter (n : Nat) : Nat → Nat → Nat
  | 0, guess => guess
  | fuel + 1, guess =>
    let next := (guess + n / guess) / 2
    if next < guess then isqrtIter n fuel next else guess

/-- The integer square root of `n`, `Nat.sqrt n`, in a form that evaluates on
numerals: the result of the iteration is kept only when it passes the test that
characterises the square root. -/
def isqrt (n : Nat) : Nat :=
  let r := isqrtIter n 32 (2 ^ (ilog2 n / 2 + 1))
  if r * r ≤ n ∧ n < (r + 1) * (r + 1) then r else Nat.sqrt n

/-- The integer nearest to `n / 2 ^ s`, a tie going to the even one. -/
def roundShift (n s : Nat) : Nat :=
  let q := n / 2 ^ s
  let r := n % 2 ^ s
  if 2 * r < 2 ^ s then q
  else if 2 * r = 2 ^ s then (if q % 2 = 0 then q else q + 1)
  else q + 1

/-- A value of the C++ type `double` (IEEE 754 binary64): not-a-number, an
infinity, or a finite value.  Every finite double is an integer multiple of
`2 ^ (-1074)`; `finite n` is the value `n * 2 ^ (-1074)`.  The sign of zero is not
kept: no operation used by the protocol tells the two zeros apart. -/
inductive Double where
  | finite (n : Int)
  | inf (negative : Bool)
  | nan
  deriving DecidableEq, Repr

namespace Double

/-- The double nearest to `n * 2 ^ (-s)`, negated when `negative` is set: round to
nearest, ties to even, with 53 significant bits, least exponent -1074 (gradual
underflow) and overflow to infinity from `2 ^ 1024` on. -/
def round (negative : Bool) (n s : Nat) : Double :=
  if n = 0 then finite 0
  else
    let E : Int := (ilog2 n : Int) - s
    let u : Int := max (E - 52) (-1074)
    let sh : Int := s + u
    let m : Nat := roundShift (n * 2 ^ (-sh).toNat) sh.toNat
    let k : Nat := m * 2 ^ (u + 1074).toNat
    if 2 ^ 2098 ≤ k then inf negative
    else finite (if negative then -(k : Int) else k)

/-- The double nearest to `i * 2 ^ (-s)`. -/
def ofScaled (i : Int) (s : Nat) : Double :=
  round (decide (i < 0)) i.natAbs s

/-- Conversion of an integer value to `double`, for values that a double holds
exactly (`uint16_t` fields and the literals of the source). -/
def ofInt (i : Int) : Double := finite (i * 2 ^ 1074)

/-- The double `m * 2 ^ e`, for `e ≥ -1074`. -/
def ofDyadic (m : Int) (e : Int) : Double := finite (m * 2 ^ (e + 1074).toNat)

/-- The value is one that a `double` holds: rounding leaves it as it is. -/
def isDouble : Double → Bool
  | finite n => decide (ofScaled n 1074 = finite n)
  | _ => true

/-- The operator `a - b` on doubles. -/
def sub : Double → Double → Double
  | finite a, finite b => ofScaled (a - b) 1074
  | finite _, inf y => inf (!y)
  | inf x, finite _ => inf x
  | inf x, inf y => if x = y then nan else inf x
  | _, _ => nan

/-- The operator `a + b` on doubles. -/
def add : Double → Double → Double
  | finite a, finite b => ofScaled (a + b) 1074
  | finite _, inf y => inf y
  | inf x, finite _ => inf x
  | inf x, inf y => if x = y then inf x else nan
  | _, _ => nan

/-- The operator `a * b` on doubles. -/
def mul : Double → Double → Double
  | finite a, finite b => ofScaled (a * b) 2148
  | finite a, inf y => if a = 0 then nan else inf (xor (decide (a < 0)) y)
  | inf x, finite b => if b = 0 then nan else inf (xor x (decide (b < 0)))
  | inf x, inf y => inf (xor x y)
  | _, _ => nan

/-- The function `std::sqrt` on doubles, correctly rounded.  For `n > 0` the
integer `r` is the integer part of `sqrt (n * 2 ^ (-1074)) * 2 ^ 591`; the bit
appended to it records whether the square root has a fractional part beyond it. -/
def sqrt : Double → Double
  | finite n =>
    if n < 0 then nan
    else
      let r := isqrt (n.toNat * 2 ^ 108)
      round false (2 * r + (if r * r = n.toNat * 2 ^ 108 then 0 else 1)) 592
  | inf x => if x then nan else inf false
  | nan => nan

/-- The operator `a < b` on doubles. -/
def lt : Double → Double → Bool
  | finite a, finite b => decide (a < b)
  | finite _, inf y => !y
  | inf x, finite _ => x
  | inf x, inf y => x && !y
  | _, _ => false

/-- The operator `a <= b` on doubles. -/
def le : Double → Double → Bool
  | finite a, finite b => decide (a ≤ b)
  | finite _, inf y => !y
  | inf x, finite _ => x
  | inf x, inf y => x || !y
  | _, _ => false

/-- The operator `a == b` on doubles. -/
def eq : Double → Double → Bool
  | finite a, finite b => decide (a = b)
  | inf x, inf y => decide (x = y)
  | _, _ => false

/-- The conversion `(uint16_t) d`: the value truncated toward zero, defined when
the truncated value is a `uint16_t` value; otherwise the behaviour of the source
is undefined and the result is `none`. -/
def toUint16 : Double → Option Int
  | finite n =>
    let i := Int.tdiv n (2 ^ 1074)
    if 0 ≤ i ∧ i ≤ 65535 then some i else none
  | _ => none

end Double

/-- The `ns3::Vector` (`ns3::Vector3D`) of three `double` coordinates. -/
structure Vector3D where
  x : Double
  y : Double
  z : Double
  deriving DecidableEq, Repr

/-- The `ns3::Vector` built from three integer values, as `Vector (newX, newY, newZ)`
and `Vector (-1, -1, -1)` are. -/
def Vector.toVector3D (v : Vector) : Vector3D :=
  Vector3D.mk (Double.ofInt v.x) (Double.ofInt v.y) (Double.ofInt v.z)

/-- The three coordinates converted by `(uint16_t)`, when all three conversions are
defined. -/
def Vector3D.toUint16 (v : Vector3D) : Option Vector :=
  match v.x.toUint16, v.y.toUint16, v.z.toUint16 with
  | some x, some y, some z => some (Vector.mk x y z)
  | _, _, _ => none

/-- `ns3::CalculateDistance (a, b)` as ns-3 defines it: the length of `b - a`,
`std::sqrt (dx * dx + dy * dy + dz * dz)`, every operation rounded to `double`. -/
def CalculateDistance (a b : Vector3D) : Double :=
  let dx := b.x.sub a.x
  let dy := b.y.sub a.y
  let dz := b.z.sub a.z
  (((dx.mul dx).add (dy.mul dy)).add (dz.mul dz)).sqrt

/-- The integer `n` of a finite value `n * 2 ^ (-1074)`; 0 for the other values. -/
def Double.scaled : Double → Int
  | Double.finite n => n
  | _ => 0

/-- The three coordinates are finite values that a `double` holds. -/
def Vector3D.isFiniteDouble (v : Vector3D) : Bool :=
  v.x.isDouble && v.y.isDouble && v.z.isDouble &&
    (match v.x, v.y, v.z with
      | Double.finite _, Double.finite _, Double.finite _ => true
      | _, _, _ => false)

/-- The exact square of the distance between two points with finite coordinates, in
units of `2 ^ (-2148)`: no rounding takes place. -/
def ExactDistanceSq (a b : Vector3D) : Int :=
  (a.x.scaled - b.x.scaled) * (a.x.scaled - b.x.scaled) +
    (a.y.scaled - b.y.scaled) * (a.y.scaled - b.y.scaled) +
    (a.z.scaled - b.z.scaled) * (a.z.scaled - b.z.scaled)

/-- The coordinates of `v` are integers from -1 to 65535: `v` is a predicted
position or the triple (-1,-1,-1). -/
def Vector.isPredicted (v : Vector) : Prop :=
  (-1 ≤ v.x ∧ v.x ≤ 65535) ∧ (-1 ≤ v.y ∧ v.y ≤ 65535) ∧ (-1 ≤ v.z ∧ v.z ≤ 65535)

instance (v : Vector) : Decidable v.isPredicted := by
  unfold Vector.isPredicted; infer_instance

/-! ## The lookups at a node position in double precision

`MM->GetPosition ()` returns an `ns3::Vector` of doubles.  The definitions of this
section take the node position `myPos` as such a vector and compute every distance
as `ns3::CalculateDistance` does; the table, its predicted positions and the header
fields stay the integers they are in the source. -/

namespace Binary64

/-- The test an entry's key passes in the loop of `LookupNeighbor`. -/
def withinRange (t : RoutingTable) (now : Int) (myPos : Vector3D) (k : Ipv4Address) : Bool :=
  !(CalculateDistance (t.PredictPosition now k).toVector3D
      (Vector.mk (-1) (-1) (-1)).toVector3D).eq (Double.ofInt 0) &&
    (CalculateDistance (t.PredictPosition now k).toVector3D myPos).le (Double.ofInt 250)

/-- One iteration of the loop of `RoutingTable::LookupNeighbor`. -/
def LookupNeighborStep (t : RoutingTable) (now : Int) (myPos : Vector3D)
    (neighborTable : StdMap) (i : Ipv4Address × RoutingTableEntry) : StdMap :=
  let predictPos := (t.PredictPosition now i.1).toVector3D
  if (CalculateDistance predictPos (Vector.mk (-1) (-1) (-1)).toVector3D).eq (Double.ofInt 0)
  then neighborTable
  else
    let distance := CalculateDistance predictPos myPos
    if distance.le (Double.ofInt 250) then (StdMap.insert neighborTable i.1 i.2).1
    else neighborTable

/-- `RoutingTable::LookupNeighbor (neighborTable, myPos)`: the output map afterwards. -/
def LookupNeighbor (t : RoutingTable) (now : Int) (neighborTable : StdMap)
    (myPos : Vector3D) : StdMap :=
  t.m_ipv4AddressEntry.foldl (LookupNeighborStep t now myPos) neighborTable

/-- One iteration of the selection loop of `RoutingTable::BestNeighbor`, on the
pair `(bestFoundID, bestFoundDistance)`. -/
def BestNeighborStep (t : RoutingTable) (now : Int) (predictDstPos : Vector3D)
    (best : Ipv4Address × Double) (i : Ipv4Address × RoutingTableEntry) :
    Ipv4Address × Double :=
  if (CalculateDistance (t.PredictPosition now i.1).toVector3D predictDstPos).lt best.2 then
    (i.1, CalculateDistance (t.PredictPosition now i.1).toVector3D predictDstPos)
  else best

/-- `RoutingTable::BestNeighbor (dst, myPos)` at clock value `now`. -/
def BestNeighbor (t : RoutingTable) (now : Int) (dst : Ipv4Address) (myPos : Vector3D) :
    Ipv4Address :=
  let neighborTable := LookupNeighbor t now [] myPos
  let predictDstPos := (t.PredictPosition now dst).toVector3D
  if (CalculateDistance predictDstPos (Vector.mk (-1) (-1) (-1)).toVector3D).eq (Double.ofInt 0)
  then GetZero
  else
    let initialDistance := CalculateDistance predictDstPos myPos
    match neighborTable with
    | [] => GetZero
    | first :: _ =>
      let best := neighborTable.foldl (BestNeighborStep t now predictDstPos)
        (first.1, CalculateDistance (t.PredictPosition now first.1).toVector3D predictDstPos)
      if best.2.lt initialDistance then best.1 else GetZero

/-- `RoutingTable::MatchRecovery (dst, myPos)` at clock value `now`. -/
def MatchRecovery (t : RoutingTable) (now : Int) (dst : Ipv4Address) (myPos : Vector3D) :
    Bool :=
  if (CalculateDistance (t.PredictPosition now dst).toVector3D
      (Vector.mk (-1) (-1) (-1)).toVector3D).eq (Double.ofInt 0) then false
  else
    let neighborTable := LookupNeighbor t now [] myPos
    if neighborTable.isEmpty then false else true

/-- `RoutingProtocol::Forwarding (packet, header, ucb, ecb)` at a node with position
table `t`, clock value `now` and position `myPos` (`MM->GetPosition ()`); `dataHeader`
is the header that `p->RemoveHeader (dataHeader)` takes off the packet.  The header
fields are read into the double vectors `DstPosition` and `RecPosition`, and every
value written to a header goes through the conversion to `uint16_t`; the result is
`none` when a conversion that the branch taken performs is undefined.  The blocks
`if (inRec == 1)` and `if (inRec == 0)` follow each other in the source; the first
one leaves `inRec` alone, so at most one of them runs. -/
def Forwarding (t : RoutingTable) (now : Int) (myPos : Vector3D) (dataHeader : DataHeader)
    (header : Ipv4Header) : Option ForwardingResult :=
  let dst := header.m_destination
  let DstPosition := Vector3D.mk (Double.ofInt dataHeader.m_dstPosx)
    (Double.ofInt dataHeader.m_dstPosy) (Double.ofInt dataHeader.m_dstPosz)
  let updated := dataHeader.m_updated
  let RecPosition := Vector3D.mk (Double.ofInt dataHeader.m_recPosx)
    (Double.ofInt dataHeader.m_recPosy) (Double.ofInt dataHeader.m_recPosz)
  let inRec := dataHeader.m_inRec
  let neighborTable := LookupNeighbor t now [] myPos
  match StdMap.find neighborTable dst with
  | some _ => do
    let dstPosx ← DstPosition.x.toUint16
    let dstPosy ← DstPosition.y.toUint16
    let dstPosz ← DstPosition.y.toUint16
    let lastPosx ← myPos.x.toUint16
    let lastPosy ← myPos.y.toUint16
    let lastPosz ← myPos.z.toUint16
    let dthdr : DataHeader :=
      { m_dstPosx := dstPosx, m_dstPosy := dstPosy, m_dstPosz := dstPosz,
        m_updated := updated, m_recPosx := 0, m_recPosy := 0, m_recPosz := 0, m_inRec := 0,
        m_lastPosx := lastPosx, m_lastPosy := lastPosy, m_lastPosz := lastPosz }
    let route : Ipv4Route :=
      { m_dest := dst, m_gateway := dst, m_outputDevice := 1, m_source := header.m_source }
    pure { ret := true, p := some dthdr, calls := [CallbackCall.ucb route dthdr header] }
  | none =>
    let leave : Bool := decide (inRec = 1) &&
      (CalculateDistance myPos DstPosition).lt (CalculateDistance RecPosition DstPosition)
    let inRec := if leave then 0 else inRec
    let dataHeader := if leave then { dataHeader with m_inRec := 0 } else dataHeader
    if inRec = 1 then do
      let lastPosx ← myPos.x.toUint16
      let lastPosy ← myPos.y.toUint16
      let lastPosz ← myPos.z.toUint16
      let dataHeader := { dataHeader with
        m_lastPosx := lastPosx, m_lastPosy := lastPosy, m_lastPosz := lastPosz }
      pure { ret := true, p := some dataHeader, calls := [] }
    else if inRec = 0 then
      let nextHop := BestNeighbor t now dst myPos
      if nextHop ≠ GetZero then do
        let dstPosx ← DstPosition.x.toUint16
        let dstPosy ← DstPosition.y.toUint16
        let dstPosz ← DstPosition.z.toUint16
        let lastPosx ← myPos.x.toUint16
        let lastPosy ← myPos.y.toUint16
        let lastPosz ← myPos.z.toUint16
        let dthdr : DataHeader :=
          { m_dstPosx := dstPosx, m_dstPosy := dstPosy, m_dstPosz := dstPosz,
            m_updated := updated, m_recPosx := 0, m_recPosy := 0, m_recPosz := 0,
            m_inRec := 0,
            m_lastPosx := lastPosx, m_lastPosy := lastPosy, m_lastPosz := lastPosz }
        let route : Ipv4Route :=
          { m_dest := dst, m_source := header.m_source, m_gateway := nextHop,
            m_outputDevice := 1 }
        pure { ret := true, p := some dthdr, calls := [CallbackCall.ucb route dthdr header] }
      else do
        let recPosx ← myPos.x.toUint16
        let recPosy ← myPos.y.toUint16
        let recPosz ← myPos.z.toUint16
        let lastPosx ← DstPosition.x.toUint16
        let lastPosy ← DstPosition.y.toUint16
        let lastPosz ← DstPosition.z.toUint16
        let dataHeader := { dataHeader with
          m_inRec := 1,
          m_recPosx := recPosx, m_recPosy := recPosy, m_recPosz := recPosz,
          m_lastPosx := lastPosx, m_lastPosy := lastPosy, m_lastPosz := lastPosz }
        pure { ret := true, p := some dataHeader, calls := [] }
    else
      some { ret := true, p := none, calls := [] }

/-- The greedy attempt is made: the packet arrived in greedy mode, or in recovery
mode at a node whose computed distance to the carried destination position is less
than the computed distance of the recovery-entry position. -/
def greedyAttempt (myPos : Vector3D) (dataHeader : DataHeader) : Prop :=
  dataHeader.m_inRec = 0 ∨
    (dataHeader.m_inRec = 1 ∧
      (CalculateDistance myPos dataHeader.dstPos.toVector3D).lt
        (CalculateDistance dataHeader.recPos.toVector3D dataHeader.dstPos.toVector3D) = true)

instance (myPos : Vector3D) (dataHeader : DataHeader) :
    Decidable (greedyAttempt myPos dataHeader) := by
  unfold greedyAttempt; infer_instance

end Binary64

/-! ## Tables used in the examples -/

/-- Peers 2 and 3 at (100,0,0) and (200,0,0) and peer 9 at (400,0,0), all at rest
and sampled at time 0. -/
def lineTable : RoutingTable :=
  { m_ipv4AddressEntry :=
      [(2, { m_x := 100, m_adress := 2 }), (3, { m_x := 200, m_adress := 3 }),
       (9, { m_x := 400, m_adress := 9 })] }

/-- Peers 4 and 5 at (100,0,50) and (100,50,0), equally far from peer 9 at
(400,0,0); all at rest and sampled at time 0. -/
def tieTable : RoutingTable :=
  { m_ipv4AddressEntry :=
      [(4, { m_x := 100, m_z := 50, m_adress := 4 }),
       (5, { m_x := 100, m_y := 50, m_adress := 5 }),
       (9, { m_x := 400, m_adress := 9 })] }

/-- A peer 7 sampled at time 0 at (10,0,0) and moving by -1 along x per second. -/
def movingTable : RoutingTable :=
  { m_ipv4AddressEntry := [(7, { m_x := 10, m_vx := -1, m_adress := 7 })] }

/-- Peer 3 at (200,0,0) sampled at time 0 and peer 9 at (400,0,0) sampled at
time 5, both at rest. -/
def freshTable : RoutingTable :=
  { m_ipv4AddressEntry :=
      [(3, { m_x := 200, m_adress := 3 }),
       (9, { m_x := 400, m_timestamp := 5, m_adress := 9 })] }

/-- Peer 9 at (400,0,0), at rest and sampled at time 0, and no other peer. -/
def farTable : RoutingTable :=
  { m_ipv4AddressEntry := [(9, { m_x := 400, m_adress := 9 })] }

/-- A data header in greedy mode that carries (300,0,0), updated at time 2, as
position of the destination. -/
def greedyHeader : DataHeader :=
  { m_dstPosx := 300, m_updated := 2 }

/-- A data header in recovery mode, entered at (10,0,0), that carries (0,300,0) as
position of the destination. -/
def recoveryHeader : DataHeader :=
  { m_dstPosy := 300, m_recPosx := 10, m_inRec := 1 }

/-- A data header in recovery mode, entered at (10,0,0), that carries (400,0,0) as
position of the destination and (50,0,0) as last hop. -/
def recoveryHeader400 : DataHeader :=
  { m_dstPosx := 400, m_updated := 2, m_recPosx := 10, m_inRec := 1, m_lastPosx := 50 }

/-- The IP header of a packet from 10.0.0.1 to peer 9. -/
def toPeer9 : Ipv4Header := { m_destination := 9, m_source := 167772161 }

/-- The IP header of a packet from 10.0.0.1 to peer 8, of which no table of the
examples holds a sample. -/
def toPeer8 : Ipv4Header := { m_destination := 8, m_source := 167772161 }

/-- The IP header of a packet from 10.0.0.1 to peer 3. -/
def toPeer3 : Ipv4Header := { m_destination := 3, m_source := 167772161 }

/-- A peer 7 sampled at time 5 at (10,0,0) and moving by 2 along x per second. -/
def aheadTable : RoutingTable :=
  { m_ipv4AddressEntry := [(7, { m_x := 10, m_vx := 2, m_timestamp := 5, m_adress := 7 })] }

/-- The table of the scenario: peer `b` at (100,0,0) and the destination `d` at
(`dx`,0,0), both at rest and sampled at time 0, added in this order. -/
def scenarioTable (b d : Ipv4Address) (dx : Nat) : RoutingTable :=
  RoutingTable.addAll [{ m_x := 100, m_adress := b }, { m_x := dx, m_adress := d }]

/-- A beacon of peer 7 with timestamp 5, at (20,0,0) with velocity magnitude 3 along
x and sign code 1. -/
def beacon5 : MyprotocolHeader :=
  { m_x := 20, m_vx := 3, m_sign := 1, m_timestamp := 5, m_myadress := 7 }

/-- A beacon of peer 7 with timestamp 3, at (10,0,0) and at rest. -/
def beacon3 : MyprotocolHeader :=
  { m_x := 10, m_timestamp := 3, m_myadress := 7 }

/-- An entry keyed by the zero address and peer 9, both at (100,0,0), at rest and
sampled at time 0. -/
def zeroKeyTable : RoutingTable :=
  { m_ipv4AddressEntry :=
      [(0, { m_x := 100, m_adress := 0 }), (9, { m_x := 100, m_adress := 9 })] }

/-- A data header in greedy mode that carries (200,7,5), updated at time 2, as
position of the destination. -/
def skewHeader : DataHeader :=
  { m_dstPosx := 200, m_dstPosy := 7, m_dstPosz := 5, m_updated := 2 }

/-- A data header that carries (400,0,0) as position of the destination and the
value 2 in its recovery flag. -/
def oddFlagHeader : DataHeader :=
  { m_dstPosx := 400, m_inRec := 2 }

/-- A beacon of peer 9 with timestamp 0, at (0,300,0) and at rest. -/
def beaconFar : MyprotocolHeader :=
  { m_y := 300, m_myadress := 9 }

/-- Peer 5 at (465,377,25) and peer 9 at (1000,800,0), at rest and sampled at
time 0. -/
def roundingTable : RoutingTable :=
  { m_ipv4AddressEntry :=
      [(5, { m_x := 465, m_y := 377, m_z := 25, m_adress := 5 }),
       (9, { m_x := 1000, m_y := 800, m_adress := 9 })] }

/-- The node position (451.9663695314021, 396.1601462324925, 48.49239511971371),
each coordinate the double that the decimal numeral denotes. -/
def roundingPos : Vector3D :=
  Vector3D.mk (Double.ofDyadic 7951076458615697 (-44))
    (Double.ofDyadic 217791343622033 (-39)) (Double.ofDyadic 6824697893482673 (-47))

/-- Peer 5 at (0,250,0) and peer 9 at (0,600,0), at rest and sampled at time 0. -/
def edgeTable : RoutingTable :=
  { m_ipv4AddressEntry :=
      [(5, { m_y := 250, m_adress := 5 }), (9, { m_y := 600, m_adress := 9 })] }

/-- The node position (2^-30, 0, 0). -/
def nearOrigin : Vector3D :=
  Vector3D.mk (Double.ofDyadic 1 (-30)) (Double.ofInt 0) (Double.ofInt 0)

/-- The node position (2^-30, 250, 0). -/
def nearEdge : Vector3D :=
  Vector3D.mk (Double.ofDyadic 1 (-30)) (Double.ofInt 250) (Double.ofInt 0)

/-- The node position (1e-200, 0, 0), the double that the decimal numeral denotes. -/
def tinyPos : Vector3D :=
  Vector3D.mk (Double.ofDyadic 1723641332219371 (-715)) (Double.ofInt 0) (Double.ofInt 0)

/-- The node position (1e-20, 0, 0), the double that the decimal numeral denotes. -/
def smallPos : Vector3D :=
  Vector3D.mk (Double.ofDyadic 6646139978924579 (-119)) (Double.ofInt 0) (Double.ofInt 0)

/-- The node position (10.5, 0, 0). -/
def halfPos : Vector3D :=
  Vector3D.mk (Double.ofDyadic 21 (-1)) (Double.ofInt 0) (Double.ofInt 0)

/-- The header of `staleHeader` after the packet has entered recovery at (0,0,0): it
carries (0,300,0) as position of the destination and as last hop. -/
def enteredHeader : DataHeader :=
  { m_dstPosy := 300, m_inRec := 1, m_lastPosy := 300 }

/-- Peer 9 at (0,0,0), at rest and sampled at time 0, and no other peer. -/
def originTable : RoutingTable :=
  { m_ipv4AddressEntry := [(9, { m_adress := 9 })] }

/-- Peer 9 at (300,0,0), at rest and sampled at time 0, and no other peer. -/
def table300 : RoutingTable :=
  { m_ipv4AddressEntry := [(9, { m_x := 300, m_adress := 9 })] }

/-- A data header in recovery mode, entered at (0,0,0), that carries (300,0,0) as
position of the destination. -/
def recoveryHeader300 : DataHeader :=
  { m_dstPosx := 300, m_inRec := 1 }

/-- A data header in greedy mode that carries (0,300,0) as position of the
destination. -/
def staleHeader : DataHeader :=
  { m_dstPosy := 300 }

/-! ## Distances and the sentinel triple -/

theorem sq_sum_eq_zero (a b c : Int) :
    a * a + b * b + c * c = 0 ↔ a = 0 ∧ b = 0 ∧ c = 0 := by
  constructor
  · intro h
    have ha := mul_self_nonneg a
    have hb := mul_self_nonneg b
    have hc := mul_self_nonneg c
    refine ⟨?_, ?_, ?_⟩
    · exact mul_self_eq_zero.mp (by omega)
    · exact mul_self_eq_zero.mp (by omega)
    · exact mul_self_eq_zero.mp (by omega)
  · rintro ⟨rfl, rfl, rfl⟩; rfl

theorem CalculateDistanceSq_eq_zero (a b : Vector) :
    CalculateDistanceSq a b = 0 ↔ a = b := by
  unfold CalculateDistanceSq
  rw [sq_sum_eq_zero]
  constructor
  · rintro ⟨h1, h2, h3⟩
    cases a; cases b
    simp only [Vector.mk.injEq]
    simp only at h1 h2 h3
    omega
  · rintro rfl
    simp

theorem toUint16_nonneg (i : Int) : 0 ≤ toUint16 i := by
  unfold toUint16; omega

theorem toUint16_lt (i : Int) : toUint16 i < 65536 := by
  unfold toUint16; omega

theorem toUint16_le (i : Int) : toUint16 i ≤ 65535 := by
  unfold toUint16; omega

theorem toUint16_add_mul (x e v : Int) :
    toUint16 (x + toUint16 e * v) = toUint16 (x + e * v) := by
  unfold toUint16
  rw [Int.add_emod x (e % 65536 * v), Int.mul_emod (e % 65536), Int.emod_emod,
    ← Int.mul_emod, ← Int.add_emod]

namespace RoutingTable

theorem PredictPosition_none {t : RoutingTable} {id : Ipv4Address} (now : Int)
    (h : t.LookupRoute id = none) :
    t.PredictPosition now id = Vector.mk (-1) (-1) (-1) := by
  simp [PredictPosition, h]

theorem PredictPosition_some {t : RoutingTable} {id : Ipv4Address} {rt : RoutingTableEntry}
    (now : Int) (h : t.LookupRoute id = some rt) :
    t.PredictPosition now id =
      Vector.mk (toUint16 (rt.m_x + toUint16 (now - rt.m_timestamp) * rt.m_vx))
        (toUint16 (rt.m_y + toUint16 (now - rt.m_timestamp) * rt.m_vy))
        (toUint16 (rt.m_z + toUint16 (now - rt.m_timestamp) * rt.m_vz)) := by
  simp [PredictPosition, h]

theorem PredictPosition_ne_sentinel {t : RoutingTable} {id : Ipv4Address}
    {rt : RoutingTableEntry} (now : Int) (h : t.LookupRoute id = some rt) :
    t.PredictPosition now id ≠ Vector.mk (-1) (-1) (-1) := by
  rw [PredictPosition_some now h]
  intro hc
  have hx := congrArg Vector.x hc
  simp only at hx
  have := toUint16_nonneg (rt.m_x + toUint16 (now - rt.m_timestamp) * rt.m_vx)
  omega

theorem sentinel_test_iff (t : RoutingTable) (now : Int) (id : Ipv4Address) :
    CalculateDistanceSq (t.PredictPosition now id) (Vector.mk (-1) (-1) (-1)) = 0 ↔
      t.LookupRoute id = none := by
  rw [CalculateDistanceSq_eq_zero]
  constructor
  · intro h
    cases hl : t.LookupRoute id with
    | none => rfl
    | some rt => exact absurd h (PredictPosition_ne_sentinel now hl)
  · intro h
    exact PredictPosition_none now h

theorem LookupRoute_eq_find (t : RoutingTable) (id : Ipv4Address) :
    t.LookupRoute id = StdMap.find t.m_ipv4AddressEntry id := by
  unfold LookupRoute
  cases h : t.m_ipv4AddressEntry with
  | nil => simp [StdMap.find]
  | cons a l => simp

end RoutingTable

/-! ## The ordered map -/

namespace StdMap

theorem mem_keys_insert (m : StdMap) (k : Ipv4Address) (v : RoutingTableEntry)
    (a : Ipv4Address) : a ∈ keys (insert m k v).1 ↔ a = k ∨ a ∈ keys m := by
  induction m with
  | nil => simp [insert, keys]
  | cons hd rest ih =>
    obtain ⟨k', v'⟩ := hd
    unfold insert
    by_cases h1 : k = k'
    · subst h1
      simp [keys]
    · by_cases h2 : k < k'
      · simp [h1, h2, keys]
      · simp only [h1, h2, if_false]
        simp only [keys, List.map_cons, List.mem_cons] at ih ⊢
        rw [ih]
        tauto

theorem sorted_insert (m : StdMap) (k : Ipv4Address) (v : RoutingTableEntry)
    (hm : (keys m).Pairwise (· < ·)) : (keys (insert m k v).1).Pairwise (· < ·) := by
  induction m with
  | nil => simp [insert, keys]
  | cons hd rest ih =>
    obtain ⟨k', v'⟩ := hd
    have hrest : (keys rest).Pairwise (· < ·) := by
      simp only [keys, List.map_cons, List.pairwise_cons] at hm
      exact hm.2
    have hhead : ∀ a ∈ keys rest, k' < a := by
      simp only [keys, List.map_cons, List.pairwise_cons] at hm
      exact hm.1
    unfold insert
    by_cases h1 : k = k'
    · simpa [h1] using hm
    · by_cases h2 : k < k'
      · simp only [h1, h2, if_true, if_false]
        simp only [keys, List.map_cons, List.pairwise_cons, List.mem_cons] at hm ⊢
        refine ⟨?_, hm⟩
        intro a ha
        rcases ha with rfl | ha
        · exact h2
        · exact lt_trans h2 (hm.1 a ha)
      · simp only [h1, h2, if_false]
        have ih' := ih hrest
        simp only [keys, List.map_cons, List.pairwise_cons] at ih' ⊢
        refine ⟨?_, ih'⟩
        intro a ha
        have ha' : a ∈ keys (insert rest k v).1 := ha
        rw [mem_keys_insert] at ha'
        rcases ha' with rfl | ha'
        · exact lt_of_le_of_ne (not_lt.mp h2) (Ne.symm h1)
        · exact hhead a ha'

theorem find_eq_none_of_not_mem (m : StdMap) (a : Ipv4Address) (h : a ∉ keys m) :
    find m a = none := by
  induction m with
  | nil => rfl
  | cons hd rest ih =>
    obtain ⟨k', v'⟩ := hd
    simp only [keys, List.map_cons, List.mem_cons, not_or] at h
    simp only [find, h.1, if_false]
    exact ih h.2

theorem mem_keys_iff_find (m : StdMap) (a : Ipv4Address) :
    a ∈ keys m ↔ ∃ e, find m a = some e := by
  induction m with
  | nil => simp [keys, find]
  | cons hd rest ih =>
    obtain ⟨k', v'⟩ := hd
    by_cases h : a = k'
    · simp [keys, find, h]
    · simp only [keys, List.map_cons, List.mem_cons, h, false_or, find, if_false]
      exact ih

/-- Looking a key up after an insertion into a map iterated in key order. -/
theorem find_insert (m : StdMap) (k : Ipv4Address) (v : RoutingTableEntry)
    (hm : (keys m).Pairwise (· < ·)) (a : Ipv4Address) :
    find (insert m k v).1 a =
      match find m a with
      | some e => some e
      | none => if a = k then some v else none := by
  induction m with
  | nil =>
    by_cases h : a = k <;> simp [insert, find, h]
  | cons hd rest ih =>
    obtain ⟨k', v'⟩ := hd
    have hrest : (keys rest).Pairwise (· < ·) := by
      simp only [keys, List.map_cons, List.pairwise_cons] at hm
      exact hm.2
    have hhead : ∀ b ∈ keys rest, k' < b := by
      simp only [keys, List.map_cons, List.pairwise_cons] at hm
      exact hm.1
    unfold insert
    by_cases h1 : k = k'
    · subst h1
      by_cases h : a = k <;> simp [find, h]
      cases find rest a <;> simp
    · by_cases h2 : k < k'
      · simp only [h1, h2, if_true, if_false]
        by_cases h : a = k
        · subst h
          have hnot : a ∉ keys rest := fun hmem =>
            absurd (lt_trans h2 (hhead a hmem)) (lt_irrefl a)
          simp [find, h1, find_eq_none_of_not_mem rest a hnot]
        · by_cases h3 : a = k'
          · subst h3
            simp [find, h]
          · simp only [find, h, h3, if_false]
            cases find rest a <;> simp
      · simp only [h1, h2, if_false]
        by_cases h3 : a = k'
        · simp [find, h3]
        · simp only [find, h3, if_false]
          exact ih hrest

end StdMap

/-! ## The neighbor filter -/

namespace RoutingTable

theorem LookupNeighborStep_eq (t : RoutingTable) (now : Int) (myPos : Vector)
    (acc : StdMap) (i : Ipv4Address × RoutingTableEntry) :
    LookupNeighborStep t now myPos acc i =
      if t.withinRange now myPos i.1 then (StdMap.insert acc i.1 i.2).1 else acc := by
  unfold LookupNeighborStep withinRange
  by_cases h1 : CalculateDistanceSq (t.PredictPosition now i.1) (Vector.mk (-1) (-1) (-1)) = 0
  · simp [h1]
  · by_cases h2 : CalculateDistanceSq (t.PredictPosition now i.1) myPos ≤ 250 * 250
    · simp [h1, h2]
    · simp [h1, h2]

theorem sorted_foldl_LookupNeighborStep (t : RoutingTable) (now : Int) (myPos : Vector)
    (l : StdMap) (acc : StdMap) (hacc : (StdMap.keys acc).Pairwise (· < ·)) :
    (StdMap.keys (l.foldl (LookupNeighborStep t now myPos) acc)).Pairwise (· < ·) := by
  induction l generalizing acc with
  | nil => simpa using hacc
  | cons hd rest ih =>
    simp only [List.foldl_cons]
    apply ih
    rw [LookupNeighborStep_eq]
    split
    · exact StdMap.sorted_insert acc hd.1 hd.2 hacc
    · exact hacc

theorem mem_keys_foldl_LookupNeighborStep (t : RoutingTable) (now : Int) (myPos : Vector)
    (l : StdMap) (acc : StdMap) (a : Ipv4Address) :
    a ∈ StdMap.keys (l.foldl (LookupNeighborStep t now myPos) acc) ↔
      a ∈ StdMap.keys acc ∨ (a ∈ StdMap.keys l ∧ t.withinRange now myPos a) := by
  induction l generalizing acc with
  | nil => simp [StdMap.keys]
  | cons hd rest ih =>
    simp only [List.foldl_cons]
    rw [ih, LookupNeighborStep_eq]
    have hk : StdMap.keys (hd :: rest) = hd.1 :: StdMap.keys rest := rfl
    rw [hk, List.mem_cons]
    by_cases h : t.withinRange now myPos hd.1
    · rw [if_pos h, StdMap.mem_keys_insert]
      constructor
      · rintro ((rfl | h1) | h2)
        · exact Or.inr ⟨Or.inl rfl, h⟩
        · exact Or.inl h1
        · exact Or.inr ⟨Or.inr h2.1, h2.2⟩
      · rintro (h1 | ⟨rfl | h2, h3⟩)
        · exact Or.inl (Or.inr h1)
        · exact Or.inl (Or.inl rfl)
        · exact Or.inr ⟨h2, h3⟩
    · rw [if_neg h]
      constructor
      · rintro (h1 | h2)
        · exact Or.inl h1
        · exact Or.inr ⟨Or.inr h2.1, h2.2⟩
      · rintro (h1 | ⟨rfl | h2, h3⟩)
        · exact Or.inl h1
        · exact absurd h3 h
        · exact Or.inr ⟨h2, h3⟩

theorem find_foldl_LookupNeighborStep (t : RoutingTable) (now : Int) (myPos : Vector)
    (l : StdMap) (acc : StdMap) (hacc : (StdMap.keys acc).Pairwise (· < ·))
    (a : Ipv4Address) :
    StdMap.find (l.foldl (LookupNeighborStep t now myPos) acc) a =
      match StdMap.find acc a with
      | some e => some e
      | none => if t.withinRange now myPos a then StdMap.find l a else none := by
  induction l generalizing acc with
  | nil =>
    simp only [List.foldl_nil, StdMap.find, ite_self]
    cases StdMap.find acc a <;> rfl
  | cons hd rest ih =>
    obtain ⟨k, v⟩ := hd
    simp only [List.foldl_cons]
    rw [LookupNeighborStep_eq]
    by_cases h : t.withinRange now myPos k
    · rw [if_pos h, ih _ (StdMap.sorted_insert acc k v hacc), StdMap.find_insert acc k v hacc]
      cases hf : StdMap.find acc a with
      | some e => rfl
      | none =>
        by_cases hak : a = k
        · subst hak
          simp [StdMap.find, h]
        · simp [StdMap.find, hak]
    · rw [if_neg h, ih _ hacc]
      cases hf : StdMap.find acc a with
      | some e => rfl
      | none =>
        by_cases hak : a = k
        · subst hak
          simp [StdMap.find, h]
        · simp [StdMap.find, hak]

theorem sorted_LookupNeighbor (t : RoutingTable) (now : Int) (myPos : Vector) :
    (StdMap.keys (t.LookupNeighbor now [] myPos)).Pairwise (· < ·) :=
  sorted_foldl_LookupNeighborStep t now myPos _ [] (by simp [StdMap.keys])

theorem mem_keys_LookupNeighbor (t : RoutingTable) (now : Int) (myPos : Vector)
    (a : Ipv4Address) :
    a ∈ StdMap.keys (t.LookupNeighbor now [] myPos) ↔
      (∃ e, t.LookupRoute a = some e) ∧
        CalculateDistanceSq (t.PredictPosition now a) myPos ≤ 250 * 250 := by
  have hmem : a ∈ StdMap.keys t.m_ipv4AddressEntry ↔ ∃ e, t.LookupRoute a = some e := by
    rw [LookupRoute_eq_find]
    exact StdMap.mem_keys_iff_find _ a
  have hnil : a ∉ StdMap.keys [] := by simp [StdMap.keys]
  unfold LookupNeighbor
  rw [mem_keys_foldl_LookupNeighborStep, hmem]
  unfold withinRange
  rw [sentinel_test_iff]
  constructor
  · rintro (h0 | ⟨h1, -, h3⟩)
    · exact absurd h0 hnil
    · exact ⟨h1, h3⟩
  · rintro ⟨⟨e, he⟩, h3⟩
    exact Or.inr ⟨⟨e, he⟩, by simp [he], h3⟩

theorem find_LookupNeighbor (t : RoutingTable) (now : Int) (myPos : Vector)
    (a : Ipv4Address) (e : RoutingTableEntry) :
    StdMap.find (t.LookupNeighbor now [] myPos) a = some e ↔
      t.LookupRoute a = some e ∧
        CalculateDistanceSq (t.PredictPosition now a) myPos ≤ 250 * 250 := by
  have hnil : StdMap.find [] a = none := rfl
  unfold LookupNeighbor
  rw [find_foldl_LookupNeighborStep t now myPos _ [] (by simp [StdMap.keys]), hnil,
    ← LookupRoute_eq_find]
  unfold withinRange
  simp only [sentinel_test_iff]
  constructor
  · intro h
    split at h
    · rename_i hadm
      exact ⟨h, hadm.2⟩
    · exact absurd h (by simp)
  · rintro ⟨h1, h2⟩
    have hadm : ¬ t.LookupRoute a = none ∧
        CalculateDistanceSq (t.PredictPosition now a) myPos ≤ 250 * 250 :=
      ⟨by simp [h1], h2⟩
    simp only [if_pos hadm]
    exact h1

end RoutingTable

/-! ## The selection loop of `BestNeighbor` -/

namespace RoutingTable

theorem CalculateDistanceSq_comm (a b : Vector) :
    CalculateDistanceSq a b = CalculateDistanceSq b a := by
  unfold CalculateDistanceSq
  ring

/-- What the loop over the neighbor map computes, started at `bestFoundID = b`. -/
theorem foldl_BestNeighborStep (t : RoutingTable) (now : Int) (pd : Vector)
    (l : StdMap) (b : Ipv4Address) :
    (l.foldl (BestNeighborStep t now pd)
        (b, CalculateDistanceSq (t.PredictPosition now b) pd)).2 =
      CalculateDistanceSq (t.PredictPosition now
        (l.foldl (BestNeighborStep t now pd)
          (b, CalculateDistanceSq (t.PredictPosition now b) pd)).1) pd ∧
    ((l.foldl (BestNeighborStep t now pd)
        (b, CalculateDistanceSq (t.PredictPosition now b) pd)).1 = b ∨
      ((l.foldl (BestNeighborStep t now pd)
          (b, CalculateDistanceSq (t.PredictPosition now b) pd)).1 ∈ StdMap.keys l ∧
        (l.foldl (BestNeighborStep t now pd)
          (b, CalculateDistanceSq (t.PredictPosition now b) pd)).2 <
          CalculateDistanceSq (t.PredictPosition now b) pd)) ∧
    (l.foldl (BestNeighborStep t now pd)
        (b, CalculateDistanceSq (t.PredictPosition now b) pd)).2 ≤
      CalculateDistanceSq (t.PredictPosition now b) pd ∧
    ∀ m ∈ StdMap.keys l,
      (l.foldl (BestNeighborStep t now pd)
        (b, CalculateDistanceSq (t.PredictPosition now b) pd)).2 ≤
        CalculateDistanceSq (t.PredictPosition now m) pd := by
  induction l generalizing b with
  | nil => simp [StdMap.keys]
  | cons hd rest ih =>
    obtain ⟨k, v⟩ := hd
    have hk : StdMap.keys ((k, v) :: rest) = k :: StdMap.keys rest := rfl
    simp only [List.foldl_cons, hk, List.mem_cons, forall_eq_or_imp]
    by_cases hlt : CalculateDistanceSq (t.PredictPosition now b) pd >
        CalculateDistanceSq (t.PredictPosition now k) pd
    · have hstep : BestNeighborStep t now pd
          (b, CalculateDistanceSq (t.PredictPosition now b) pd) (k, v) =
          (k, CalculateDistanceSq (t.PredictPosition now k) pd) := by
        simp [BestNeighborStep, hlt]
      rw [hstep]
      obtain ⟨h1, h2, h3, h4⟩ := ih k
      refine ⟨h1, ?_, ?_, h3, h4⟩
      · right
        rcases h2 with h2 | ⟨h2, h2'⟩
        · exact ⟨Or.inl h2, by rw [h1, h2]; exact hlt⟩
        · exact ⟨Or.inr h2, lt_trans h2' hlt⟩
      · exact le_of_lt (lt_of_le_of_lt h3 hlt)
    · have hstep : BestNeighborStep t now pd
          (b, CalculateDistanceSq (t.PredictPosition now b) pd) (k, v) =
          (b, CalculateDistanceSq (t.PredictPosition now b) pd) := by
        simp [BestNeighborStep, hlt]
      rw [hstep]
      obtain ⟨h1, h2, h3, h4⟩ := ih b
      refine ⟨h1, ?_, h3, le_trans h3 (not_lt.mp hlt), h4⟩
      rcases h2 with h2 | ⟨h2, h2'⟩
      · exact Or.inl h2
      · exact Or.inr ⟨Or.inr h2, h2'⟩

/-- The loop keeps the first key, in iteration order, that attains the least distance. -/
theorem foldl_BestNeighborStep_first (t : RoutingTable) (now : Int) (pd : Vector)
    (l : StdMap) (b : Ipv4Address) (hl : (StdMap.keys l).Pairwise (· < ·))
    (hb : ∀ k ∈ StdMap.keys l, b ≤ k) :
    ∀ m ∈ StdMap.keys l,
      CalculateDistanceSq (t.PredictPosition now m) pd =
        (l.foldl (BestNeighborStep t now pd)
          (b, CalculateDistanceSq (t.PredictPosition now b) pd)).2 →
      (l.foldl (BestNeighborStep t now pd)
        (b, CalculateDistanceSq (t.PredictPosition now b) pd)).1 ≤ m := by
  induction l generalizing b with
  | nil => simp [StdMap.keys]
  | cons hd rest ih =>
    obtain ⟨k, v⟩ := hd
    have hk : StdMap.keys ((k, v) :: rest) = k :: StdMap.keys rest := rfl
    rw [hk, List.pairwise_cons] at hl
    rw [hk] at hb
    simp only [List.foldl_cons, hk, List.mem_cons, forall_eq_or_imp]
    by_cases hlt : CalculateDistanceSq (t.PredictPosition now b) pd >
        CalculateDistanceSq (t.PredictPosition now k) pd
    · have hstep : BestNeighborStep t now pd
          (b, CalculateDistanceSq (t.PredictPosition now b) pd) (k, v) =
          (k, CalculateDistanceSq (t.PredictPosition now k) pd) := by
        simp [BestNeighborStep, hlt]
      rw [hstep]
      obtain ⟨-, h2, -, -⟩ := foldl_BestNeighborStep t now pd rest k
      refine ⟨?_, ih k hl.2 (fun a ha => le_of_lt (hl.1 a ha))⟩
      intro heq
      rcases h2 with h2 | ⟨-, h2'⟩
      · exact le_of_eq h2
      · exact absurd heq (ne_of_gt h2')
    · have hstep : BestNeighborStep t now pd
          (b, CalculateDistanceSq (t.PredictPosition now b) pd) (k, v) =
          (b, CalculateDistanceSq (t.PredictPosition now b) pd) := by
        simp [BestNeighborStep, hlt]
      rw [hstep]
      obtain ⟨-, h2, -, -⟩ := foldl_BestNeighborStep t now pd rest b
      refine ⟨?_, ih b hl.2 (fun a ha => hb a (List.mem_cons_of_mem _ ha))⟩
      intro heq
      rcases h2 with h2 | ⟨-, h2'⟩
      · rw [h2]
        exact hb k (List.mem_cons_self _ _)
      · exact absurd (lt_of_lt_of_le (heq ▸ h2') (not_lt.mp hlt)) (lt_irrefl _)

end RoutingTable

namespace RoutingTable

/-- The two outcomes of `BestNeighbor`: the zero address, for one of three reasons,
or the first neighbor in key order that attains the least predicted distance to the
destination, which then is strictly closer to it than `myPos`. -/
theorem BestNeighbor_cases (t : RoutingTable) (now : Int) (dst : Ipv4Address)
    (myPos : Vector) :
    (t.BestNeighbor now dst myPos = GetZero ∧
      (t.LookupRoute dst = none ∨ t.LookupNeighbor now [] myPos = [] ∨
        ∀ m ∈ StdMap.keys (t.LookupNeighbor now [] myPos),
          CalculateDistanceSq (t.PredictPosition now dst) myPos ≤
            CalculateDistanceSq (t.PredictPosition now m) (t.PredictPosition now dst))) ∨
    (t.LookupRoute dst ≠ none ∧
      t.BestNeighbor now dst myPos ∈ StdMap.keys (t.LookupNeighbor now [] myPos) ∧
      CalculateDistanceSq (t.PredictPosition now (t.BestNeighbor now dst myPos))
          (t.PredictPosition now dst) <
        CalculateDistanceSq (t.PredictPosition now dst) myPos ∧
      (∀ m ∈ StdMap.keys (t.LookupNeighbor now [] myPos),
        CalculateDistanceSq (t.PredictPosition now (t.BestNeighbor now dst myPos))
            (t.PredictPosition now dst) ≤
          CalculateDistanceSq (t.PredictPosition now m) (t.PredictPosition now dst)) ∧
      (∀ m ∈ StdMap.keys (t.LookupNeighbor now [] myPos),
        CalculateDistanceSq (t.PredictPosition now m) (t.PredictPosition now dst) =
            CalculateDistanceSq (t.PredictPosition now (t.BestNeighbor now dst myPos))
              (t.PredictPosition now dst) →
          t.BestNeighbor now dst myPos ≤ m)) := by
  by_cases hs : CalculateDistanceSq (t.PredictPosition now dst) (Vector.mk (-1) (-1) (-1)) = 0
  · left
    refine ⟨?_, Or.inl ((sentinel_test_iff t now dst).mp hs)⟩
    simp [BestNeighbor, hs]
  · have hdst : t.LookupRoute dst ≠ none := fun h => hs ((sentinel_test_iff t now dst).mpr h)
    have hsorted := sorted_LookupNeighbor t now myPos
    cases hnt : t.LookupNeighbor now [] myPos with
    | nil =>
      left
      refine ⟨?_, Or.inr (Or.inl rfl)⟩
      simp [BestNeighbor, hs, hnt]
    | cons first tl =>
      rw [hnt] at hsorted
      have hfirst : ∀ k ∈ StdMap.keys (first :: tl), first.1 ≤ k := by
        intro k hk
        have hk' : k ∈ first.1 :: StdMap.keys tl := hk
        have hp : (first.1 :: StdMap.keys tl).Pairwise (· < ·) := hsorted
        rw [List.pairwise_cons] at hp
        rcases List.mem_cons.mp hk' with rfl | hk'
        · exact le_refl _
        · exact le_of_lt (hp.1 k hk')
      obtain ⟨h1, h2, -, h4⟩ :=
        foldl_BestNeighborStep t now (t.PredictPosition now dst) (first :: tl) first.1
      have h5 := foldl_BestNeighborStep_first t now (t.PredictPosition now dst)
        (first :: tl) first.1 hsorted hfirst
      have hmem : ((first :: tl).foldl (BestNeighborStep t now (t.PredictPosition now dst))
          (first.1, CalculateDistanceSq (t.PredictPosition now first.1)
            (t.PredictPosition now dst))).1 ∈ StdMap.keys (first :: tl) := by
        rcases h2 with h2 | ⟨h2, -⟩
        · rw [h2]
          exact List.mem_cons_self _ _
        · exact h2
      by_cases hgt : CalculateDistanceSq (t.PredictPosition now dst) myPos >
          ((first :: tl).foldl (BestNeighborStep t now (t.PredictPosition now dst))
            (first.1, CalculateDistanceSq (t.PredictPosition now first.1)
              (t.PredictPosition now dst))).2
      · right
        have hval : t.BestNeighbor now dst myPos =
            ((first :: tl).foldl (BestNeighborStep t now (t.PredictPosition now dst))
              (first.1, CalculateDistanceSq (t.PredictPosition now first.1)
                (t.PredictPosition now dst))).1 := by
          simp only [BestNeighbor, hs, hnt, if_false]
          rw [if_pos hgt]
        rw [hval, ← h1]
        exact ⟨hdst, hmem, hgt, h4, h5⟩
      · left
        have hval : t.BestNeighbor now dst myPos = GetZero := by
          simp only [BestNeighbor, hs, hnt, if_false]
          rw [if_neg hgt]
        refine ⟨hval, Or.inr (Or.inr ?_)⟩
        intro m hm
        exact le_trans (not_lt.mp hgt) (h4 m hm)

end RoutingTable

/-! ## Insertion order -/

namespace StdMap

theorem insert_comm (m : StdMap) (k1 k2 : Nat) (v1 v2 : RoutingTableEntry)
    (h : k1 ≠ k2) :
    (insert (insert m k1 v1).1 k2 v2).1 = (insert (insert m k2 v2).1 k1 v1).1 := by
  induction m with
  | nil =>
    rcases Nat.lt_or_gt_of_ne h with h' | h'
    · have h1 : ¬ k2 < k1 := by omega
      have h2 : ¬ k2 = k1 := by omega
      simp [insert, h, h', h1, h2]
    · have h1 : ¬ k1 < k2 := by omega
      have h2 : ¬ k2 = k1 := by omega
      simp [insert, h, h', h1, h2]
  | cons hd rest ih =>
    obtain ⟨k', v'⟩ := hd
    by_cases e1 : k1 = k'
    · subst e1
      by_cases l2 : k2 < k1
      · have l2' : ¬ k1 < k2 := by omega
        simp [insert, h, Ne.symm h, l2, l2']
      · simp [insert, h, Ne.symm h, l2]
    · by_cases e2 : k2 = k'
      · subst e2
        by_cases l1 : k1 < k2
        · have l1' : ¬ k2 < k1 := by omega
          simp [insert, h, Ne.symm h, l1, l1']
        · simp [insert, h, Ne.symm h, l1]
      · by_cases l1 : k1 < k' <;> by_cases l2 : k2 < k'
        · rcases Nat.lt_or_gt_of_ne h with h' | h'
          · have h1 : ¬ k2 < k1 := by omega
            simp [insert, h, Ne.symm h, e1, e2, l1, l2, h', h1]
          · have h1 : ¬ k1 < k2 := by omega
            simp [insert, h, Ne.symm h, e1, e2, l1, l2, h', h1]
        · have h1 : k1 < k2 := by omega
          have h2 : ¬ k2 < k1 := by omega
          simp [insert, h, Ne.symm h, e1, e2, l1, l2, h1, h2]
        · have h1 : k2 < k1 := by omega
          have h2 : ¬ k1 < k2 := by omega
          simp [insert, h, Ne.symm h, e1, e2, l1, l2, h1, h2]
        · simp [insert, e1, e2, l1, l2, ih]

end StdMap

namespace RoutingTable

/-- Two insertion orders of entries with pairwise distinct addresses build the same
table. -/
theorem addAll_perm (es1 es2 : List RoutingTableEntry) (hp : es1.Perm es2)
    (hd : (es1.map RoutingTableEntry.m_adress).Nodup) :
    addAll es1 = addAll es2 := by
  unfold addAll
  apply List.Perm.foldl_eq' hp
  intro x hx y hy z
  by_cases hxy : x.m_adress = y.m_adress
  · have : x = y := List.inj_on_of_nodup_map hd hx hy hxy
    rw [this]
  · simp only [AddRoute]
    rw [StdMap.insert_comm _ _ _ _ _ hxy]

end RoutingTable

namespace RoutingTable

end RoutingTable

/-! ## Position prediction: the claims -/

namespace RoutingTable

/-- C6, as stated, fails: peer 7 of `movingTable` was sampled at time 0 at
(10,0,0) with velocity -1 along x.  At `now = 11` the formula
`x + e * vx` gives -1, while `PredictPosition` returns the `uint16_t` value 65535. -/
theorem C6_PredictPosition_formula_counterexample :
    movingTable.LookupRoute 7 = some { m_x := 10, m_vx := -1, m_adress := 7 } ∧
      ((0 : Nat) : Int) ≤ 11 ∧
      movingTable.PredictPosition 11 7 = Vector.mk 65535 0 0 ∧
      movingTable.PredictPosition 11 7 ≠
        Vector.mk (((10 : Nat) : Int) + (11 - ((0 : Nat) : Int)) * (-1))
          (((0 : Nat) : Int) + (11 - ((0 : Nat) : Int)) * 0)
          (((0 : Nat) : Int) + (11 - ((0 : Nat) : Int)) * 0) := by
  decide

/-- C6, amended.  For a stored entry `(x, y, z, vx, vy, vz, timestamp)` and a clock
value `now >= timestamp`, with `e = now - timestamp`: if each of `x + e * vx`,
`y + e * vy`, `z + e * vz` lies in `[0, 65535]`, then `PredictPosition` returns
exactly `(x + e * vx, y + e * vy, z + e * vz)`. -/
theorem C6_PredictPosition_formula (t : RoutingTable) (now : Int) (id : Ipv4Address)
    (rt : RoutingTableEntry) (hrt : t.LookupRoute id = some rt)
    (_hnow : (rt.m_timestamp : Int) ≤ now)
    (hx : 0 ≤ rt.m_x + (now - rt.m_timestamp) * rt.m_vx ∧
      rt.m_x + (now - rt.m_timestamp) * rt.m_vx ≤ 65535)
    (hy : 0 ≤ rt.m_y + (now - rt.m_timestamp) * rt.m_vy ∧
      rt.m_y + (now - rt.m_timestamp) * rt.m_vy ≤ 65535)
    (hz : 0 ≤ rt.m_z + (now - rt.m_timestamp) * rt.m_vz ∧
      rt.m_z + (now - rt.m_timestamp) * rt.m_vz ≤ 65535) :
    t.PredictPosition now id =
      Vector.mk (rt.m_x + (now - rt.m_timestamp) * rt.m_vx)
        (rt.m_y + (now - rt.m_timestamp) * rt.m_vy)
        (rt.m_z + (now - rt.m_timestamp) * rt.m_vz) := by
  rw [PredictPosition_some now hrt, toUint16_add_mul, toUint16_add_mul, toUint16_add_mul]
  unfold toUint16
  rw [Int.emod_eq_of_lt hx.1 (by omega), Int.emod_eq_of_lt hy.1 (by omega),
    Int.emod_eq_of_lt hz.1 (by omega)]

/-- Witness of the amended C6: at `now = 4` peer 7 of `movingTable` is predicted at
(6,0,0). -/
theorem C6_PredictPosition_formula_witness :
    movingTable.PredictPosition 4 7 = Vector.mk 6 0 0 ∧
    movingTable.PredictPosition 4 7 =
      Vector.mk (((10 : Nat) : Int) + (4 - ((0 : Nat) : Int)) * (-1))
        (((0 : Nat) : Int) + (4 - ((0 : Nat) : Int)) * 0)
        (((0 : Nat) : Int) + (4 - ((0 : Nat) : Int)) * 0) :=
  ⟨by decide,
    C6_PredictPosition_formula movingTable 4 7 { m_x := 10, m_vx := -1, m_adress := 7 }
      (by decide) (by decide) (by decide) (by decide) (by decide)⟩

/-- C7 (unknown is unambiguous).  `PredictPosition (id)` returns the triple
(-1,-1,-1) exactly when the table has no entry for `id`, at every clock value; and
the test `CalculateDistance (PredictPosition (id), Vector (-1,-1,-1)) == 0`, by which
`LookupNeighbor`, `BestNeighbor` and `MatchRecovery` recognise an unknown peer,
succeeds exactly when the table has no entry for `id`. -/
theorem C7_PredictPosition_unknown_iff (t : RoutingTable) (now : Int)
    (id : Ipv4Address) :
    (t.PredictPosition now id = Vector.mk (-1) (-1) (-1) ↔ t.LookupRoute id = none) ∧
    (CalculateDistanceSq (t.PredictPosition now id) (Vector.mk (-1) (-1) (-1)) = 0 ↔
      t.LookupRoute id = none) := by
  refine ⟨?_, sentinel_test_iff t now id⟩
  rw [← CalculateDistanceSq_eq_zero]
  exact sentinel_test_iff t now id

end RoutingTable

/-! ## Beacon receipt: the claims -/

namespace StdMap

theorem find_insert_of_find_none (m : StdMap) (k : Ipv4Address) (v : RoutingTableEntry)
    (hk : find m k = none) (a : Ipv4Address) :
    find (insert m k v).1 a = if a = k then some v else find m a := by
  induction m with
  | nil => simp [insert, find]
  | cons hd rest ih =>
    obtain ⟨k', v'⟩ := hd
    have hne : k ≠ k' := by
      intro h
      simp [find, h] at hk
    have hrest : find rest k = none := by
      simpa [find, hne] using hk
    unfold insert
    by_cases h2 : k < k'
    · simp only [hne, h2, if_true, if_false]
      by_cases ha : a = k
      · simp [find, ha]
      · simp [find, ha]
    · simp only [hne, h2, if_false]
      by_cases ha : a = k'
      · have hak : a ≠ k := fun h => hne (h ▸ ha)
        simp [find, ha, Ne.symm hne]
      · simp only [find, ha, if_false]
        exact ih hrest

theorem length_insert_of_find_none (m : StdMap) (k : Ipv4Address) (v : RoutingTableEntry)
    (hk : find m k = none) : (insert m k v).1.length = m.length + 1 := by
  induction m with
  | nil => simp [insert]
  | cons hd rest ih =>
    obtain ⟨k', v'⟩ := hd
    have hne : k ≠ k' := by
      intro h
      simp [find, h] at hk
    have hrest : find rest k = none := by
      simpa [find, hne] using hk
    unfold insert
    by_cases h2 : k < k'
    · simp [hne, h2]
    · simp [hne, h2, ih hrest]

end StdMap

/-- C8, the code at a failing input.  The table holds for peer 7 the sample of
`beacon3` (timestamp 3, position (10,0,0)); `beacon5` (timestamp 5, position
(20,0,0), velocity -3 along x) is then received.  Afterwards `LookupRoute` still
returns the sample with timestamp 3: the table is the one before the call, and the
beacon's data sit only in the local variable `rt`. -/
theorem C8_RecvMyprotocol_overwrite_lost :
    (RecvMyprotocol GetRightVelocity {} beacon3).1.LookupRoute 7 =
        some { m_x := 10, m_timestamp := 3, m_adress := 7 } ∧
      (RecvMyprotocol GetRightVelocity
          (RecvMyprotocol GetRightVelocity {} beacon3).1 beacon5).1 =
        (RecvMyprotocol GetRightVelocity {} beacon3).1 ∧
      (RecvMyprotocol GetRightVelocity
          (RecvMyprotocol GetRightVelocity {} beacon3).1 beacon5).1.LookupRoute 7 =
        some { m_x := 10, m_timestamp := 3, m_adress := 7 } ∧
      (RecvMyprotocol GetRightVelocity
          (RecvMyprotocol GetRightVelocity {} beacon3).1 beacon5).2 =
        { m_x := 20, m_vx := -3, m_timestamp := 5, m_adress := 7 } := by
  decide

/-- C9 (stale beacon discarded).  When `RecvMyprotocol` processes a beacon whose
timestamp is strictly smaller than the timestamp of the entry stored for the beacon's
address, the position table afterwards is the table before. -/
theorem C9_RecvMyprotocol_stale_unchanged (getRightVelocity : Nat → Nat → Nat → Nat → Vector)
    (t : RoutingTable) (hdr : MyprotocolHeader) (rt : RoutingTableEntry)
    (hrt : t.LookupRoute hdr.m_myadress = some rt)
    (hstale : hdr.m_timestamp < rt.m_timestamp) :
    (RecvMyprotocol getRightVelocity t hdr).1 = t := by
  simp [RecvMyprotocol, hrt, hstale]

/-- Witness of C9: a beacon of peer 7 with timestamp 5 and then one with timestamp 3;
the sample with timestamp 5 stays stored. -/
theorem C9_RecvMyprotocol_stale_unchanged_witness :
    (RecvMyprotocol GetRightVelocity
        (RecvMyprotocol GetRightVelocity {} beacon5).1 beacon3).1.LookupRoute 7 =
      some { m_x := 20, m_vx := -3, m_timestamp := 5, m_adress := 7 } ∧
    (RecvMyprotocol GetRightVelocity
        (RecvMyprotocol GetRightVelocity {} beacon5).1 beacon3).1 =
      (RecvMyprotocol GetRightVelocity {} beacon5).1 :=
  ⟨by decide,
    C9_RecvMyprotocol_stale_unchanged GetRightVelocity
      (RecvMyprotocol GetRightVelocity {} beacon5).1 beacon3
      { m_x := 20, m_vx := -3, m_timestamp := 5, m_adress := 7 } (by decide) (by decide)⟩

/-- C10 (first beacon inserts).  When `RecvMyprotocol` processes a beacon for an
address without a table entry, afterwards `LookupRoute` for that address returns the
entry made of the beacon's position, its signed velocity (as `int16_t`), its
timestamp and its address; the table size has grown by one, and `LookupRoute` for
every other address returns what it returned before. -/
theorem C10_RecvMyprotocol_first_beacon (getRightVelocity : Nat → Nat → Nat → Nat → Vector)
    (t : RoutingTable) (hdr : MyprotocolHeader)
    (hnew : t.LookupRoute hdr.m_myadress = none) :
    (RecvMyprotocol getRightVelocity t hdr).1.LookupRoute hdr.m_myadress =
        some { m_x := hdr.m_x, m_y := hdr.m_y, m_z := hdr.m_z,
               m_vx := toInt16 (getRightVelocity hdr.m_vx hdr.m_vy hdr.m_vz hdr.m_sign).x,
               m_vy := toInt16 (getRightVelocity hdr.m_vx hdr.m_vy hdr.m_vz hdr.m_sign).y,
               m_vz := toInt16 (getRightVelocity hdr.m_vx hdr.m_vy hdr.m_vz hdr.m_sign).z,
               m_timestamp := hdr.m_timestamp, m_adress := hdr.m_myadress } ∧
      (RecvMyprotocol getRightVelocity t hdr).1.RoutingTableSize =
        t.RoutingTableSize + 1 ∧
      ∀ a : Ipv4Address, a ≠ hdr.m_myadress →
        (RecvMyprotocol getRightVelocity t hdr).1.LookupRoute a = t.LookupRoute a := by
  have hfind : StdMap.find t.m_ipv4AddressEntry hdr.m_myadress = none := by
    rw [← RoutingTable.LookupRoute_eq_find]
    exact hnew
  have htab : (RecvMyprotocol getRightVelocity t hdr).1 =
      { m_ipv4AddressEntry :=
          (StdMap.insert t.m_ipv4AddressEntry hdr.m_myadress
            (newEntry hdr (getRightVelocity hdr.m_vx hdr.m_vy hdr.m_vz hdr.m_sign))).1 } := by
    simp [RecvMyprotocol, hnew, RoutingTable.AddRoute, newEntry]
  rw [htab]
  refine ⟨?_, ?_, ?_⟩
  · rw [RoutingTable.LookupRoute_eq_find, StdMap.find_insert_of_find_none _ _ _ hfind]
    simp [newEntry]
  · simp only [RoutingTable.RoutingTableSize]
    exact StdMap.length_insert_of_find_none _ _ _ hfind
  · intro a ha
    rw [RoutingTable.LookupRoute_eq_find, RoutingTable.LookupRoute_eq_find,
      StdMap.find_insert_of_find_none _ _ _ hfind]
    simp [ha]

/-- Witness of C10: `lineTable` has no entry for peer 7; after `beacon5` it has four
entries, among them the sample of the beacon with velocity -3 along x. -/
theorem C10_RecvMyprotocol_first_beacon_witness :
    (RecvMyprotocol GetRightVelocity lineTable beacon5).1.LookupRoute 7 =
        some { m_x := 20, m_vx := -3, m_timestamp := 5, m_adress := 7 } ∧
    ((RecvMyprotocol GetRightVelocity lineTable beacon5).1.LookupRoute beacon5.m_myadress =
        some { m_x := beacon5.m_x, m_y := beacon5.m_y, m_z := beacon5.m_z,
               m_vx := toInt16 (GetRightVelocity beacon5.m_vx beacon5.m_vy beacon5.m_vz
                 beacon5.m_sign).x,
               m_vy := toInt16 (GetRightVelocity beacon5.m_vx beacon5.m_vy beacon5.m_vz
                 beacon5.m_sign).y,
               m_vz := toInt16 (GetRightVelocity beacon5.m_vx beacon5.m_vy beacon5.m_vz
                 beacon5.m_sign).z,
               m_timestamp := beacon5.m_timestamp, m_adress := beacon5.m_myadress } ∧
      (RecvMyprotocol GetRightVelocity lineTable beacon5).1.RoutingTableSize =
        lineTable.RoutingTableSize + 1 ∧
      ∀ a : Ipv4Address, a ≠ beacon5.m_myadress →
        (RecvMyprotocol GetRightVelocity lineTable beacon5).1.LookupRoute a =
          lineTable.LookupRoute a) :=
  ⟨by decide, C10_RecvMyprotocol_first_beacon GetRightVelocity lineTable beacon5 (by decide)⟩

/-! ## Sequences of beacons -/

theorem LookupRoute_RecvMyprotocol_of_some
    (getRightVelocity : Nat → Nat → Nat → Nat → Vector) (t : RoutingTable)
    (hdr : MyprotocolHeader) (a : Ipv4Address) (e : RoutingTableEntry)
    (h : t.LookupRoute a = some e) :
    (RecvMyprotocol getRightVelocity t hdr).1.LookupRoute a = some e := by
  cases hl : t.LookupRoute hdr.m_myadress with
  | some rt =>
    have htab : (RecvMyprotocol getRightVelocity t hdr).1 = t := by
      simp only [RecvMyprotocol, hl]
      split <;> rfl
    rw [htab]
    exact h
  | none =>
    have hne : a ≠ hdr.m_myadress := by
      intro ha
      rw [ha, hl] at h
      exact absurd h (by simp)
    have hfind : StdMap.find t.m_ipv4AddressEntry hdr.m_myadress = none := by
      rw [← RoutingTable.LookupRoute_eq_find]
      exact hl
    have htab : (RecvMyprotocol getRightVelocity t hdr).1 =
        { m_ipv4AddressEntry :=
            (StdMap.insert t.m_ipv4AddressEntry hdr.m_myadress
              (newEntry hdr (getRightVelocity hdr.m_vx hdr.m_vy hdr.m_vz hdr.m_sign))).1 } := by
      simp [RecvMyprotocol, hl, RoutingTable.AddRoute, newEntry]
    rw [htab, RoutingTable.LookupRoute_eq_find, StdMap.find_insert_of_find_none _ _ _ hfind,
      if_neg hne, ← RoutingTable.LookupRoute_eq_find]
    exact h

theorem LookupRoute_recvAll_of_some
    (getRightVelocity : Nat → Nat → Nat → Nat → Vector) (hdrs : List MyprotocolHeader)
    (t : RoutingTable) (a : Ipv4Address) (e : RoutingTableEntry)
    (h : t.LookupRoute a = some e) :
    (recvAll getRightVelocity t hdrs).LookupRoute a = some e := by
  induction hdrs generalizing t with
  | nil => exact h
  | cons hdr rest ih =>
    simp only [recvAll, List.foldl_cons]
    exact ih _ (LookupRoute_RecvMyprotocol_of_some getRightVelocity t hdr a e h)

theorem recvAll_append (getRightVelocity : Nat → Nat → Nat → Nat → Vector)
    (t : RoutingTable) (l1 l2 : List MyprotocolHeader) :
    recvAll getRightVelocity t (l1 ++ l2) =
      recvAll getRightVelocity (recvAll getRightVelocity t l1) l2 := by
  simp [recvAll, List.foldl_append]

/-- C11 (staleness monotonicity).  Let any sequence of beacons `before` be processed
by `RecvMyprotocol`, starting from any table, and let the table then hold an entry
for an address.  After any further beacons `after` (one step, or several, with any
timestamps in any order) the table still holds an entry for that address, and its
timestamp is not smaller. -/
theorem C11_RecvMyprotocol_timestamp_monotone
    (getRightVelocity : Nat → Nat → Nat → Nat → Vector) (t : RoutingTable)
    (before after : List MyprotocolHeader) (a : Ipv4Address) (e : RoutingTableEntry)
    (h : (recvAll getRightVelocity t before).LookupRoute a = some e) :
    ∃ e', (recvAll getRightVelocity t (before ++ after)).LookupRoute a = some e' ∧
      e.m_timestamp ≤ e'.m_timestamp := by
  refine ⟨e, ?_, le_refl _⟩
  rw [recvAll_append]
  exact LookupRoute_recvAll_of_some getRightVelocity after _ a e h

/-- Witness of C11: after `beacon5` peer 7 is stored with timestamp 5; after the
further beacon `beacon3` its stored timestamp is still 5. -/
theorem C11_RecvMyprotocol_timestamp_monotone_witness :
    (recvAll GetRightVelocity {} ([beacon5] ++ [beacon3])).LookupRoute 7 =
        some { m_x := 20, m_vx := -3, m_timestamp := 5, m_adress := 7 } ∧
    ∃ e', (recvAll GetRightVelocity {} ([beacon5] ++ [beacon3])).LookupRoute 7 = some e' ∧
      ({ m_x := 20, m_vx := -3, m_timestamp := 5, m_adress := 7 } :
        RoutingTableEntry).m_timestamp ≤ e'.m_timestamp :=
  ⟨by decide,
    C11_RecvMyprotocol_timestamp_monotone GetRightVelocity {} [beacon5] [beacon3] 7
      { m_x := 20, m_vx := -3, m_timestamp := 5, m_adress := 7 } (by decide)⟩

/-! ## The branches of `Forwarding` -/

theorem toUint16_of_range {i : Int} (h0 : 0 ≤ i) (h1 : i ≤ 65535) : toUint16 i = i := by
  unfold toUint16
  exact Int.emod_eq_of_lt h0 (by omega)

theorem castUint16_of_inUint16 {v : Vector} (h : v.inUint16) : v.castUint16 = v := by
  obtain ⟨⟨hx0, hx1⟩, ⟨hy0, hy1⟩, ⟨hz0, hz1⟩⟩ := h
  cases v
  simp only [Vector.castUint16, Vector.mk.injEq]
  exact ⟨toUint16_of_range hx0 hx1, toUint16_of_range hy0 hy1, toUint16_of_range hz0 hz1⟩

/-- The destination is a neighbor: direct delivery. -/
theorem Forwarding_direct (t : RoutingTable) (now : Int) (myPos : Vector)
    (dataHeader : DataHeader) (header : Ipv4Header)
    (hnb : header.m_destination ∈ StdMap.keys (t.LookupNeighbor now [] myPos)) :
    Forwarding t now myPos dataHeader header =
      { ret := true,
        p := some
          { m_dstPosx := toUint16 dataHeader.m_dstPosx,
            m_dstPosy := toUint16 dataHeader.m_dstPosy,
            m_dstPosz := toUint16 dataHeader.m_dstPosy, m_updated := dataHeader.m_updated,
            m_recPosx := 0, m_recPosy := 0, m_recPosz := 0, m_inRec := 0,
            m_lastPosx := toUint16 myPos.x, m_lastPosy := toUint16 myPos.y,
            m_lastPosz := toUint16 myPos.z },
        calls :=
          [CallbackCall.ucb
            { m_dest := header.m_destination, m_source := header.m_source,
              m_gateway := header.m_destination, m_outputDevice := 1 }
            { m_dstPosx := toUint16 dataHeader.m_dstPosx,
              m_dstPosy := toUint16 dataHeader.m_dstPosy,
              m_dstPosz := toUint16 dataHeader.m_dstPosy, m_updated := dataHeader.m_updated,
              m_recPosx := 0, m_recPosy := 0, m_recPosz := 0, m_inRec := 0,
              m_lastPosx := toUint16 myPos.x, m_lastPosy := toUint16 myPos.y,
              m_lastPosz := toUint16 myPos.z }
            header] } := by
  obtain ⟨e, he⟩ := (StdMap.mem_keys_iff_find _ _).mp hnb
  simp [Forwarding, he]

/-- The destination is no neighbor and the packet stays in recovery mode. -/
theorem Forwarding_continue (t : RoutingTable) (now : Int) (myPos : Vector)
    (dataHeader : DataHeader) (header : Ipv4Header)
    (hnb : header.m_destination ∉ StdMap.keys (t.LookupNeighbor now [] myPos))
    (hrec : dataHeader.m_inRec = 1)
    (hfar : ¬ CalculateDistanceSq myPos dataHeader.dstPos <
      CalculateDistanceSq dataHeader.recPos dataHeader.dstPos) :
    Forwarding t now myPos dataHeader header =
      { ret := true,
        p := some { dataHeader with
          m_lastPosx := toUint16 myPos.x, m_lastPosy := toUint16 myPos.y,
          m_lastPosz := toUint16 myPos.z },
        calls := [] } := by
  have hf := StdMap.find_eq_none_of_not_mem _ _ hnb
  simp only [DataHeader.dstPos, DataHeader.recPos] at hfar
  simp [Forwarding, hf, hrec, hfar]

/-- The destination is no neighbor, the greedy attempt is made and finds a next hop. -/
theorem Forwarding_greedy (t : RoutingTable) (now : Int) (myPos : Vector)
    (dataHeader : DataHeader) (header : Ipv4Header)
    (hnb : header.m_destination ∉ StdMap.keys (t.LookupNeighbor now [] myPos))
    (hmode : greedyAttempt myPos dataHeader)
    (hbn : t.BestNeighbor now header.m_destination myPos ≠ GetZero) :
    Forwarding t now myPos dataHeader header =
      { ret := true,
        p := some
          { m_dstPosx := toUint16 dataHeader.m_dstPosx,
            m_dstPosy := toUint16 dataHeader.m_dstPosy,
            m_dstPosz := toUint16 dataHeader.m_dstPosz, m_updated := dataHeader.m_updated,
            m_recPosx := 0, m_recPosy := 0, m_recPosz := 0, m_inRec := 0,
            m_lastPosx := toUint16 myPos.x, m_lastPosy := toUint16 myPos.y,
            m_lastPosz := toUint16 myPos.z },
        calls :=
          [CallbackCall.ucb
            { m_dest := header.m_destination, m_source := header.m_source,
              m_gateway := t.BestNeighbor now header.m_destination myPos,
              m_outputDevice := 1 }
            { m_dstPosx := toUint16 dataHeader.m_dstPosx,
              m_dstPosy := toUint16 dataHeader.m_dstPosy,
              m_dstPosz := toUint16 dataHeader.m_dstPosz, m_updated := dataHeader.m_updated,
              m_recPosx := 0, m_recPosy := 0, m_recPosz := 0, m_inRec := 0,
              m_lastPosx := toUint16 myPos.x, m_lastPosy := toUint16 myPos.y,
              m_lastPosz := toUint16 myPos.z }
            header] } := by
  have hf := StdMap.find_eq_none_of_not_mem _ _ hnb
  simp only [greedyAttempt, DataHeader.dstPos, DataHeader.recPos] at hmode
  rcases hmode with h0 | ⟨h1, hlt⟩
  · simp [Forwarding, hf, h0, hbn]
  · simp [Forwarding, hf, h1, hlt, hbn]

/-- The destination is no neighbor, the greedy attempt is made and finds no next hop. -/
theorem Forwarding_enter (t : RoutingTable) (now : Int) (myPos : Vector)
    (dataHeader : DataHeader) (header : Ipv4Header)
    (hnb : header.m_destination ∉ StdMap.keys (t.LookupNeighbor now [] myPos))
    (hmode : greedyAttempt myPos dataHeader)
    (hbn : t.BestNeighbor now header.m_destination myPos = GetZero) :
    Forwarding t now myPos dataHeader header =
      { ret := true,
        p := some { dataHeader with
          m_inRec := 1,
          m_recPosx := toUint16 myPos.x, m_recPosy := toUint16 myPos.y,
          m_recPosz := toUint16 myPos.z,
          m_lastPosx := toUint16 dataHeader.m_dstPosx,
          m_lastPosy := toUint16 dataHeader.m_dstPosy,
          m_lastPosz := toUint16 dataHeader.m_dstPosz },
        calls := [] } := by
  have hf := StdMap.find_eq_none_of_not_mem _ _ hnb
  simp only [greedyAttempt, DataHeader.dstPos, DataHeader.recPos] at hmode
  rcases hmode with h0 | ⟨h1, hlt⟩
  · simp [Forwarding, hf, h0, hbn]
  · simp [Forwarding, hf, h1, hlt, hbn]

/-- A packet in recovery mode at a node closer to the carried destination position
than the recovery-entry position is handled as the same packet in greedy mode is. -/
theorem Forwarding_leave (t : RoutingTable) (now : Int) (myPos : Vector)
    (dataHeader : DataHeader) (header : Ipv4Header) (hrec : dataHeader.m_inRec = 1)
    (hlt : CalculateDistanceSq myPos dataHeader.dstPos <
      CalculateDistanceSq dataHeader.recPos dataHeader.dstPos) :
    Forwarding t now myPos dataHeader header =
      Forwarding t now myPos { dataHeader with m_inRec := 0 } header := by
  by_cases hnb : header.m_destination ∈ StdMap.keys (t.LookupNeighbor now [] myPos)
  · rw [Forwarding_direct t now myPos dataHeader header hnb,
      Forwarding_direct t now myPos { dataHeader with m_inRec := 0 } header hnb]
  · have hm1 : greedyAttempt myPos dataHeader := Or.inr ⟨hrec, hlt⟩
    have hm2 : greedyAttempt myPos { dataHeader with m_inRec := 0 } := Or.inl rfl
    by_cases hbn : t.BestNeighbor now header.m_destination myPos = GetZero
    · rw [Forwarding_enter t now myPos dataHeader header hnb hm1 hbn,
        Forwarding_enter t now myPos { dataHeader with m_inRec := 0 } header hnb hm2 hbn]
    · rw [Forwarding_greedy t now myPos dataHeader header hnb hm1 hbn,
        Forwarding_greedy t now myPos { dataHeader with m_inRec := 0 } header hnb hm2 hbn]

/-- A packet in greedy mode leaves a node in greedy mode, or in recovery mode entered
at that node. -/
theorem Forwarding_of_greedy_mode (t : RoutingTable) (now : Int) (myPos : Vector)
    (dataHeader : DataHeader) (header : Ipv4Header) (h0 : dataHeader.m_inRec = 0) :
    ∃ out, (Forwarding t now myPos dataHeader header).p = some out ∧
      (out.m_inRec = 0 ∨ (out.m_inRec = 1 ∧ out.recPos = myPos.castUint16)) := by
  by_cases hnb : header.m_destination ∈ StdMap.keys (t.LookupNeighbor now [] myPos)
  · rw [Forwarding_direct t now myPos dataHeader header hnb]
    exact ⟨_, rfl, Or.inl rfl⟩
  · have hm : greedyAttempt myPos dataHeader := Or.inl h0
    by_cases hbn : t.BestNeighbor now header.m_destination myPos = GetZero
    · rw [Forwarding_enter t now myPos dataHeader header hnb hm hbn]
      exact ⟨_, rfl, Or.inr ⟨rfl, rfl⟩⟩
    · rw [Forwarding_greedy t now myPos dataHeader header hnb hm hbn]
      exact ⟨_, rfl, Or.inl rfl⟩

theorem BestNeighbor_of_unknown (t : RoutingTable) (now : Int) (dst : Ipv4Address)
    (myPos : Vector) (h : t.LookupRoute dst = none) :
    t.BestNeighbor now dst myPos = GetZero := by
  have hs := (RoutingTable.sentinel_test_iff t now dst).mpr h
  simp [RoutingTable.BestNeighbor, hs]

theorem not_neighbor_of_unknown (t : RoutingTable) (now : Int) (dst : Ipv4Address)
    (myPos : Vector) (h : t.LookupRoute dst = none) :
    dst ∉ StdMap.keys (t.LookupNeighbor now [] myPos) := by
  intro hmem
  obtain ⟨⟨e, he⟩, -⟩ := (RoutingTable.mem_keys_LookupNeighbor t now myPos dst).mp hmem
  rw [h] at he
  exact absurd he (by simp)

/-! ## Data forwarding: the claims -/

/-- C20, the code at a failing input.  With `lineTable`, at the origin,
`BestNeighbor (9, myPos)` returns peer 3.  `RouteOutput` attaches the data header
that the claim describes (stored sample (400,0,0) with timestamp 0, `inRec = 0`,
recovery position (0,0,0), last hop the node position), and then calls
`route->SetDestination (dst)` on `route`, which is still the null pointer it was
declared as: no route is returned. -/
theorem C20_RouteOutput_success_null_route :
    lineTable.BestNeighbor 0 9 (Vector.mk 0 0 0) = 3 ∧
      RouteOutput lineTable 0 (Vector.mk 0 0 0) [(1, 167772161)] 167772415 true toPeer9
          none =
        { ret := RouteOutputReturn.nullDereference, sockerr := none,
          p := some { m_dstPosx := 400 } } := by
  decide

/-! ## Prediction modulo 2^16: the claims -/

namespace RoutingTable

/-- C22, as stated, fails: peer 7 of `aheadTable` was sampled at time 5 at (10,0,0)
with velocity 2 along x.  At `now = 3`, two seconds before the sample,
`PredictPosition` returns (6,0,0): the position is extrapolated backward. -/
theorem C22_PredictPosition_clock_skew_counterexample :
    aheadTable.LookupRoute 7 =
        some { m_x := 10, m_vx := 2, m_timestamp := 5, m_adress := 7 } ∧
      (3 : Int) < ((5 : Nat) : Int) ∧
      aheadTable.PredictPosition 3 7 = Vector.mk 6 0 0 ∧
      aheadTable.PredictPosition 3 7 ≠ Vector.mk 10 0 0 := by
  decide

/-- C22, amended.  For a stored entry `(x, y, z, vx, vy, vz, timestamp)` and a clock
value `now < timestamp`, with `s = timestamp - now`: `PredictPosition` does not clamp
the elapsed time; it returns the position extrapolated backward by `s` seconds,
`((x - s * vx) mod 2^16, (y - s * vy) mod 2^16, (z - s * vz) mod 2^16)`.  The stored
position is returned unchanged when the velocity is zero (and the coordinates are
`uint16_t` values). -/
theorem C22_PredictPosition_clock_skew (t : RoutingTable) (now : Int) (id : Ipv4Address)
    (rt : RoutingTableEntry) (hrt : t.LookupRoute id = some rt)
    (_hnow : now < (rt.m_timestamp : Int)) :
    t.PredictPosition now id =
        Vector.mk ((rt.m_x - (rt.m_timestamp - now) * rt.m_vx) % 65536)
          ((rt.m_y - (rt.m_timestamp - now) * rt.m_vy) % 65536)
          ((rt.m_z - (rt.m_timestamp - now) * rt.m_vz) % 65536) ∧
      (rt.m_vx = 0 → rt.m_vy = 0 → rt.m_vz = 0 →
        rt.m_x ≤ 65535 → rt.m_y ≤ 65535 → rt.m_z ≤ 65535 →
        t.PredictPosition now id = Vector.mk rt.m_x rt.m_y rt.m_z) := by
  rw [PredictPosition_some now hrt, toUint16_add_mul, toUint16_add_mul, toUint16_add_mul]
  unfold toUint16
  constructor
  · have e1 : (rt.m_x : Int) + (now - rt.m_timestamp) * rt.m_vx =
        rt.m_x - (rt.m_timestamp - now) * rt.m_vx := by ring
    have e2 : (rt.m_y : Int) + (now - rt.m_timestamp) * rt.m_vy =
        rt.m_y - (rt.m_timestamp - now) * rt.m_vy := by ring
    have e3 : (rt.m_z : Int) + (now - rt.m_timestamp) * rt.m_vz =
        rt.m_z - (rt.m_timestamp - now) * rt.m_vz := by ring
    rw [e1, e2, e3]
  · intro hvx hvy hvz hx hy hz
    rw [hvx, hvy, hvz]
    simp only [mul_zero, add_zero, Vector.mk.injEq]
    refine ⟨Int.emod_eq_of_lt ?_ ?_, Int.emod_eq_of_lt ?_ ?_, Int.emod_eq_of_lt ?_ ?_⟩ <;>
      omega

/-- Witness of the amended C22: peer 7 of `aheadTable` at `now = 3`. -/
theorem C22_PredictPosition_clock_skew_witness :
    aheadTable.PredictPosition 3 7 = Vector.mk 6 0 0 ∧
    (aheadTable.PredictPosition 3 7 =
        Vector.mk ((((10 : Nat) : Int) - (((5 : Nat) : Int) - 3) * 2) % 65536)
          ((((0 : Nat) : Int) - (((5 : Nat) : Int) - 3) * 0) % 65536)
          ((((0 : Nat) : Int) - (((5 : Nat) : Int) - 3) * 0) % 65536) ∧
      ((2 : Int) = 0 → (0 : Int) = 0 → (0 : Int) = 0 →
        10 ≤ 65535 → 0 ≤ 65535 → 0 ≤ 65535 →
        aheadTable.PredictPosition 3 7 = Vector.mk ((10 : Nat) : Int) ((0 : Nat) : Int)
          ((0 : Nat) : Int))) :=
  ⟨by decide,
    C22_PredictPosition_clock_skew aheadTable 3 7
      { m_x := 10, m_vx := 2, m_timestamp := 5, m_adress := 7 } (by decide) (by decide)⟩

/-- C30 (16-bit wrap-around of prediction).  For a stored entry and every clock value
`now`, each coordinate returned by `PredictPosition` equals `(c + d * v) mod 2^16`,
with `c` the stored coordinate, `v` the stored velocity component and
`d = (now - timestamp) mod 2^16`.  For `c` a `uint16_t` and `v` an `int16_t` value,
`c + d * v` lies within the signed 32-bit integers.  Every predicted coordinate lies
in [0, 65535]. -/
theorem C30_PredictPosition_wraps (t : RoutingTable) (now : Int) (id : Ipv4Address)
    (rt : RoutingTableEntry) (hrt : t.LookupRoute id = some rt) :
    t.PredictPosition now id =
        Vector.mk ((rt.m_x + (now - rt.m_timestamp) % 65536 * rt.m_vx) % 65536)
          ((rt.m_y + (now - rt.m_timestamp) % 65536 * rt.m_vy) % 65536)
          ((rt.m_z + (now - rt.m_timestamp) % 65536 * rt.m_vz) % 65536) ∧
      (∀ (c : Nat) (v : Int), c ≤ 65535 → -32768 ≤ v → v ≤ 32767 →
        -2147483648 ≤ c + (now - rt.m_timestamp) % 65536 * v ∧
          c + (now - rt.m_timestamp) % 65536 * v ≤ 2147483647) ∧
      (t.PredictPosition now id).inUint16 := by
  refine ⟨PredictPosition_some now hrt, ?_, ?_⟩
  · intro c v hc hv0 hv1
    have hd0 : 0 ≤ (now - rt.m_timestamp) % 65536 := Int.emod_nonneg _ (by decide)
    have hd1 : (now - rt.m_timestamp) % 65536 ≤ 65535 := by omega
    generalize (now - (rt.m_timestamp : Int)) % 65536 = d at hd0 hd1
    have hc0 : (0 : Int) ≤ c := Int.ofNat_nonneg c
    have hc1 : (c : Int) ≤ 65535 := by exact_mod_cast hc
    constructor
    · nlinarith [mul_nonneg hd0 (by linarith : (0 : Int) ≤ v + 32768),
        mul_nonneg (by linarith : (0 : Int) ≤ 65535 - d) (by linarith : (0 : Int) ≤ v + 32768)]
    · nlinarith [mul_nonneg hd0 (by linarith : (0 : Int) ≤ 32767 - v),
        mul_nonneg (by linarith : (0 : Int) ≤ 65535 - d) (by linarith : (0 : Int) ≤ 32767 - v)]
  · rw [PredictPosition_some now hrt]
    exact ⟨⟨toUint16_nonneg _, toUint16_le _⟩, ⟨toUint16_nonneg _, toUint16_le _⟩,
      ⟨toUint16_nonneg _, toUint16_le _⟩⟩

end RoutingTable

namespace RoutingTable

/-- Witness of C30: peer 7 of `movingTable` (at (10,0,0), velocity -1 along x) is
predicted at (65535,0,0) at `now = 11`, the value of `10 + 11 * (-1)` modulo 2^16. -/
theorem C30_PredictPosition_wraps_witness :
    movingTable.PredictPosition 11 7 = Vector.mk 65535 0 0 ∧
    (movingTable.PredictPosition 11 7 =
        Vector.mk ((((10 : Nat) : Int) + (11 - ((0 : Nat) : Int)) % 65536 * (-1)) % 65536)
          ((((0 : Nat) : Int) + (11 - ((0 : Nat) : Int)) % 65536 * 0) % 65536)
          ((((0 : Nat) : Int) + (11 - ((0 : Nat) : Int)) % 65536 * 0) % 65536) ∧
      (∀ (c : Nat) (v : Int), c ≤ 65535 → -32768 ≤ v → v ≤ 32767 →
        -2147483648 ≤ c + (11 - ((0 : Nat) : Int)) % 65536 * v ∧
          c + (11 - ((0 : Nat) : Int)) % 65536 * v ≤ 2147483647) ∧
      (movingTable.PredictPosition 11 7).inUint16) :=
  ⟨by decide,
    C30_PredictPosition_wraps movingTable 11 7 { m_x := 10, m_vx := -1, m_adress := 7 }
      (by decide)⟩

/-! ## The scenario of the two peers -/

theorem LookupRoute_scenarioTable (b d : Ipv4Address) (dx : Nat) (hbd : b ≠ d)
    (a : Ipv4Address) :
    (scenarioTable b d dx).LookupRoute a =
      if a = d then some { m_x := dx, m_adress := d }
      else if a = b then some { m_x := 100, m_adress := b } else none := by
  have h1 : StdMap.find (StdMap.insert [] b { m_x := 100, m_adress := b }).1 d = none := by
    simp [StdMap.insert, StdMap.find, Ne.symm hbd]
  rw [LookupRoute_eq_find]
  simp only [scenarioTable, addAll, List.foldl_cons, List.foldl_nil, AddRoute]
  rw [StdMap.find_insert_of_find_none _ _ _ h1]
  by_cases had : a = d
  · simp [had]
  · by_cases hab : a = b
    · simp [had, hab, StdMap.insert, StdMap.find]
    · simp [had, hab, StdMap.insert, StdMap.find]

theorem PredictPosition_scenarioTable_d (b d : Ipv4Address) (dx : Nat) (hbd : b ≠ d)
    (hdx : dx ≤ 65535) (now : Int) :
    (scenarioTable b d dx).PredictPosition now d = Vector.mk dx 0 0 := by
  have h := LookupRoute_scenarioTable b d dx hbd d
  rw [if_pos rfl] at h
  rw [PredictPosition_some now h]
  simp only [mul_zero, add_zero, Vector.mk.injEq]
  refine ⟨toUint16_of_range (Int.ofNat_nonneg _) (by exact_mod_cast hdx), ?_, ?_⟩ <;> rfl

theorem PredictPosition_scenarioTable_b (b d : Ipv4Address) (dx : Nat) (hbd : b ≠ d)
    (now : Int) :
    (scenarioTable b d dx).PredictPosition now b = Vector.mk 100 0 0 := by
  have h := LookupRoute_scenarioTable b d dx hbd b
  rw [if_neg hbd, if_pos rfl] at h
  rw [PredictPosition_some now h]
  simp only [mul_zero, add_zero, Vector.mk.injEq]
  refine ⟨?_, ?_, ?_⟩ <;> rfl

end RoutingTable

namespace RoutingTable

theorem mem_neighbors_scenarioTable (b d : Ipv4Address) (dx : Nat) (hbd : b ≠ d)
    (hdx : dx ≤ 65535) (now : Int) (a : Ipv4Address) :
    a ∈ StdMap.keys ((scenarioTable b d dx).LookupNeighbor now [] (Vector.mk 0 0 0)) ↔
      a = b ∨ (a = d ∧ dx ≤ 250) := by
  rw [mem_keys_LookupNeighbor]
  constructor
  · rintro ⟨⟨e, he⟩, hr⟩
    rw [LookupRoute_scenarioTable b d dx hbd a] at he
    by_cases had : a = d
    · right
      refine ⟨had, ?_⟩
      rw [had, PredictPosition_scenarioTable_d b d dx hbd hdx now] at hr
      simp only [CalculateDistanceSq, sub_zero, mul_zero, add_zero] at hr
      have hr' : dx * dx ≤ 250 * 250 := by exact_mod_cast hr
      by_contra hgt
      have : 251 ≤ dx := by omega
      nlinarith
    · rw [if_neg had] at he
      by_cases hab : a = b
      · exact Or.inl hab
      · rw [if_neg hab] at he
        exact absurd he (by simp)
  · rintro (rfl | ⟨rfl, hle⟩)
    · refine ⟨⟨_, (LookupRoute_scenarioTable a d dx hbd a).trans
        (by rw [if_neg hbd, if_pos rfl])⟩, ?_⟩
      rw [PredictPosition_scenarioTable_b a d dx hbd now]
      decide
    · refine ⟨⟨_, (LookupRoute_scenarioTable b a dx hbd a).trans (by rw [if_pos rfl])⟩, ?_⟩
      rw [PredictPosition_scenarioTable_d b a dx hbd hdx now]
      simp only [CalculateDistanceSq, sub_zero, mul_zero, add_zero]
      have : dx * dx ≤ 250 * 250 := Nat.mul_le_mul hle hle
      exact_mod_cast this

/-- C21, as stated, fails: with peer 2 at (100,0,0) and the destination 3 at
(200,0,0), from the origin, `BestNeighbor` returns the destination 3 itself, which is
within range, and not peer 2. -/
theorem C21_scenario_counterexample :
    (scenarioTable 2 3 200).LookupRoute 2 = some { m_x := 100, m_adress := 2 } ∧
      (scenarioTable 2 3 200).LookupRoute 3 = some { m_x := 200, m_adress := 3 } ∧
      StdMap.keys ((scenarioTable 2 3 200).LookupNeighbor 0 [] (Vector.mk 0 0 0)) = [2, 3] ∧
      (scenarioTable 2 3 200).BestNeighbor 0 3 (Vector.mk 0 0 0) = 3 ∧
      (scenarioTable 2 3 200).BestNeighbor 0 3 (Vector.mk 0 0 0) ≠ 2 := by
  decide

/-- C21, amended.  With a position table holding peer B at (100,0,0) and the
destination D at (200,0,0), both at rest, and the local node at (0,0,0),
`BestNeighbor (D, (0,0,0))` returns D itself at every clock value: D is within the
range 250 and nothing is closer to D.  With D out of range at (300,0,0) it
returns B, at distance 200 from D where the node is at 300. -/
theorem C21_scenario (b d : Ipv4Address) (now : Int) (hbd : b ≠ d) :
    (scenarioTable b d 200).BestNeighbor now d (Vector.mk 0 0 0) = d ∧
      (scenarioTable b d 300).BestNeighbor now d (Vector.mk 0 0 0) = b := by
  constructor
  · have hpd := PredictPosition_scenarioTable_d b d 200 hbd (by decide) now
    have hpb := PredictPosition_scenarioTable_b b d 200 hbd now
    have hd : d ∈ StdMap.keys ((scenarioTable b d 200).LookupNeighbor now []
        (Vector.mk 0 0 0)) :=
      (mem_neighbors_scenarioTable b d 200 hbd (by decide) now d).mpr
        (Or.inr ⟨rfl, by decide⟩)
    rcases BestNeighbor_cases (scenarioTable b d 200) now d (Vector.mk 0 0 0) with
      ⟨-, h | h | h⟩ | ⟨-, hmem, -, hmin, -⟩
    · rw [LookupRoute_scenarioTable b d 200 hbd d, if_pos rfl] at h
      exact absurd h (by simp)
    · rw [h] at hd
      exact absurd hd (by simp [StdMap.keys])
    · have := h d hd
      rw [hpd] at this
      exact absurd this (by decide)
    · rcases (mem_neighbors_scenarioTable b d 200 hbd (by decide) now _).mp hmem with
        hb | ⟨hd', -⟩
      · have := hmin d hd
        rw [hb, hpb, hpd] at this
        exact absurd this (by decide)
      · exact hd'
  · have hpd := PredictPosition_scenarioTable_d b d 300 hbd (by decide) now
    have hpb := PredictPosition_scenarioTable_b b d 300 hbd now
    have hb : b ∈ StdMap.keys ((scenarioTable b d 300).LookupNeighbor now []
        (Vector.mk 0 0 0)) :=
      (mem_neighbors_scenarioTable b d 300 hbd (by decide) now b).mpr (Or.inl rfl)
    rcases BestNeighbor_cases (scenarioTable b d 300) now d (Vector.mk 0 0 0) with
      ⟨-, h | h | h⟩ | ⟨-, hmem, -, -, -⟩
    · rw [LookupRoute_scenarioTable b d 300 hbd d, if_pos rfl] at h
      exact absurd h (by simp)
    · rw [h] at hb
      exact absurd hb (by simp [StdMap.keys])
    · have := h b hb
      rw [hpb, hpd] at this
      exact absurd this (by decide)
    · rcases (mem_neighbors_scenarioTable b d 300 hbd (by decide) now _).mp hmem with
        hb' | ⟨-, hle⟩
      · exact hb'
      · exact absurd hle (by decide)

/-- Witness of the amended C21: the peers 2 and 3 at clock value 0. -/
theorem C21_scenario_witness :
    (2 : Ipv4Address) ≠ 3 ∧
    ((scenarioTable 2 3 200).BestNeighbor 0 3 (Vector.mk 0 0 0) = 3 ∧
      (scenarioTable 2 3 300).BestNeighbor 0 3 (Vector.mk 0 0 0) = 2) :=
  ⟨by decide, C21_scenario 2 3 0 (by decide)⟩

end RoutingTable

/-! ## Chains of greedy next hops: the claims -/

theorem greedyHop_closer (now : Int) (dst : Ipv4Address) (pd : Vector) (n m : Node)
    (h : greedyHop now dst pd n m) :
    CalculateDistanceSq m.pos pd < CalculateDistanceSq n.pos pd := by
  obtain ⟨hpd, hbn, hne, hpos⟩ := h
  rcases RoutingTable.BestNeighbor_cases n.table now dst n.pos with
    ⟨h0, -⟩ | ⟨-, -, hlt, -, -⟩
  · rw [hbn] at h0
    exact absurd h0 hne
  · rw [hbn, hpd, ← hpos] at hlt
    rw [RoutingTable.CalculateDistanceSq_comm n.pos pd]
    exact hlt

theorem pairwise_of_chain_greedyHop (now : Int) (dst : Ipv4Address) (pd : Vector)
    (nodes : List Node) (hchain : nodes.Chain' (greedyHop now dst pd)) :
    (nodes.map (fun n => CalculateDistanceSq n.pos pd)).Pairwise (· > ·) := by
  rw [List.pairwise_map]
  have hc : nodes.Chain'
      (fun n m : Node => CalculateDistanceSq n.pos pd > CalculateDistanceSq m.pos pd) :=
    hchain.imp (fun n m h => greedyHop_closer now dst pd n m h)
  haveI : IsTrans Node
      (fun n m : Node => CalculateDistanceSq n.pos pd > CalculateDistanceSq m.pos pd) :=
    ⟨fun _ _ _ h1 h2 => gt_trans h1 h2⟩
  exact List.chain'_iff_pairwise.mp hc

theorem LookupRouteS_eq (t : RoutingTable) (id : Ipv4Address) :
    LookupRouteS t id = (t.LookupRoute id, t) := by
  unfold LookupRouteS RoutingTable.LookupRoute
  split <;> rfl

theorem PredictPositionS_eq (t : RoutingTable) (now : Int) (id : Ipv4Address) :
    PredictPositionS t now id = (t.PredictPosition now id, t) := by
  unfold PredictPositionS RoutingTable.PredictPosition
  rw [LookupRouteS_eq]
  cases t.LookupRoute id <;> rfl

theorem LookupNeighborStepS_eq (t : RoutingTable) (now : Int) (myPos : Vector)
    (nt : StdMap) (i : Ipv4Address × RoutingTableEntry) :
    LookupNeighborStepS now myPos (nt, t) i =
      (RoutingTable.LookupNeighborStep t now myPos nt i, t) := by
  unfold LookupNeighborStepS RoutingTable.LookupNeighborStep
  simp only [PredictPositionS_eq]
  split
  · rfl
  · split <;> rfl

theorem foldl_LookupNeighborStepS (t : RoutingTable) (now : Int) (myPos : Vector)
    (l : StdMap) (nt : StdMap) :
    l.foldl (LookupNeighborStepS now myPos) (nt, t) =
      (l.foldl (RoutingTable.LookupNeighborStep t now myPos) nt, t) := by
  induction l generalizing nt with
  | nil => rfl
  | cons hd rest ih =>
    simp only [List.foldl_cons]
    rw [LookupNeighborStepS_eq, ih]

theorem LookupNeighborS_eq (t : RoutingTable) (now : Int) (nt : StdMap) (myPos : Vector) :
    LookupNeighborS t now nt myPos = (t.LookupNeighbor now nt myPos, t) := by
  unfold LookupNeighborS RoutingTable.LookupNeighbor
  exact foldl_LookupNeighborStepS t now myPos _ nt

theorem BestNeighborStepS_eq (t : RoutingTable) (now : Int) (pd : Vector)
    (best : Ipv4Address × Int) (i : Ipv4Address × RoutingTableEntry) :
    BestNeighborStepS now pd (best, t) i =
      (RoutingTable.BestNeighborStep t now pd best i, t) := by
  unfold BestNeighborStepS RoutingTable.BestNeighborStep
  simp only [PredictPositionS_eq]
  split <;> rfl

theorem foldl_BestNeighborStepS (t : RoutingTable) (now : Int) (pd : Vector)
    (l : StdMap) (best : Ipv4Address × Int) :
    l.foldl (BestNeighborStepS now pd) (best, t) =
      (l.foldl (RoutingTable.BestNeighborStep t now pd) best, t) := by
  induction l generalizing best with
  | nil => rfl
  | cons hd rest ih =>
    simp only [List.foldl_cons]
    rw [BestNeighborStepS_eq, ih]

theorem BestNeighborS_eq (t : RoutingTable) (now : Int) (dst : Ipv4Address)
    (myPos : Vector) :
    BestNeighborS t now dst myPos = (t.BestNeighbor now dst myPos, t) := by
  unfold BestNeighborS RoutingTable.BestNeighbor
  simp only [LookupNeighborS_eq, PredictPositionS_eq]
  split
  · rfl
  · cases hnt : t.LookupNeighbor now [] myPos with
    | nil => rfl
    | cons first tl =>
      simp only [foldl_BestNeighborStepS]
      split <;> rfl

theorem MatchRecoveryS_eq (t : RoutingTable) (now : Int) (dst : Ipv4Address)
    (myPos : Vector) :
    MatchRecoveryS t now dst myPos = (t.MatchRecovery now dst myPos, t) := by
  unfold MatchRecoveryS RoutingTable.MatchRecovery
  simp only [PredictPositionS_eq, LookupNeighborS_eq]
  split
  · rfl
  · split <;> rfl

namespace StdMap

theorem keys_cons (k : Ipv4Address) (v : RoutingTableEntry) (m : StdMap) :
    keys ((k, v) :: m) = k :: keys m := rfl

theorem insert_flag_of_find_none (m : StdMap) (k : Ipv4Address) (v : RoutingTableEntry)
    (hk : find m k = none) : (insert m k v).2 = true := by
  induction m with
  | nil => rfl
  | cons hd rest ih =>
    obtain ⟨k', v'⟩ := hd
    have hne : k ≠ k' := by
      intro h
      simp [find, h] at hk
    have hrest : find rest k = none := by
      simpa [find, hne] using hk
    unfold insert
    by_cases h2 : k < k'
    · simp [hne, h2]
    · simp [hne, h2, ih hrest]

theorem insert_of_find_some (m : StdMap) (k : Nat) (v e : RoutingTableEntry)
    (hm : (keys m).Pairwise (· < ·)) (hk : find m k = some e) :
    insert m k v = (m, false) := by
  induction m with
  | nil => simp [find] at hk
  | cons hd rest ih =>
    obtain ⟨k', v'⟩ := hd
    rw [keys_cons, List.pairwise_cons] at hm
    unfold insert
    by_cases h1 : k = k'
    · simp [h1]
    · have hrest : find rest k = some e := by
        simpa [find, h1] using hk
      have hmem : k ∈ keys rest := (mem_keys_iff_find rest k).mpr ⟨e, hrest⟩
      have hlt : k' < k := hm.1 k hmem
      have h2 : ¬ k < k' := not_lt.mpr (le_of_lt hlt)
      simp [h1, h2, ih hm.2 hrest]

theorem mem_insert (m : StdMap) (k : Ipv4Address) (v : RoutingTableEntry)
    (i : Ipv4Address × RoutingTableEntry) (hi : i ∈ (insert m k v).1) :
    i ∈ m ∨ i = (k, v) := by
  induction m with
  | nil =>
    simp only [insert, List.mem_singleton] at hi
    exact Or.inr hi
  | cons hd rest ih =>
    obtain ⟨k', v'⟩ := hd
    unfold insert at hi
    by_cases h1 : k = k'
    · simp only [h1, if_true] at hi
      exact Or.inl hi
    · by_cases h2 : k < k'
      · simp only [h1, h2, if_true, if_false, List.mem_cons] at hi
        rcases hi with hi | hi | hi
        · exact Or.inr hi
        · exact Or.inl (List.mem_cons.mpr (Or.inl hi))
        · exact Or.inl (List.mem_cons.mpr (Or.inr hi))
      · simp only [h1, h2, if_false, List.mem_cons] at hi
        rcases hi with hi | hi
        · exact Or.inl (List.mem_cons.mpr (Or.inl hi))
        · rcases ih hi with h | h
          · exact Or.inl (List.mem_cons.mpr (Or.inr h))
          · exact Or.inr h

theorem keys_assign (m : StdMap) (k : Ipv4Address) (v : RoutingTableEntry) :
    keys (assign m k v) = keys m := by
  induction m with
  | nil => rfl
  | cons hd rest ih =>
    obtain ⟨k', v'⟩ := hd
    unfold assign
    by_cases h : k = k'
    · simp [h, keys]
    · simp only [h, if_false, keys_cons, ih]

theorem find_assign (m : StdMap) (k : Ipv4Address) (v : RoutingTableEntry)
    (a : Ipv4Address) :
    find (assign m k v) a =
      if a = k then (match find m k with | some _ => some v | none => none)
      else find m a := by
  induction m with
  | nil => simp [assign, find]
  | cons hd rest ih =>
    obtain ⟨k', v'⟩ := hd
    unfold assign
    by_cases h : k = k'
    · subst h
      by_cases ha : a = k
      · simp [find, ha]
      · simp [find, ha]
    · by_cases ha : a = k
      · subst ha
        simp only [h, if_false, find, if_true]
        rw [ih]
        simp
      · simp only [h, if_false, find, ha]
        rw [ih]
        simp [ha]

theorem mem_assign (m : StdMap) (k : Ipv4Address) (v : RoutingTableEntry)
    (i : Ipv4Address × RoutingTableEntry) (hi : i ∈ assign m k v) :
    i ∈ m ∨ i = (k, v) := by
  induction m with
  | nil => simp [assign] at hi
  | cons hd rest ih =>
    obtain ⟨k', v'⟩ := hd
    unfold assign at hi
    by_cases h : k = k'
    · subst h
      simp only [if_true, List.mem_cons] at hi
      rcases hi with hi | hi
      · exact Or.inr hi
      · exact Or.inl (List.mem_cons.mpr (Or.inr hi))
    · simp only [h, if_false, List.mem_cons] at hi
      rcases hi with hi | hi
      · exact Or.inl (List.mem_cons.mpr (Or.inl hi))
      · rcases ih hi with h' | h'
        · exact Or.inl (List.mem_cons.mpr (Or.inr h'))
        · exact Or.inr h'

theorem find_erase (m : StdMap) (k a : Ipv4Address) :
    find (erase m k).1 a = if a = k then none else find m a := by
  induction m with
  | nil => simp [erase, find]
  | cons hd rest ih =>
    obtain ⟨k', v'⟩ := hd
    simp only [erase] at ih ⊢
    by_cases h : k' = k
    · subst h
      by_cases ha : a = k'
      · subst ha
        simpa [List.filter_cons, find] using ih
      · simp [List.filter_cons, find, ha, ih]
    · by_cases ha : a = k
      · subst ha
        have hne : a ≠ k' := fun h' => h h'.symm
        simp [List.filter_cons, find, h, hne, ih]
      · simp [List.filter_cons, find, h, ha, ih]

theorem length_erase (m : StdMap) (k : Ipv4Address) :
    (erase m k).1.length + (erase m k).2 = m.length := by
  induction m with
  | nil => rfl
  | cons hd rest ih =>
    obtain ⟨k', v'⟩ := hd
    simp only [erase] at ih ⊢
    by_cases h : k' = k
    · simp [List.filter_cons, h]
      omega
    · simp [List.filter_cons, h]
      omega

theorem count_erase_of_not_mem (m : StdMap) (k : Ipv4Address) (h : k ∉ keys m) :
    (erase m k).2 = 0 := by
  induction m with
  | nil => rfl
  | cons hd rest ih =>
    obtain ⟨k', v'⟩ := hd
    rw [keys_cons, List.mem_cons, not_or] at h
    simp only [erase] at ih ⊢
    have hne : ¬ k' = k := fun h' => h.1 h'.symm
    simp [List.filter_cons, hne]
    simpa using ih h.2

theorem count_erase_of_mem (m : StdMap) (k : Ipv4Address) (hm : (keys m).Nodup)
    (h : k ∈ keys m) : (erase m k).2 = 1 := by
  induction m with
  | nil => simp [keys] at h
  | cons hd rest ih =>
    obtain ⟨k', v'⟩ := hd
    rw [keys_cons, List.nodup_cons] at hm
    rw [keys_cons, List.mem_cons] at h
    by_cases hk : k' = k
    · subst hk
      have h0 := count_erase_of_not_mem rest k' hm.1
      simp only [erase] at h0 ⊢
      simp [List.filter_cons]
      simpa using h0
    · rcases h with h | h
      · exact absurd h.symm hk
      · have h1 := ih hm.2 h
        simp only [erase] at h1 ⊢
        simp [List.filter_cons, hk]
        simpa using h1

theorem sorted_erase (m : StdMap) (k : Ipv4Address) (hm : (keys m).Pairwise (· < ·)) :
    (keys (erase m k).1).Pairwise (· < ·) := by
  unfold keys erase
  exact hm.sublist ((List.filter_sublist m).map Prod.fst)

theorem nodup_of_sorted (m : StdMap) (hm : (keys m).Pairwise (· < ·)) : (keys m).Nodup :=
  hm.imp (fun h => ne_of_lt h)

end StdMap

/-! ## Table maintenance: the claims -/

namespace RoutingTable

theorem find_mem (m : StdMap) (a : Ipv4Address) (e : RoutingTableEntry)
    (h : StdMap.find m a = some e) : (a, e) ∈ m := by
  induction m with
  | nil => simp [StdMap.find] at h
  | cons hd rest ih =>
    obtain ⟨k', v'⟩ := hd
    by_cases ha : a = k'
    · subst ha
      simp only [StdMap.find, if_true, Option.some.injEq] at h
      rw [h]
      exact List.mem_cons_self _ _
    · simp only [StdMap.find, ha, if_false] at h
      exact List.mem_cons_of_mem _ (ih h)

theorem ordered_keyed_apply (t : RoutingTable) (op : TableOp)
    (h : t.ordered ∧ t.keyed) : (t.apply op).ordered ∧ (t.apply op).keyed := by
  obtain ⟨ho, hk⟩ := h
  cases op with
  | AddRoute rt =>
    refine ⟨StdMap.sorted_insert _ _ _ ho, ?_⟩
    intro i hi
    rcases StdMap.mem_insert _ _ _ i hi with h | h
    · exact hk i h
    · rw [h]
  | Update rt =>
    simp only [RoutingTable.apply, Update]
    cases hf : StdMap.find t.m_ipv4AddressEntry rt.m_adress with
    | none => exact ⟨ho, hk⟩
    | some e =>
      refine ⟨?_, ?_⟩
      · simp only [ordered]
        rw [StdMap.keys_assign]
        exact ho
      · intro i hi
        rcases StdMap.mem_assign _ _ _ i hi with h | h
        · exact hk i h
        · rw [h]
  | DeleteRoute dst =>
    have hsub : ∀ i ∈ (StdMap.erase t.m_ipv4AddressEntry dst).1,
        i ∈ t.m_ipv4AddressEntry := fun i hi => (List.mem_filter.mp hi).1
    simp only [RoutingTable.apply, DeleteRoute]
    split
    · exact ⟨StdMap.sorted_erase _ _ ho, fun i hi => hk i (hsub i hi)⟩
    · exact ⟨StdMap.sorted_erase _ _ ho, fun i hi => hk i (hsub i hi)⟩
  | Clear =>
    refine ⟨?_, ?_⟩
    · simp [RoutingTable.apply, Clear, ordered, StdMap.keys]
    · intro i hi
      simp [RoutingTable.apply, Clear] at hi

theorem ordered_keyed_foldl (ops : List TableOp) (t : RoutingTable)
    (h : t.ordered ∧ t.keyed) :
    (ops.foldl RoutingTable.apply t).ordered ∧ (ops.foldl RoutingTable.apply t).keyed := by
  induction ops generalizing t with
  | nil => exact h
  | cons op rest ih =>
    simp only [List.foldl_cons]
    exact ih _ (ordered_keyed_apply t op h)

theorem ordered_keyed_reached (ops : List TableOp) :
    (reached ops).ordered ∧ (reached ops).keyed := by
  apply ordered_keyed_foldl
  refine ⟨?_, ?_⟩
  · simp [ordered, StdMap.keys]
  · intro i hi
    simp at hi

/-- C25 (table keyed uniquely by address).  In every table reached from the empty
table by a sequence of `AddRoute`, `Update`, `DeleteRoute` and `Clear`: an entry that
`LookupRoute` finds for an address has that address in its address field; no address
occurs twice among the keys, which are in increasing order; and `RoutingTableSize`
is the number of addresses for which `LookupRoute` finds an entry. -/
theorem C25_table_keyed_by_address (ops : List TableOp) :
    (∀ (a : Ipv4Address) (e : RoutingTableEntry),
      (reached ops).LookupRoute a = some e ↔ (a, e) ∈ (reached ops).m_ipv4AddressEntry) ∧
    (∀ i ∈ (reached ops).m_ipv4AddressEntry, i.2.m_adress = i.1) ∧
    (∀ (a : Ipv4Address) (e : RoutingTableEntry),
      (reached ops).LookupRoute a = some e → e.m_adress = a) ∧
    (StdMap.keys (reached ops).m_ipv4AddressEntry).Nodup ∧
    (reached ops).ordered ∧
    ∃ s : Finset Ipv4Address,
      (∀ a, a ∈ s ↔ ∃ e, (reached ops).LookupRoute a = some e) ∧
      s.card = (reached ops).RoutingTableSize := by
  obtain ⟨ho, hk⟩ := ordered_keyed_reached ops
  have hnd := StdMap.nodup_of_sorted _ ho
  refine ⟨?_, hk, ?_, hnd, ho, ?_⟩
  rotate_left
  · intro a e he
    rw [LookupRoute_eq_find] at he
    exact hk (a, e) (find_mem _ a e he)
  rotate_left
  · intro a e
    rw [LookupRoute_eq_find]
    constructor
    · exact find_mem _ a e
    · intro hmem
      obtain ⟨e', he'⟩ := (StdMap.mem_keys_iff_find _ a).mp
        (List.mem_map.mpr ⟨(a, e), hmem, rfl⟩)
      have hmem' := find_mem _ a e' he'
      have hee : e' = e := by
        have hinj := List.inj_on_of_nodup_map hnd hmem' hmem rfl
        exact (Prod.mk.inj hinj).2
      rw [he', hee]
  · refine ⟨(StdMap.keys (reached ops).m_ipv4AddressEntry).toFinset, ?_, ?_⟩
    · intro a
      rw [List.mem_toFinset, StdMap.mem_keys_iff_find, LookupRoute_eq_find]
    · rw [List.toFinset_card_of_nodup hnd]
      simp [StdMap.keys, RoutingTableSize]

end RoutingTable

namespace RoutingTable

/-- C26 (`AddRoute` adds only if absent).  On a table whose keys are in increasing
order, as those of a `std::map` are: `AddRoute (rt)` returns true exactly when the
table has no entry for the address of `rt`; when it returns true, `LookupRoute` for
that address yields `rt` afterwards, every other address looks up as before and the
size has grown by one; when it returns false, the table is unchanged. -/
theorem C26_AddRoute_only_if_absent (t : RoutingTable) (rt : RoutingTableEntry)
    (hord : t.ordered) :
    ((t.AddRoute rt).1 = true ↔ t.LookupRoute rt.m_adress = none) ∧
    ((t.AddRoute rt).1 = true →
      (t.AddRoute rt).2.LookupRoute rt.m_adress = some rt ∧
      (∀ a : Ipv4Address, a ≠ rt.m_adress →
        (t.AddRoute rt).2.LookupRoute a = t.LookupRoute a) ∧
      (t.AddRoute rt).2.RoutingTableSize = t.RoutingTableSize + 1) ∧
    ((t.AddRoute rt).1 = false →
      (t.AddRoute rt).2 = t ∧
      (t.AddRoute rt).2.LookupRoute rt.m_adress = t.LookupRoute rt.m_adress) := by
  cases hf : StdMap.find t.m_ipv4AddressEntry rt.m_adress with
  | none =>
    have hflag := StdMap.insert_flag_of_find_none t.m_ipv4AddressEntry rt.m_adress rt hf
    have hl : t.LookupRoute rt.m_adress = none := by rw [LookupRoute_eq_find]; exact hf
    refine ⟨⟨fun _ => hl, fun _ => hflag⟩, fun _ => ⟨?_, ?_, ?_⟩, ?_⟩
    · rw [LookupRoute_eq_find]
      simp only [AddRoute]
      rw [StdMap.find_insert_of_find_none _ _ _ hf, if_pos rfl]
    · intro a ha
      rw [LookupRoute_eq_find, LookupRoute_eq_find]
      simp only [AddRoute]
      rw [StdMap.find_insert_of_find_none _ _ _ hf, if_neg ha]
    · simp only [AddRoute, RoutingTableSize]
      exact StdMap.length_insert_of_find_none _ _ _ hf
    · intro hfalse
      simp only [AddRoute] at hfalse
      rw [hflag] at hfalse
      exact absurd hfalse (by simp)
  | some e =>
    have hins := StdMap.insert_of_find_some t.m_ipv4AddressEntry rt.m_adress rt e hord hf
    have hl : t.LookupRoute rt.m_adress = some e := by rw [LookupRoute_eq_find]; exact hf
    have hflag : (t.AddRoute rt).1 = false := by simp [AddRoute, hins]
    have htab : (t.AddRoute rt).2 = t := by simp [AddRoute, hins]
    refine ⟨⟨fun h => ?_, fun h => ?_⟩, fun h => ?_, fun _ => ⟨htab, by rw [htab]⟩⟩
    · rw [hflag] at h
      exact absurd h (by simp)
    · rw [hl] at h
      exact absurd h (by simp)
    · rw [hflag] at h
      exact absurd h (by simp)

/-- Witness of C26: `lineTable` is in key order; adding a sample for peer 7 succeeds,
adding another one for peer 3 does not and changes nothing. -/
theorem C26_AddRoute_only_if_absent_witness :
    ((lineTable.AddRoute { m_x := 5, m_adress := 7 }).1 = true ∧
      (lineTable.AddRoute { m_x := 5, m_adress := 3 }).1 = false ∧
      (lineTable.AddRoute { m_x := 5, m_adress := 3 }).2 = lineTable) ∧
    (((lineTable.AddRoute { m_x := 5, m_adress := 7 }).1 = true ↔
        lineTable.LookupRoute ({ m_x := 5, m_adress := 7 } : RoutingTableEntry).m_adress =
          none) ∧
    ((lineTable.AddRoute { m_x := 5, m_adress := 7 }).1 = true →
      (lineTable.AddRoute { m_x := 5, m_adress := 7 }).2.LookupRoute
          ({ m_x := 5, m_adress := 7 } : RoutingTableEntry).m_adress =
        some { m_x := 5, m_adress := 7 } ∧
      (∀ a : Ipv4Address, a ≠ ({ m_x := 5, m_adress := 7 } : RoutingTableEntry).m_adress →
        (lineTable.AddRoute { m_x := 5, m_adress := 7 }).2.LookupRoute a =
          lineTable.LookupRoute a) ∧
      (lineTable.AddRoute { m_x := 5, m_adress := 7 }).2.RoutingTableSize =
        lineTable.RoutingTableSize + 1) ∧
    ((lineTable.AddRoute { m_x := 5, m_adress := 7 }).1 = false →
      (lineTable.AddRoute { m_x := 5, m_adress := 7 }).2 = lineTable ∧
      (lineTable.AddRoute { m_x := 5, m_adress := 7 }).2.LookupRoute
          ({ m_x := 5, m_adress := 7 } : RoutingTableEntry).m_adress =
        lineTable.LookupRoute ({ m_x := 5, m_adress := 7 } : RoutingTableEntry).m_adress)) :=
  ⟨by decide, C26_AddRoute_only_if_absent lineTable { m_x := 5, m_adress := 7 } (by decide)⟩

/-- C27 (`Update` replaces only an existing entry).  `Update (rt)` returns true
exactly when the table has an entry for the address of `rt`; when it returns true,
`LookupRoute` for that address yields `rt` afterwards, every other address looks up
as before and the size is unchanged; when it returns false, the table is unchanged
and still has no entry for that address. -/
theorem C27_Update_only_existing (t : RoutingTable) (rt : RoutingTableEntry) :
    ((t.Update rt).1 = true ↔ ∃ e, t.LookupRoute rt.m_adress = some e) ∧
    ((t.Update rt).1 = true →
      (t.Update rt).2.LookupRoute rt.m_adress = some rt ∧
      (∀ a : Ipv4Address, a ≠ rt.m_adress →
        (t.Update rt).2.LookupRoute a = t.LookupRoute a) ∧
      (t.Update rt).2.RoutingTableSize = t.RoutingTableSize) ∧
    ((t.Update rt).1 = false →
      (t.Update rt).2 = t ∧ (t.Update rt).2.LookupRoute rt.m_adress = none) := by
  cases hf : StdMap.find t.m_ipv4AddressEntry rt.m_adress with
  | none =>
    have hl : t.LookupRoute rt.m_adress = none := by rw [LookupRoute_eq_find]; exact hf
    have hflag : (t.Update rt).1 = false := by simp [Update, hf]
    have htab : (t.Update rt).2 = t := by simp [Update, hf]
    refine ⟨⟨fun h => ?_, fun h => ?_⟩, fun h => ?_, fun _ => ⟨htab, by rw [htab]; exact hl⟩⟩
    · rw [hflag] at h
      exact absurd h (by simp)
    · obtain ⟨e, he⟩ := h
      rw [hl] at he
      exact absurd he (by simp)
    · rw [hflag] at h
      exact absurd h (by simp)
  | some e =>
    have hl : t.LookupRoute rt.m_adress = some e := by rw [LookupRoute_eq_find]; exact hf
    have hflag : (t.Update rt).1 = true := by simp [Update, hf]
    have htab : (t.Update rt).2 =
        { m_ipv4AddressEntry := StdMap.assign t.m_ipv4AddressEntry rt.m_adress rt } := by
      simp [Update, hf]
    refine ⟨⟨fun _ => ⟨e, hl⟩, fun _ => hflag⟩, fun _ => ⟨?_, ?_, ?_⟩, fun h => ?_⟩
    · rw [htab, LookupRoute_eq_find, StdMap.find_assign, if_pos rfl, hf]
    · intro a ha
      rw [htab, LookupRoute_eq_find, LookupRoute_eq_find, StdMap.find_assign, if_neg ha]
    · rw [htab]
      simp only [RoutingTableSize]
      have h1 := congrArg List.length (StdMap.keys_assign t.m_ipv4AddressEntry rt.m_adress rt)
      simpa [StdMap.keys] using h1
    · rw [hflag] at h
      exact absurd h (by simp)

/-- C28 (`DeleteRoute` removes exactly one entry).  On a table whose keys are in
increasing order, as those of a `std::map` are: `DeleteRoute (dst)` returns true
exactly when the table has an entry for `dst`; afterwards `LookupRoute (dst)` fails
in either case and every other address looks up as before; the size is smaller by
one when true is returned and unchanged when false is returned. -/
theorem C28_DeleteRoute_one_entry (t : RoutingTable) (dst : Ipv4Address)
    (hord : t.ordered) :
    ((t.DeleteRoute dst).1 = true ↔ ∃ e, t.LookupRoute dst = some e) ∧
    (t.DeleteRoute dst).2.LookupRoute dst = none ∧
    (∀ a : Ipv4Address, a ≠ dst → (t.DeleteRoute dst).2.LookupRoute a = t.LookupRoute a) ∧
    ((t.DeleteRoute dst).1 = true →
      (t.DeleteRoute dst).2.RoutingTableSize + 1 = t.RoutingTableSize) ∧
    ((t.DeleteRoute dst).1 = false →
      (t.DeleteRoute dst).2.RoutingTableSize = t.RoutingTableSize) := by
  have htab : (t.DeleteRoute dst).2 =
      { m_ipv4AddressEntry := (StdMap.erase t.m_ipv4AddressEntry dst).1 } := by
    simp only [DeleteRoute]
    split <;> rfl
  have hflag : (t.DeleteRoute dst).1 = true ↔
      (StdMap.erase t.m_ipv4AddressEntry dst).2 ≠ 0 := by
    simp only [DeleteRoute]
    split <;> simp_all
  have hlen := StdMap.length_erase t.m_ipv4AddressEntry dst
  have hmem : dst ∈ StdMap.keys t.m_ipv4AddressEntry ↔ ∃ e, t.LookupRoute dst = some e := by
    rw [LookupRoute_eq_find]
    exact StdMap.mem_keys_iff_find _ dst
  have hcount : (StdMap.erase t.m_ipv4AddressEntry dst).2 =
      if dst ∈ StdMap.keys t.m_ipv4AddressEntry then 1 else 0 := by
    by_cases h : dst ∈ StdMap.keys t.m_ipv4AddressEntry
    · rw [if_pos h]
      exact StdMap.count_erase_of_mem _ _ (StdMap.nodup_of_sorted _ hord) h
    · rw [if_neg h]
      exact StdMap.count_erase_of_not_mem _ _ h
  refine ⟨?_, ?_, ?_, ?_, ?_⟩
  · rw [hflag, hcount, ← hmem]
    by_cases h : dst ∈ StdMap.keys t.m_ipv4AddressEntry <;> simp [h]
  · rw [htab, LookupRoute_eq_find, StdMap.find_erase, if_pos rfl]
  · intro a ha
    rw [htab, LookupRoute_eq_find, LookupRoute_eq_find, StdMap.find_erase, if_neg ha]
  · intro h
    rw [hflag, hcount] at h
    rw [htab]
    simp only [RoutingTableSize]
    by_cases hm : dst ∈ StdMap.keys t.m_ipv4AddressEntry
    · rw [hcount, if_pos hm] at hlen
      exact hlen
    · rw [if_neg hm] at h
      exact absurd rfl h
  · intro h
    have hz : (StdMap.erase t.m_ipv4AddressEntry dst).2 = 0 := by
      by_contra hne
      rw [hflag.mpr hne] at h
      exact absurd h (by simp)
    rw [htab]
    simp only [RoutingTableSize]
    rw [hz] at hlen
    simpa using hlen

/-- Witness of C28: deleting peer 3 from `lineTable` leaves the peers 2 and 9. -/
theorem C28_DeleteRoute_one_entry_witness :
    ((lineTable.DeleteRoute 3).1 = true ∧
      StdMap.keys (lineTable.DeleteRoute 3).2.m_ipv4AddressEntry = [2, 9] ∧
      (lineTable.DeleteRoute 8).1 = false ∧ (lineTable.DeleteRoute 8).2 = lineTable) ∧
    (((lineTable.DeleteRoute 3).1 = true ↔ ∃ e, lineTable.LookupRoute 3 = some e) ∧
    (lineTable.DeleteRoute 3).2.LookupRoute 3 = none ∧
    (∀ a : Ipv4Address, a ≠ 3 →
      (lineTable.DeleteRoute 3).2.LookupRoute a = lineTable.LookupRoute a) ∧
    ((lineTable.DeleteRoute 3).1 = true →
      (lineTable.DeleteRoute 3).2.RoutingTableSize + 1 = lineTable.RoutingTableSize) ∧
    ((lineTable.DeleteRoute 3).1 = false →
      (lineTable.DeleteRoute 3).2.RoutingTableSize = lineTable.RoutingTableSize)) :=
  ⟨by decide, C28_DeleteRoute_one_entry lineTable 3 (by decide)⟩

end RoutingTable

/-! ## The recovery test: the claims -/

namespace RoutingTable

theorem MatchRecovery_iff (t : RoutingTable) (now : Int) (dst : Ipv4Address)
    (myPos : Vector) :
    t.MatchRecovery now dst myPos = true ↔
      (∃ e, t.LookupRoute dst = some e) ∧ t.LookupNeighbor now [] myPos ≠ [] := by
  unfold MatchRecovery
  by_cases hs : CalculateDistanceSq (t.PredictPosition now dst) (Vector.mk (-1) (-1) (-1)) = 0
  · have hnone := (sentinel_test_iff t now dst).mp hs
    simp [hs, hnone]
  · have hsome : ∃ e, t.LookupRoute dst = some e := by
      cases h : t.LookupRoute dst with
      | none => exact absurd ((sentinel_test_iff t now dst).mpr h) hs
      | some e => exact ⟨e, rfl⟩
    cases hnt : t.LookupNeighbor now [] myPos with
    | nil => simp [hs, hnt]
    | cons a l => simp [hs, hnt, hsome]

end RoutingTable

/-! ## Data forwarding: the outcomes together -/

theorem CalculateDistanceSq_nonneg (a b : Vector) : 0 ≤ CalculateDistanceSq a b := by
  unfold CalculateDistanceSq
  nlinarith [mul_self_nonneg (a.x - b.x), mul_self_nonneg (a.y - b.y),
    mul_self_nonneg (a.z - b.z)]

/-- The destination is no neighbor and the recovery flag is neither 1 nor 0: neither
block runs, no header is put back on the packet and no callback is invoked. -/
theorem Forwarding_other (t : RoutingTable) (now : Int) (myPos : Vector)
    (dataHeader : DataHeader) (header : Ipv4Header)
    (hnb : header.m_destination ∉ StdMap.keys (t.LookupNeighbor now [] myPos))
    (h1 : dataHeader.m_inRec ≠ 1) (h0 : dataHeader.m_inRec ≠ 0) :
    Forwarding t now myPos dataHeader header = { ret := true, p := none, calls := [] } := by
  have hf := StdMap.find_eq_none_of_not_mem _ _ hnb
  simp [Forwarding, hf, h1, h0]

/-- For a packet in recovery mode whose destination is no neighbor, the outcome is
the continuation of the recovery exactly when the node is not closer to the carried
destination position than the recovery-entry position. -/
theorem Forwarding_continue_iff (t : RoutingTable) (now : Int) (myPos : Vector)
    (dataHeader : DataHeader) (header : Ipv4Header)
    (hnb : header.m_destination ∉ StdMap.keys (t.LookupNeighbor now [] myPos))
    (hrec : dataHeader.m_inRec = 1) (hvalid : dataHeader.valid) :
    Forwarding t now myPos dataHeader header =
        { ret := true,
          p := some { dataHeader with
            m_lastPosx := toUint16 myPos.x, m_lastPosy := toUint16 myPos.y,
            m_lastPosz := toUint16 myPos.z },
          calls := [] } ↔
      ¬ CalculateDistanceSq myPos dataHeader.dstPos <
        CalculateDistanceSq dataHeader.recPos dataHeader.dstPos := by
  constructor
  · intro h hlt
    have hm : greedyAttempt myPos dataHeader := Or.inr ⟨hrec, hlt⟩
    by_cases hbn : t.BestNeighbor now header.m_destination myPos = GetZero
    · rw [Forwarding_enter t now myPos dataHeader header hnb hm hbn] at h
      obtain ⟨⟨hx0, hx1⟩, ⟨hy0, hy1⟩, ⟨hz0, hz1⟩, -⟩ := hvalid
      have hp := Option.some.inj (congrArg ForwardingResult.p h)
      have hrx := congrArg DataHeader.m_recPosx hp
      have hry := congrArg DataHeader.m_recPosy hp
      have hrz := congrArg DataHeader.m_recPosz hp
      have hlx := congrArg DataHeader.m_lastPosx hp
      have hly := congrArg DataHeader.m_lastPosy hp
      have hlz := congrArg DataHeader.m_lastPosz hp
      simp only at hrx hry hrz hlx hly hlz
      rw [toUint16_of_range hx0 hx1] at hlx
      rw [toUint16_of_range hy0 hy1] at hly
      rw [toUint16_of_range hz0 hz1] at hlz
      have hsame : CalculateDistanceSq dataHeader.recPos dataHeader.dstPos = 0 := by
        rw [CalculateDistanceSq_eq_zero]
        simp only [DataHeader.recPos, DataHeader.dstPos, Vector.mk.injEq]
        exact ⟨by omega, by omega, by omega⟩
      rw [hsame] at hlt
      exact absurd hlt (not_lt.mpr (CalculateDistanceSq_nonneg _ _))
    · rw [Forwarding_greedy t now myPos dataHeader header hnb hm hbn] at h
      simp at h
  · intro hfar
    exact Forwarding_continue t now myPos dataHeader header hnb hrec hfar

/-- C32, the code at a failing input.  Whenever the destination is a neighbor, the
header that `Forwarding` puts on the outgoing packet carries the x and y coordinate
and the update time of the incoming header, and as z coordinate of the destination
the incoming y coordinate.  With `lineTable`, at the origin, peer 3 is a neighbor;
for the incoming header `skewHeader`, which carries (200,7,5), the outgoing header
carries (200,7,7): the z coordinate 5 is not preserved. -/
theorem C32_Forwarding_direct_overwrites_dstPosz :
    (∀ (t : RoutingTable) (now : Int) (myPos : Vector) (dataHeader : DataHeader)
        (header : Ipv4Header),
      header.m_destination ∈ StdMap.keys (t.LookupNeighbor now [] myPos) →
      dataHeader.valid →
      ∃ out, (Forwarding t now myPos dataHeader header).p = some out ∧
        out.m_dstPosx = dataHeader.m_dstPosx ∧ out.m_dstPosy = dataHeader.m_dstPosy ∧
        out.m_dstPosz = dataHeader.m_dstPosy ∧ out.m_updated = dataHeader.m_updated) ∧
    (toPeer3.m_destination ∈
        StdMap.keys (lineTable.LookupNeighbor 0 [] (Vector.mk 0 0 0)) ∧
      skewHeader.valid ∧ skewHeader.dstPos = Vector.mk 200 7 5 ∧
      (Forwarding lineTable 0 (Vector.mk 0 0 0) skewHeader toPeer3).p =
        some { m_dstPosx := 200, m_dstPosy := 7, m_dstPosz := 7, m_updated := 2 } ∧
      (Forwarding lineTable 0 (Vector.mk 0 0 0) skewHeader toPeer3).calls =
        [CallbackCall.ucb
          { m_dest := 3, m_source := 167772161, m_gateway := 3, m_outputDevice := 1 }
          { m_dstPosx := 200, m_dstPosy := 7, m_dstPosz := 7, m_updated := 2 }
          toPeer3]) := by
  refine ⟨?_, by decide⟩
  intro t now myPos dataHeader header hnb hvalid
  rw [Forwarding_direct t now myPos dataHeader header hnb]
  obtain ⟨⟨hx0, hx1⟩, ⟨hy0, hy1⟩, -⟩ := hvalid
  exact ⟨_, rfl, toUint16_of_range hx0 hx1, toUint16_of_range hy0 hy1,
    toUint16_of_range hy0 hy1, rfl⟩

/-- Whatever the branch taken, `Forwarding` returns `true`, invokes no error
callback and invokes at most one callback. -/
theorem Forwarding_shape (t : RoutingTable) (now : Int) (myPos : Vector)
    (dataHeader : DataHeader) (header : Ipv4Header) :
    (Forwarding t now myPos dataHeader header).ret = true ∧
    (∀ h err, CallbackCall.ecb h err ∉ (Forwarding t now myPos dataHeader header).calls) ∧
    (Forwarding t now myPos dataHeader header).calls.length ≤ 1 := by
  by_cases hnb : header.m_destination ∈ StdMap.keys (t.LookupNeighbor now [] myPos)
  · rw [Forwarding_direct t now myPos dataHeader header hnb]
    simp
  · by_cases hmode : greedyAttempt myPos dataHeader
    · by_cases hbn : t.BestNeighbor now header.m_destination myPos = GetZero
      · rw [Forwarding_enter t now myPos dataHeader header hnb hmode hbn]
        simp
      · rw [Forwarding_greedy t now myPos dataHeader header hnb hmode hbn]
        simp
    · have h0 : dataHeader.m_inRec ≠ 0 := fun h => hmode (Or.inl h)
      by_cases h1 : dataHeader.m_inRec = 1
      · have hfar : ¬ CalculateDistanceSq myPos dataHeader.dstPos <
            CalculateDistanceSq dataHeader.recPos dataHeader.dstPos :=
          fun h => hmode (Or.inr ⟨h1, h⟩)
        rw [Forwarding_continue t now myPos dataHeader header hnb h1 hfar]
        simp
      · rw [Forwarding_other t now myPos dataHeader header hnb h1 h0]
        simp

/-- The table that `SetIpv4` initialises holds the loopback entry. -/
theorem LookupRoute_SetIpv4 :
    (SetIpv4 {}).LookupRoute GetLoopback = some SetIpv4_rt := by
  decide

/-! ## Double-precision arithmetic: rounding of small integers -/

theorem ilog2_eq (n : Nat) : ilog2 n = Nat.log2 n := by
  unfold ilog2
  simp only
  split
  · next h =>
    by_cases hn : n = 0
    · subst hn
      simp at h
    · rw [Nat.log2_eq_log_two]
      symm
      rw [Nat.log_eq_iff (Or.inr ⟨by norm_num, hn⟩)]
      exact h
  · rfl

theorem isqrt_eq (n : Nat) : isqrt n = Nat.sqrt n := by
  unfold isqrt
  simp only
  split
  · next h => exact Nat.eq_sqrt.mpr h
  · rfl

theorem roundShift_mul (a d : Nat) : roundShift (a * 2 ^ d) d = a := by
  have hp : 0 < 2 ^ d := Nat.pow_pos (by norm_num)
  unfold roundShift
  simp only [Nat.mul_mod_left, Nat.mul_div_cancel _ hp, Nat.mul_zero]
  rw [if_pos hp]

theorem mul_pow_pow (k a b c : Nat) (h : a + b = c) : k * 2 ^ a * 2 ^ b = k * 2 ^ c := by
  subst h
  rw [Nat.mul_assoc, ← pow_add]

theorem mul_pow_lt (k a b c : Nat) (hk : k < 2 ^ a) (h : a + b ≤ c) : k * 2 ^ b < 2 ^ c :=
  calc k * 2 ^ b < 2 ^ a * 2 ^ b := Nat.mul_lt_mul_of_pos_right hk (Nat.pow_pos (by decide))
    _ = 2 ^ (a + b) := (pow_add 2 a b).symm
    _ ≤ 2 ^ c := Nat.pow_le_pow_right (by decide) h

theorem log2_mul_pow (k s : Nat) (hk : k ≠ 0) :
    Nat.log2 (k * 2 ^ s) = Nat.log2 k + s := by
  have hn : k * 2 ^ s ≠ 0 := Nat.mul_ne_zero hk (by positivity)
  rw [Nat.log2_eq_log_two, Nat.log_eq_iff (Or.inr ⟨by norm_num, hn⟩)]
  have h1 : 2 ^ Nat.log2 k ≤ k := Nat.log2_self_le hk
  have h2 : k < 2 ^ (Nat.log2 k + 1) := Nat.lt_log2_self
  constructor
  · rw [pow_add]
    exact Nat.mul_le_mul_right _ h1
  · have : 2 ^ (Nat.log2 k + s + 1) = 2 ^ (Nat.log2 k + 1) * 2 ^ s := by
      rw [← pow_add]; congr 1; omega
    rw [this]
    exact Nat.mul_lt_mul_of_pos_right h2 (by positivity)

namespace Double

/-- Rounding leaves an integer of at most 53 bits as it is. -/
theorem round_exact (negative : Bool) (k s : Nat) (hk : k < 2 ^ 53) :
    round negative (k * 2 ^ s) s =
      finite (if negative then -((k * 2 ^ 1074 : Nat) : Int) else ((k * 2 ^ 1074 : Nat) : Int)) := by
  by_cases hk0 : k = 0
  · subst hk0
    unfold round
    rw [if_pos (Nat.zero_mul _)]
    simp only [Nat.zero_mul, Nat.cast_zero, neg_zero, ite_self]
  · have hn : k * 2 ^ s ≠ 0 := Nat.mul_ne_zero hk0 (by positivity)
    have hL : Nat.log2 k < 53 := (Nat.log2_lt hk0).mpr hk
    unfold round
    rw [if_neg hn]
    simp only [ilog2_eq, log2_mul_pow k s hk0]
    have hu : max (((Nat.log2 k + s : Nat) : Int) - (s : Int) - 52) (-1074) =
        (Nat.log2 k : Int) - 52 := by
      rw [max_eq_left (by omega)]
      omega
    rw [hu]
    have hup : (k * 2 ^ s) * 2 ^ (-((s : Int) + ((Nat.log2 k : Int) - 52))).toNat =
        (k * 2 ^ (52 - Nat.log2 k)) * 2 ^ ((s : Int) + ((Nat.log2 k : Int) - 52)).toNat := by
      rw [mul_pow_pow k s _ (s + (-((s : Int) + ((Nat.log2 k : Int) - 52))).toNat) rfl]
      exact (mul_pow_pow k _ _ _ (by omega)).symm
    rw [hup, roundShift_mul]
    have hexp : ((Nat.log2 k : Int) - 52 + 1074).toNat = Nat.log2 k + 1022 := by omega
    rw [hexp]
    have hval : k * 2 ^ (52 - Nat.log2 k) * 2 ^ (Nat.log2 k + 1022) = k * 2 ^ 1074 :=
      mul_pow_pow k _ _ _ (by omega)
    rw [hval]
    have hlt : k * 2 ^ 1074 < 2 ^ 2098 :=
      mul_pow_lt k 53 1074 2098 hk (by decide)
    rw [if_neg (not_le.mpr hlt)]

/-- The double nearest to an integer of at most 53 bits is that integer. -/
theorem ofScaled_exact (i : Int) (s : Nat) (hi : i.natAbs < 2 ^ 53) :
    ofScaled (i * 2 ^ s) s = ofInt i := by
  unfold ofScaled ofInt
  have habs : (i * 2 ^ s).natAbs = i.natAbs * 2 ^ s := by
    rw [Int.natAbs_mul, Int.natAbs_pow]
    rfl
  rw [habs, round_exact _ _ _ hi]
  congr 1
  have hp : (0 : Int) < 2 ^ s := by positivity
  by_cases hneg : i < 0
  · have hlt : i * 2 ^ s < 0 := Int.mul_neg_of_neg_of_pos hneg hp
    rw [decide_eq_true hlt, if_pos rfl, Nat.cast_mul, Int.ofNat_natAbs_of_nonpos (le_of_lt hneg),
      neg_mul, neg_neg, Nat.cast_pow, Nat.cast_ofNat]
  · have hge : ¬ i * 2 ^ s < 0 := not_lt.mpr (mul_nonneg (not_lt.mp hneg) (le_of_lt hp))
    rw [decide_eq_false hge, if_neg (by simp), Nat.cast_mul,
      Int.natAbs_of_nonneg (not_lt.mp hneg), Nat.cast_pow, Nat.cast_ofNat]

end Double

theorem roundShift_bounds (n d : Nat) :
    2 * (roundShift n d * 2 ^ d) ≤ 2 * n + 2 ^ d ∧
      2 * n ≤ 2 * (roundShift n d * 2 ^ d) + 2 ^ d := by
  have hP : 0 < 2 ^ d := Nat.pow_pos (by decide)
  have hdm : 2 ^ d * (n / 2 ^ d) + n % 2 ^ d = n := Nat.div_add_mod n (2 ^ d)
  have hr : n % 2 ^ d < 2 ^ d := Nat.mod_lt n hP
  have hq : (n / 2 ^ d + 1) * 2 ^ d = (n / 2 ^ d) * 2 ^ d + 2 ^ d := by ring
  rw [Nat.mul_comm] at hdm
  unfold roundShift
  simp only
  generalize n / 2 ^ d = q at *
  generalize n % 2 ^ d = r at *
  generalize 2 ^ d = P at *
  generalize hX : q * P = X at *
  split_ifs <;> simp only [hq, hX] <;> omega

theorem roundShift_le (n d b : Nat) (h : n < 2 ^ (d + b)) : roundShift n d ≤ 2 ^ b := by
  have hP : 0 < 2 ^ d := Nat.pow_pos (by decide)
  have hq : n / 2 ^ d < 2 ^ b := by
    rw [Nat.div_lt_iff_lt_mul hP, ← pow_add, Nat.add_comm]
    exact h
  unfold roundShift
  simp only
  split_ifs <;> omega

theorem mul_pow_le (k a b c : Nat) (hk : k ≤ 2 ^ a) (h : a + b ≤ c) : k * 2 ^ b ≤ 2 ^ c :=
  calc k * 2 ^ b ≤ 2 ^ a * 2 ^ b := Nat.mul_le_mul_right _ hk
    _ = 2 ^ (a + b) := (pow_add 2 a b).symm
    _ ≤ 2 ^ c := Nat.pow_le_pow_right (by decide) h

theorem mul_pow_lt_of_le (k a b c : Nat) (hk : k ≤ 2 ^ a) (h : a + b < c) :
    k * 2 ^ b < 2 ^ c :=
  lt_of_le_of_lt (mul_pow_le k a b (a + b) hk (le_refl _))
    (Nat.pow_lt_pow_right (by decide) h)

namespace Double

/-- Rounding of a value in the normal range: the integer `R` is cut to 53 bits. -/
theorem round_normal (R s L : Nat) (hL1 : 2 ^ L ≤ R) (hL2 : R < 2 ^ (L + 1))
    (h52 : 52 ≤ L) (hs : s ≤ L + 1022) (hov : L < s + 1023) :
    round false R s = finite ((roundShift R (L - 52) * 2 ^ (L + 1022 - s) : Nat) : Int) := by
  have hR : R ≠ 0 := by
    have : 0 < 2 ^ L := Nat.pow_pos (by decide)
    omega
  have hlog : Nat.log2 R = L := by
    rw [Nat.log2_eq_log_two, Nat.log_eq_iff (Or.inr ⟨by norm_num, hR⟩)]
    exact ⟨hL1, hL2⟩
  unfold round
  rw [if_neg hR]
  simp only [ilog2_eq, hlog]
  have hu : max ((L : Int) - (s : Int) - 52) (-1074) = (L : Int) - s - 52 :=
    max_eq_left (by omega)
  rw [hu]
  have h1 : (-((s : Int) + ((L : Int) - s - 52))).toNat = 0 := by omega
  have h2 : ((s : Int) + ((L : Int) - s - 52)).toNat = L - 52 := by omega
  have h3 : ((L : Int) - s - 52 + 1074).toNat = L + 1022 - s := by omega
  rw [h1, h2, h3, pow_zero, Nat.mul_one]
  have hm : roundShift R (L - 52) ≤ 2 ^ 53 := by
    apply roundShift_le
    have : L - 52 + 53 = L + 1 := by omega
    rw [this]
    exact hL2
  have hexp : 53 + (L + 1022 - s) < 2098 := by omega
  have hlt : roundShift R (L - 52) * 2 ^ (L + 1022 - s) < 2 ^ 2098 :=
    mul_pow_lt_of_le _ 53 _ 2098 hm hexp
  rw [if_neg (not_le.mpr hlt)]
  simp

end Double

theorem pow_mul_pow (a b c : Nat) (h : a + b = c) : 2 ^ a * 2 ^ b = 2 ^ c := by
  subst h
  exact (pow_add 2 a b).symm

/-- The integer square roots of `N * S²` for `N` below `2 ^ 35`, where `S` is
`2 ^ 20 * D`: they lie between `S` and `2 ^ 18 * S` and are at least `D` apart. -/
theorem sqrt_scaled_bounds (S D N : Nat) (hS : S = 2 ^ 20 * D) (hD : 1 ≤ D) (hN1 : 1 ≤ N)
    (hN2 : N < 2 ^ 35) :
    S ≤ Nat.sqrt (N * (S * S)) ∧ Nat.sqrt (N * (S * S)) < 2 ^ 18 * S := by
  constructor
  · rw [Nat.le_sqrt]
    exact Nat.le_mul_of_pos_left _ hN1
  · rw [Nat.sqrt_lt]
    have : 2 ^ 18 * S * (2 ^ 18 * S) = 2 ^ 36 * (S * S) := by ring
    rw [this]
    have hS0 : 0 < S := by omega
    exact Nat.mul_lt_mul_of_pos_right (by omega) (Nat.mul_pos hS0 hS0)

theorem sqrt_scaled_gap (S D N M : Nat) (hS : S = 2 ^ 20 * D) (hD : 1 ≤ D) (hN1 : 1 ≤ N)
    (hNM : N < M) (hM : M < 2 ^ 35) :
    Nat.sqrt (N * (S * S)) + D ≤ Nat.sqrt (M * (S * S)) := by
  obtain ⟨-, hb⟩ := sqrt_scaled_bounds S D N hS hD hN1 (by omega)
  have h1 : Nat.sqrt (N * (S * S)) * Nat.sqrt (N * (S * S)) ≤ N * (S * S) := Nat.sqrt_le _
  have h3 : (N + 1) * (S * S) ≤ M * (S * S) := Nat.mul_le_mul_right _ hNM
  rw [Nat.le_sqrt]
  generalize Nat.sqrt (N * (S * S)) = r at *
  subst hS
  have h2 : r * D ≤ 2 ^ 18 * (2 ^ 20 * D) * D := Nat.mul_le_mul_right D (le_of_lt hb)
  nlinarith [h1, h2, h3]

theorem one_le_pow2 (a : Nat) : 1 ≤ 2 ^ a := Nat.one_le_two_pow

theorem le_log2_of_pow_le (k n : Nat) (hn : n ≠ 0) (h : 2 ^ k ≤ n) : k ≤ Nat.log2 n :=
  (Nat.le_log2 hn).mpr h

theorem log2_lt_of_lt_pow (k n : Nat) (hn : n ≠ 0) (h : n < 2 ^ k) : Nat.log2 n < k :=
  (Nat.log2_lt hn).mpr h

namespace Double

theorem ofInt_natCast (N : Nat) : ofInt (N : Int) = finite ((N * 2 ^ 1074 : Nat) : Int) := by
  unfold ofInt
  rw [Nat.cast_mul, Nat.cast_pow, Nat.cast_ofNat]

theorem sqrt_ofNat_form (N : Nat) :
    sqrt (ofInt (N : Int)) =
      round false (2 * Nat.sqrt (N * (2 ^ 591 * 2 ^ 591)) +
        (if Nat.sqrt (N * (2 ^ 591 * 2 ^ 591)) * Nat.sqrt (N * (2 ^ 591 * 2 ^ 591)) =
          N * (2 ^ 591 * 2 ^ 591) then 0 else 1)) 592 := by
  rw [ofInt_natCast]
  simp only [sqrt]
  rw [if_neg (not_lt.mpr (Int.natCast_nonneg _))]
  simp only [Int.toNat_natCast, isqrt_eq]
  rw [mul_pow_pow N 1074 108 1182 (by decide), ← pow_mul_pow 591 591 1182 (by decide)]

theorem sqrt_ofInt_zero : sqrt (ofInt 0) = finite 0 := by
  have h := sqrt_ofNat_form 0
  simp only [Nat.zero_mul, Nat.sqrt_zero, Nat.mul_zero, if_true, Nat.add_zero,
    Nat.cast_zero] at h
  rw [h]
  unfold round
  rw [if_pos rfl]

/-- The square root of an integer between 1 and `2 ^ 35`: the integer `R`, twice
the scaled integer square root plus the bit for the remainder, cut to 53 bits. -/
theorem sqrt_ofNat_pos (N : Nat) (h1 : 1 ≤ N) (h2 : N < 2 ^ 35) :
    ∃ H st : Nat, st ≤ 1 ∧ 0 < H ∧ sqrt (ofInt (N : Int)) = finite ((H * 2 ^ 482 : Nat) : Int) ∧
      2 ^ 53 * H ≤ (2 ^ 53 + 1) * (2 * Nat.sqrt (N * (2 ^ 591 * 2 ^ 591)) + st) ∧
      (2 ^ 53 - 1) * (2 * Nat.sqrt (N * (2 ^ 591 * 2 ^ 591)) + st) ≤ 2 ^ 53 * H := by
  rw [sqrt_ofNat_form]
  have hS : 2 ^ 591 = 2 ^ 20 * 2 ^ 571 := (pow_mul_pow 20 571 591 (by decide)).symm
  have hD : 1 ≤ 2 ^ 571 := one_le_pow2 571
  obtain ⟨hr1, hr2⟩ := sqrt_scaled_bounds (2 ^ 591) (2 ^ 571) N hS hD h1 h2
  have h592 : 2 ^ 592 = 2 ^ 1 * 2 ^ 591 := (pow_mul_pow 1 591 592 (by decide)).symm
  have h611 : 2 ^ 611 = 2 ^ 20 * 2 ^ 591 := (pow_mul_pow 20 591 611 (by decide)).symm
  generalize hst : (if Nat.sqrt (N * (2 ^ 591 * 2 ^ 591)) * Nat.sqrt (N * (2 ^ 591 * 2 ^ 591)) =
          N * (2 ^ 591 * 2 ^ 591) then 0 else 1) = st
  have hst1 : st ≤ 1 := by
    rw [← hst]
    split <;> omega
  generalize hr : Nat.sqrt (N * (2 ^ 591 * 2 ^ 591)) = r at *
  generalize hRdef : 2 * r + st = R
  have key : ∀ S S2 S3 : Nat, S2 = 2 ^ 1 * S → S3 = 2 ^ 20 * S → S ≤ r → r < 2 ^ 18 * S →
      S2 ≤ R ∧ R < S3 := by
    intro S S2 S3 e1 e2 e3 e4
    omega
  obtain ⟨hRlo, hRhi⟩ := key _ _ _ h592 h611 hr1 hr2
  have hR0 : R ≠ 0 := Nat.pos_iff_ne_zero.mp (lt_of_lt_of_le (one_le_pow2 592) hRlo)
  have hL1 : 2 ^ Nat.log2 R ≤ R := Nat.log2_self_le hR0
  have hL2 : R < 2 ^ (Nat.log2 R + 1) := Nat.lt_log2_self
  have hLlo : 592 ≤ Nat.log2 R := le_log2_of_pow_le 592 R hR0 hRlo
  have hLhi : Nat.log2 R < 611 := log2_lt_of_lt_pow 611 R hR0 hRhi
  clear hRlo hRhi key h592 h611 hS hD hr1 hr2
  rw [round_normal R 592 (Nat.log2 R) hL1 hL2 (by omega) (by omega) (by omega)]
  generalize Nat.log2 R = L at *
  have he : L + 1022 - 592 = (L - 52) + 482 := by omega
  rw [he, ← mul_pow_pow (roundShift R (L - 52)) (L - 52) 482 _ rfl]
  obtain ⟨hb1, hb2⟩ := roundShift_bounds R (L - 52)
  have hP : 2 ^ (L - 52) * 2 ^ 52 = 2 ^ L := pow_mul_pow (L - 52) 52 L (by omega)
  refine ⟨roundShift R (L - 52) * 2 ^ (L - 52), st, hst1, ?_, rfl, ?_, ?_⟩
  · have hpos : 0 < 2 ^ (L - 52) := Nat.pow_pos (by decide)
    have hR1 : 1 ≤ R := Nat.pos_of_ne_zero hR0
    clear hL2 hLlo hLhi
    generalize roundShift R (L - 52) * 2 ^ (L - 52) = H at *
    generalize 2 ^ (L - 52) = P at *
    generalize 2 ^ L = Q at *
    omega
  · clear hL2 hLlo hLhi
    generalize roundShift R (L - 52) * 2 ^ (L - 52) = H at *
    generalize 2 ^ (L - 52) = P at *
    generalize 2 ^ L = Q at *
    omega
  · clear hL2 hLlo hLhi
    generalize roundShift R (L - 52) * 2 ^ (L - 52) = H at *
    generalize 2 ^ (L - 52) = P at *
    generalize 2 ^ L = Q at *
    omega

end Double

namespace Double

/-- The square root is strictly increasing on the integers below `2 ^ 35`. -/
theorem sqrt_ofNat_lt (n m : Nat) (h : n < m) (hm : m < 2 ^ 35) :
    ∃ a b : Int, sqrt (ofInt (n : Int)) = finite a ∧ sqrt (ofInt (m : Int)) = finite b ∧
      0 ≤ a ∧ a < b := by
  obtain ⟨Hm, stm, hstm, hHm, hm1, hm2, hm3⟩ := sqrt_ofNat_pos m (by omega) hm
  by_cases hn : n = 0
  · subst hn
    refine ⟨0, _, ?_, hm1, le_refl _, ?_⟩
    · rw [Nat.cast_zero]
      exact sqrt_ofInt_zero
    · exact Int.natCast_pos.mpr (Nat.mul_pos hHm (one_le_pow2 482))
  · obtain ⟨Hn, stn, hstn, hHn, hn1, hn2, hn3⟩ := sqrt_ofNat_pos n (by omega) (by omega)
    have hS : 2 ^ 591 = 2 ^ 20 * 2 ^ 571 := (pow_mul_pow 20 571 591 (by decide)).symm
    have hD : 1 ≤ 2 ^ 571 := one_le_pow2 571
    have hgap := sqrt_scaled_gap (2 ^ 591) (2 ^ 571) n m hS hD (by omega) h hm
    obtain ⟨-, hr2⟩ := sqrt_scaled_bounds (2 ^ 591) (2 ^ 571) n hS hD (by omega) (by omega)
    refine ⟨_, _, hn1, hm1, Int.natCast_nonneg _, ?_⟩
    have hH : Hn < Hm := by
      have key : ∀ S D rn rm : Nat, S = 2 ^ 20 * D → 1 ≤ D → rn + D ≤ rm → rn < 2 ^ 18 * S →
          2 ^ 53 * Hn ≤ (2 ^ 53 + 1) * (2 * rn + stn) →
          (2 ^ 53 - 1) * (2 * rm + stm) ≤ 2 ^ 53 * Hm → Hn < Hm := by
        intro S D rn rm e1 e2 e3 e4 e5 e6
        omega
      exact key _ _ _ _ hS hD hgap hr2 hn2 hm3
    exact Int.ofNat_lt.mpr (Nat.mul_lt_mul_of_pos_right hH (one_le_pow2 482))

/-- On the integers from 0 to `2 ^ 35` the rounded square roots are finite and
ordered as the integers are. -/
theorem sqrt_ofInt_cmp (N M : Int) (hN0 : 0 ≤ N) (hN1 : N < 2 ^ 35) (hM0 : 0 ≤ M)
    (hM1 : M < 2 ^ 35) :
    ∃ a b : Int, sqrt (ofInt N) = finite a ∧ sqrt (ofInt M) = finite b ∧ 0 ≤ a ∧ 0 ≤ b ∧
      (a < b ↔ N < M) ∧ (a = b ↔ N = M) := by
  obtain ⟨n, rfl⟩ := Int.eq_ofNat_of_zero_le hN0
  obtain ⟨m, rfl⟩ := Int.eq_ofNat_of_zero_le hM0
  have hn : n < 2 ^ 35 := by exact_mod_cast hN1
  have hm : m < 2 ^ 35 := by exact_mod_cast hM1
  rcases Nat.lt_trichotomy n m with h | h | h
  · obtain ⟨a, b, ha, hb, ha0, hab⟩ := sqrt_ofNat_lt n m h hm
    exact ⟨a, b, ha, hb, ha0, by omega, by omega, by omega⟩
  · subst h
    by_cases hn0 : n = 0
    · subst hn0
      exact ⟨0, 0, by simpa using sqrt_ofInt_zero, by simpa using sqrt_ofInt_zero,
        le_refl _, le_refl _, by simp, by simp⟩
    · obtain ⟨a', b', -, hb', ha0', hab'⟩ := sqrt_ofNat_lt (n - 1) n (by omega) hn
      exact ⟨b', b', hb', hb', by omega, by omega, by simp, by simp⟩
  · obtain ⟨a, b, ha, hb, ha0, hab⟩ := sqrt_ofNat_lt m n h hn
    exact ⟨b, a, hb, ha, by omega, ha0, by omega, by omega⟩

theorem sqrt_ofInt_lt_iff (N M : Int) (hN0 : 0 ≤ N) (hN1 : N < 2 ^ 35) (hM0 : 0 ≤ M)
    (hM1 : M < 2 ^ 35) : (sqrt (ofInt N)).lt (sqrt (ofInt M)) = true ↔ N < M := by
  obtain ⟨a, b, ha, hb, -, -, h1, -⟩ := sqrt_ofInt_cmp N M hN0 hN1 hM0 hM1
  rw [ha, hb]
  simp [lt, h1]

theorem sqrt_ofInt_le_iff (N M : Int) (hN0 : 0 ≤ N) (hN1 : N < 2 ^ 35) (hM0 : 0 ≤ M)
    (hM1 : M < 2 ^ 35) : (sqrt (ofInt N)).le (sqrt (ofInt M)) = true ↔ N ≤ M := by
  obtain ⟨a, b, ha, hb, -, -, h1, h2⟩ := sqrt_ofInt_cmp N M hN0 hN1 hM0 hM1
  rw [ha, hb]
  simp only [le, decide_eq_true_eq]
  omega

theorem sqrt_ofInt_eq_iff (N M : Int) (hN0 : 0 ≤ N) (hN1 : N < 2 ^ 35) (hM0 : 0 ≤ M)
    (hM1 : M < 2 ^ 35) : (sqrt (ofInt N)).eq (sqrt (ofInt M)) = true ↔ N = M := by
  obtain ⟨a, b, ha, hb, -, -, -, h2⟩ := sqrt_ofInt_cmp N M hN0 hN1 hM0 hM1
  rw [ha, hb]
  simp [eq, h2]

end Double

namespace Double

theorem sqrt_ofInt_62500 : sqrt (ofInt 62500) = ofInt 250 := by
  decide!

end Double

namespace Double

theorem ofInt_zero : ofInt 0 = finite 0 := by
  unfold ofInt
  rw [Int.zero_mul]

theorem sub_ofInt (a b : Int) (h : (a - b).natAbs < 2 ^ 53) :
    (ofInt a).sub (ofInt b) = ofInt (a - b) := by
  simp only [ofInt, sub]
  rw [← Int.sub_mul]
  exact ofScaled_exact (a - b) 1074 h

theorem add_ofInt (a b : Int) (h : (a + b).natAbs < 2 ^ 53) :
    (ofInt a).add (ofInt b) = ofInt (a + b) := by
  simp only [ofInt, add]
  rw [← Int.add_mul]
  exact ofScaled_exact (a + b) 1074 h

theorem int_pow_mul_pow (a b c : Nat) (h : a + b = c) : (2 : Int) ^ a * 2 ^ b = 2 ^ c := by
  subst h
  exact (pow_add 2 a b).symm

theorem mul_ofInt (a b : Int) (h : (a * b).natAbs < 2 ^ 53) :
    (ofInt a).mul (ofInt b) = ofInt (a * b) := by
  simp only [ofInt, mul]
  have : a * 2 ^ 1074 * (b * 2 ^ 1074) = a * b * 2 ^ 2148 := by
    rw [← int_pow_mul_pow 1074 1074 2148 (by decide)]
    generalize (2 : Int) ^ 1074 = C
    ring
  rw [this]
  exact ofScaled_exact (a * b) 2148 h

end Double

/-- Between two points with integer coordinates from -1 to 65535 no operation of
`CalculateDistance` but the square root rounds. -/
theorem CalculateDistance_lattice (v w : Vector) (hv : v.isPredicted) (hw : w.isPredicted) :
    CalculateDistance v.toVector3D w.toVector3D =
      Double.sqrt (Double.ofInt (CalculateDistanceSq v w)) := by
  obtain ⟨⟨hvx0, hvx1⟩, ⟨hvy0, hvy1⟩, ⟨hvz0, hvz1⟩⟩ := hv
  obtain ⟨⟨hwx0, hwx1⟩, ⟨hwy0, hwy1⟩, ⟨hwz0, hwz1⟩⟩ := hw
  have sq : ∀ d : Int, -65536 ≤ d → d ≤ 65536 → 0 ≤ d * d ∧ d * d ≤ 4294967296 := by
    intro d h1 h2
    constructor
    · exact mul_self_nonneg d
    · nlinarith
  obtain ⟨hx0, hx1⟩ := sq (w.x - v.x) (by omega) (by omega)
  obtain ⟨hy0, hy1⟩ := sq (w.y - v.y) (by omega) (by omega)
  obtain ⟨hz0, hz1⟩ := sq (w.z - v.z) (by omega) (by omega)
  simp only [CalculateDistance, Vector.toVector3D]
  rw [Double.sub_ofInt w.x v.x (by omega), Double.sub_ofInt w.y v.y (by omega),
    Double.sub_ofInt w.z v.z (by omega),
    Double.mul_ofInt _ _ (by omega), Double.mul_ofInt _ _ (by omega),
    Double.mul_ofInt _ _ (by omega), Double.add_ofInt _ _ (by omega),
    Double.add_ofInt _ _ (by omega)]
  congr 2
  unfold CalculateDistanceSq
  ring

theorem CalculateDistanceSq_isPredicted (v w : Vector) (hv : v.isPredicted)
    (hw : w.isPredicted) :
    0 ≤ CalculateDistanceSq v w ∧ CalculateDistanceSq v w < 2 ^ 35 := by
  obtain ⟨⟨hvx0, hvx1⟩, ⟨hvy0, hvy1⟩, ⟨hvz0, hvz1⟩⟩ := hv
  obtain ⟨⟨hwx0, hwx1⟩, ⟨hwy0, hwy1⟩, ⟨hwz0, hwz1⟩⟩ := hw
  have sq : ∀ d : Int, -65536 ≤ d → d ≤ 65536 → 0 ≤ d * d ∧ d * d ≤ 4294967296 := by
    intro d h1 h2
    constructor
    · exact mul_self_nonneg d
    · nlinarith
  obtain ⟨hx0, hx1⟩ := sq (v.x - w.x) (by omega) (by omega)
  obtain ⟨hy0, hy1⟩ := sq (v.y - w.y) (by omega) (by omega)
  obtain ⟨hz0, hz1⟩ := sq (v.z - w.z) (by omega) (by omega)
  unfold CalculateDistanceSq
  constructor <;> omega

/-! ## The lookups in double precision: distances between predicted positions -/

namespace RoutingTable

theorem isPredicted_PredictPosition (t : RoutingTable) (now : Int) (id : Ipv4Address) :
    (t.PredictPosition now id).isPredicted := by
  cases h : t.LookupRoute id with
  | none =>
    rw [PredictPosition_none now h]
    decide
  | some rt =>
    rw [PredictPosition_some now h]
    refine ⟨⟨?_, toUint16_le _⟩, ⟨?_, toUint16_le _⟩, ⟨?_, toUint16_le _⟩⟩
    · exact le_trans (by decide) (toUint16_nonneg _)
    · exact le_trans (by decide) (toUint16_nonneg _)
    · exact le_trans (by decide) (toUint16_nonneg _)

end RoutingTable

namespace Double

theorem lt_irrefl64 (a : Double) : a.lt a = false := by
  cases a with
  | finite n => simp [lt]
  | inf x => cases x <;> rfl
  | nan => rfl

theorem lt_trans64 (a b c : Double) (h1 : a.lt b = true) (h2 : b.lt c = true) :
    a.lt c = true := by
  cases a <;> cases b <;> cases c <;> simp_all [lt]
  omega

theorem le_lt_trans64 (a b c : Double) (h1 : a.le b = true) (h2 : b.lt c = true) :
    a.lt c = true := by
  cases a <;> cases b <;> cases c <;> simp_all [lt, le]
  omega

theorem lt_asymm64 (a b : Double) (h : a.lt b = true) : b.lt a = false := by
  cases a <;> cases b <;> simp_all [lt]
  omega

theorem le_of_lt64 (a b : Double) (h : a.lt b = true) : a.le b = true := by
  cases a <;> cases b <;> simp_all [lt, le]
  omega

end Double

namespace Binary64

/-- Distances between predicted positions are ordered as their exact squares are. -/
theorem CalculateDistance_lt_iff (a b c d : Vector) (ha : a.isPredicted) (hb : b.isPredicted)
    (hc : c.isPredicted) (hd : d.isPredicted) :
    (CalculateDistance a.toVector3D b.toVector3D).lt
        (CalculateDistance c.toVector3D d.toVector3D) = true ↔
      CalculateDistanceSq a b < CalculateDistanceSq c d := by
  rw [CalculateDistance_lattice a b ha hb, CalculateDistance_lattice c d hc hd]
  obtain ⟨h1, h2⟩ := CalculateDistanceSq_isPredicted a b ha hb
  obtain ⟨h3, h4⟩ := CalculateDistanceSq_isPredicted c d hc hd
  exact Double.sqrt_ofInt_lt_iff _ _ h1 h2 h3 h4

/-- The distance between two predicted positions is zero exactly when they are the
same point. -/
theorem CalculateDistance_eq_zero_iff (a b : Vector) (ha : a.isPredicted)
    (hb : b.isPredicted) :
    (CalculateDistance a.toVector3D b.toVector3D).eq (Double.ofInt 0) = true ↔ a = b := by
  rw [CalculateDistance_lattice a b ha hb]
  obtain ⟨h1, h2⟩ := CalculateDistanceSq_isPredicted a b ha hb
  have h0 : Double.ofInt 0 = Double.sqrt (Double.ofInt 0) := by
    rw [Double.sqrt_ofInt_zero, Double.ofInt_zero]
  rw [h0, Double.sqrt_ofInt_eq_iff _ _ h1 h2 (le_refl _) (by decide)]
  exact CalculateDistanceSq_eq_zero a b

theorem sentinel_test64 (t : RoutingTable) (now : Int) (id : Ipv4Address) :
    (CalculateDistance (t.PredictPosition now id).toVector3D
        (Vector.mk (-1) (-1) (-1)).toVector3D).eq (Double.ofInt 0) = true ↔
      t.LookupRoute id = none := by
  rw [CalculateDistance_eq_zero_iff _ _ (RoutingTable.isPredicted_PredictPosition t now id)
    (by decide), ← CalculateDistanceSq_eq_zero]
  exact RoutingTable.sentinel_test_iff t now id

theorem withinRange_iff (t : RoutingTable) (now : Int) (myPos : Vector3D)
    (k : Ipv4Address) :
    withinRange t now myPos k = true ↔
      (∃ e, t.LookupRoute k = some e) ∧
        (CalculateDistance (t.PredictPosition now k).toVector3D myPos).le
          (Double.ofInt 250) = true := by
  unfold withinRange
  rw [Bool.and_eq_true, Bool.not_eq_true', ← Bool.not_eq_true, sentinel_test64,
    ← Option.ne_none_iff_exists']

theorem LookupNeighborStep64_eq (t : RoutingTable) (now : Int) (myPos : Vector3D)
    (acc : StdMap) (i : Ipv4Address × RoutingTableEntry) :
    LookupNeighborStep t now myPos acc i =
      if withinRange t now myPos i.1 = true then (StdMap.insert acc i.1 i.2).1 else acc := by
  unfold LookupNeighborStep withinRange
  cases h1 : (CalculateDistance (t.PredictPosition now i.1).toVector3D
      (Vector.mk (-1) (-1) (-1)).toVector3D).eq (Double.ofInt 0) <;>
    cases h2 : (CalculateDistance (t.PredictPosition now i.1).toVector3D myPos).le
      (Double.ofInt 250) <;> simp [h1, h2]

theorem sorted_foldl_LookupNeighborStep64 (t : RoutingTable) (now : Int) (myPos : Vector3D)
    (l : StdMap) (acc : StdMap) (hacc : (StdMap.keys acc).Pairwise (· < ·)) :
    (StdMap.keys (l.foldl (LookupNeighborStep t now myPos) acc)).Pairwise (· < ·) := by
  induction l generalizing acc with
  | nil => simpa using hacc
  | cons hd rest ih =>
    simp only [List.foldl_cons]
    apply ih
    rw [LookupNeighborStep64_eq]
    split
    · exact StdMap.sorted_insert acc hd.1 hd.2 hacc
    · exact hacc

theorem mem_keys_foldl_LookupNeighborStep64 (t : RoutingTable) (now : Int)
    (myPos : Vector3D) (l : StdMap) (acc : StdMap) (a : Ipv4Address) :
    a ∈ StdMap.keys (l.foldl (LookupNeighborStep t now myPos) acc) ↔
      a ∈ StdMap.keys acc ∨ (a ∈ StdMap.keys l ∧ withinRange t now myPos a = true) := by
  induction l generalizing acc with
  | nil => simp [StdMap.keys]
  | cons hd rest ih =>
    simp only [List.foldl_cons]
    rw [ih, LookupNeighborStep64_eq]
    have hk : StdMap.keys (hd :: rest) = hd.1 :: StdMap.keys rest := rfl
    rw [hk, List.mem_cons]
    by_cases h : withinRange t now myPos hd.1 = true
    · rw [if_pos h, StdMap.mem_keys_insert]
      constructor
      · rintro ((rfl | h1) | h2)
        · exact Or.inr ⟨Or.inl rfl, h⟩
        · exact Or.inl h1
        · exact Or.inr ⟨Or.inr h2.1, h2.2⟩
      · rintro (h1 | ⟨rfl | h2, h3⟩)
        · exact Or.inl (Or.inr h1)
        · exact Or.inl (Or.inl rfl)
        · exact Or.inr ⟨h2, h3⟩
    · rw [if_neg h]
      constructor
      · rintro (h1 | h2)
        · exact Or.inl h1
        · exact Or.inr ⟨Or.inr h2.1, h2.2⟩
      · rintro (h1 | ⟨rfl | h2, h3⟩)
        · exact Or.inl h1
        · exact absurd h3 h
        · exact Or.inr ⟨h2, h3⟩

theorem find_foldl_LookupNeighborStep64 (t : RoutingTable) (now : Int) (myPos : Vector3D)
    (l : StdMap) (acc : StdMap) (hacc : (StdMap.keys acc).Pairwise (· < ·))
    (a : Ipv4Address) :
    StdMap.find (l.foldl (LookupNeighborStep t now myPos) acc) a =
      match StdMap.find acc a with
      | some e => some e
      | none => if withinRange t now myPos a = true then StdMap.find l a else none := by
  induction l generalizing acc with
  | nil =>
    simp only [List.foldl_nil, StdMap.find, ite_self]
    cases StdMap.find acc a <;> rfl
  | cons hd rest ih =>
    obtain ⟨k, v⟩ := hd
    simp only [List.foldl_cons]
    rw [LookupNeighborStep64_eq]
    by_cases h : withinRange t now myPos k = true
    · rw [if_pos h, ih _ (StdMap.sorted_insert acc k v hacc), StdMap.find_insert acc k v hacc]
      cases hf : StdMap.find acc a with
      | some e => rfl
      | none =>
        by_cases hak : a = k
        · subst hak
          simp [StdMap.find, h]
        · simp [StdMap.find, hak]
    · rw [if_neg h, ih _ hacc]
      cases hf : StdMap.find acc a with
      | some e => rfl
      | none =>
        by_cases hak : a = k
        · subst hak
          simp [StdMap.find, h]
        · simp [StdMap.find, hak]

theorem sorted_LookupNeighbor64 (t : RoutingTable) (now : Int) (myPos : Vector3D) :
    (StdMap.keys (LookupNeighbor t now [] myPos)).Pairwise (· < ·) :=
  sorted_foldl_LookupNeighborStep64 t now myPos _ [] (by simp [StdMap.keys])

/-- The keys of the neighbor map: the addresses with an entry whose predicted
position is at a computed distance of at most 250 from `myPos`. -/
theorem mem_keys_LookupNeighbor64 (t : RoutingTable) (now : Int) (myPos : Vector3D)
    (a : Ipv4Address) :
    a ∈ StdMap.keys (LookupNeighbor t now [] myPos) ↔
      (∃ e, t.LookupRoute a = some e) ∧
        (CalculateDistance (t.PredictPosition now a).toVector3D myPos).le
          (Double.ofInt 250) = true := by
  have hmem : a ∈ StdMap.keys t.m_ipv4AddressEntry ↔ ∃ e, t.LookupRoute a = some e := by
    rw [RoutingTable.LookupRoute_eq_find]
    exact StdMap.mem_keys_iff_find _ a
  have hnil : a ∉ StdMap.keys [] := by simp [StdMap.keys]
  unfold LookupNeighbor
  rw [mem_keys_foldl_LookupNeighborStep64, hmem, withinRange_iff]
  constructor
  · rintro (h0 | ⟨-, h2⟩)
    · exact absurd h0 hnil
    · exact h2
  · intro h
    exact Or.inr ⟨h.1, h⟩

theorem find_LookupNeighbor64 (t : RoutingTable) (now : Int) (myPos : Vector3D)
    (a : Ipv4Address) (e : RoutingTableEntry) :
    StdMap.find (LookupNeighbor t now [] myPos) a = some e ↔
      t.LookupRoute a = some e ∧
        (CalculateDistance (t.PredictPosition now a).toVector3D myPos).le
          (Double.ofInt 250) = true := by
  have hnil : StdMap.find [] a = none := rfl
  unfold LookupNeighbor
  rw [find_foldl_LookupNeighborStep64 t now myPos _ [] (by simp [StdMap.keys]), hnil,
    ← RoutingTable.LookupRoute_eq_find]
  simp only []
  by_cases hw : withinRange t now myPos a = true
  · rw [if_pos hw]
    exact ⟨fun h => ⟨h, ((withinRange_iff t now myPos a).mp hw).2⟩, fun h => h.1⟩
  · rw [if_neg hw]
    constructor
    · intro h
      exact absurd h (by simp)
    · rintro ⟨h1, h2⟩
      exact absurd ((withinRange_iff t now myPos a).mpr ⟨⟨e, h1⟩, h2⟩) hw

end Binary64
/-! ## The selection loop in double precision -/

namespace Binary64

/-- The selection loop compares distances between predicted positions only: it
keeps the key and the exact square that the loop over the squares keeps. -/
theorem foldl_BestNeighborStep64 (t : RoutingTable) (now : Int) (pd : Vector)
    (hpd : pd.isPredicted) (l : StdMap) (b : Ipv4Address × Int) (hb0 : 0 ≤ b.2)
    (hb1 : b.2 < 2 ^ 35) :
    l.foldl (BestNeighborStep t now pd.toVector3D) (b.1, Double.sqrt (Double.ofInt b.2)) =
      ((l.foldl (RoutingTable.BestNeighborStep t now pd) b).1,
        Double.sqrt (Double.ofInt (l.foldl (RoutingTable.BestNeighborStep t now pd) b).2)) := by
  induction l generalizing b with
  | nil => rfl
  | cons hd rest ih =>
    simp only [List.foldl_cons]
    obtain ⟨h1, h2⟩ := CalculateDistanceSq_isPredicted (t.PredictPosition now hd.1) pd
      (RoutingTable.isPredicted_PredictPosition t now hd.1) hpd
    have hstep : BestNeighborStep t now pd.toVector3D (b.1, Double.sqrt (Double.ofInt b.2)) hd =
        ((RoutingTable.BestNeighborStep t now pd b hd).1,
          Double.sqrt (Double.ofInt (RoutingTable.BestNeighborStep t now pd b hd).2)) := by
      unfold BestNeighborStep RoutingTable.BestNeighborStep
      rw [CalculateDistance_lattice _ _ (RoutingTable.isPredicted_PredictPosition t now hd.1) hpd]
      by_cases hlt : CalculateDistanceSq (t.PredictPosition now hd.1) pd < b.2
      · rw [if_pos ((Double.sqrt_ofInt_lt_iff _ _ h1 h2 hb0 hb1).mpr hlt), if_pos hlt]
      · rw [if_neg (fun h => hlt ((Double.sqrt_ofInt_lt_iff _ _ h1 h2 hb0 hb1).mp h)),
          if_neg hlt]
    rw [hstep]
    apply ih
    · unfold RoutingTable.BestNeighborStep
      split
      · exact h1
      · exact hb0
    · unfold RoutingTable.BestNeighborStep
      split
      · exact h2
      · exact hb1

/-- `BestNeighbor` in terms of the loop over the exact squares: only the last
comparison, with the distance of `myPos`, is one between rounded values that do not
come from two predicted positions. -/
theorem BestNeighbor64_eq (t : RoutingTable) (now : Int) (dst : Ipv4Address)
    (myPos : Vector3D) :
    BestNeighbor t now dst myPos =
      if t.LookupRoute dst = none then GetZero
      else
        match LookupNeighbor t now [] myPos with
        | [] => GetZero
        | first :: rest =>
          if (Double.sqrt (Double.ofInt ((first :: rest).foldl
                (RoutingTable.BestNeighborStep t now (t.PredictPosition now dst))
                (first.1, CalculateDistanceSq (t.PredictPosition now first.1)
                  (t.PredictPosition now dst))).2)).lt
              (CalculateDistance (t.PredictPosition now dst).toVector3D myPos) = true
          then ((first :: rest).foldl
                (RoutingTable.BestNeighborStep t now (t.PredictPosition now dst))
                (first.1, CalculateDistanceSq (t.PredictPosition now first.1)
                  (t.PredictPosition now dst))).1
          else GetZero := by
  unfold BestNeighbor
  by_cases hs : t.LookupRoute dst = none
  · rw [if_pos ((sentinel_test64 t now dst).mpr hs), if_pos hs]
  · rw [if_neg (fun h => hs ((sentinel_test64 t now dst).mp h)), if_neg hs]
    simp only []
    cases hnt : LookupNeighbor t now [] myPos with
    | nil => rfl
    | cons first rest =>
      simp only []
      have hpd := RoutingTable.isPredicted_PredictPosition t now dst
      obtain ⟨h1, h2⟩ := CalculateDistanceSq_isPredicted (t.PredictPosition now first.1)
        (t.PredictPosition now dst) (RoutingTable.isPredicted_PredictPosition t now first.1) hpd
      rw [CalculateDistance_lattice _ _ (RoutingTable.isPredicted_PredictPosition t now first.1)
        hpd]
      rw [foldl_BestNeighborStep64 t now (t.PredictPosition now dst) hpd (first :: rest)
        (first.1, CalculateDistanceSq (t.PredictPosition now first.1)
          (t.PredictPosition now dst)) h1 h2]

end Binary64
namespace Binary64

/-- The two outcomes of `BestNeighbor`: the zero address, for one of three reasons,
or the first neighbor in key order that attains the least predicted distance to the
destination, whose computed distance then is less than the computed distance of
`myPos`. -/
theorem BestNeighbor64_cases (t : RoutingTable) (now : Int) (dst : Ipv4Address)
    (myPos : Vector3D) :
    (BestNeighbor t now dst myPos = GetZero ∧
      (t.LookupRoute dst = none ∨ LookupNeighbor t now [] myPos = [] ∨
        ∀ m ∈ StdMap.keys (LookupNeighbor t now [] myPos),
          (CalculateDistance (t.PredictPosition now m).toVector3D
              (t.PredictPosition now dst).toVector3D).lt
            (CalculateDistance (t.PredictPosition now dst).toVector3D myPos) = false)) ∨
    (t.LookupRoute dst ≠ none ∧
      BestNeighbor t now dst myPos ∈ StdMap.keys (LookupNeighbor t now [] myPos) ∧
      (CalculateDistance (t.PredictPosition now (BestNeighbor t now dst myPos)).toVector3D
          (t.PredictPosition now dst).toVector3D).lt
        (CalculateDistance (t.PredictPosition now dst).toVector3D myPos) = true ∧
      (∀ m ∈ StdMap.keys (LookupNeighbor t now [] myPos),
        CalculateDistanceSq (t.PredictPosition now (BestNeighbor t now dst myPos))
            (t.PredictPosition now dst) ≤
          CalculateDistanceSq (t.PredictPosition now m) (t.PredictPosition now dst)) ∧
      (∀ m ∈ StdMap.keys (LookupNeighbor t now [] myPos),
        CalculateDistanceSq (t.PredictPosition now m) (t.PredictPosition now dst) =
            CalculateDistanceSq (t.PredictPosition now (BestNeighbor t now dst myPos))
              (t.PredictPosition now dst) →
          BestNeighbor t now dst myPos ≤ m)) := by
  have hpd := RoutingTable.isPredicted_PredictPosition t now dst
  rw [BestNeighbor64_eq]
  by_cases hs : t.LookupRoute dst = none
  · left
    rw [if_pos hs]
    exact ⟨rfl, Or.inl hs⟩
  · rw [if_neg hs]
    have hsorted := sorted_LookupNeighbor64 t now myPos
    cases hnt : LookupNeighbor t now [] myPos with
    | nil =>
      left
      exact ⟨rfl, Or.inr (Or.inl rfl)⟩
    | cons first tl =>
      rw [hnt] at hsorted
      have hfirst : ∀ k ∈ StdMap.keys (first :: tl), first.1 ≤ k := by
        intro k hk
        have hk' : k ∈ first.1 :: StdMap.keys tl := hk
        have hp : (first.1 :: StdMap.keys tl).Pairwise (· < ·) := hsorted
        rw [List.pairwise_cons] at hp
        rcases List.mem_cons.mp hk' with rfl | hk'
        · exact le_refl _
        · exact le_of_lt (hp.1 k hk')
      obtain ⟨h1, h2, -, h4⟩ :=
        RoutingTable.foldl_BestNeighborStep t now (t.PredictPosition now dst) (first :: tl)
          first.1
      have h5 := RoutingTable.foldl_BestNeighborStep_first t now (t.PredictPosition now dst)
        (first :: tl) first.1 hsorted hfirst
      have hmem : ((first :: tl).foldl
          (RoutingTable.BestNeighborStep t now (t.PredictPosition now dst))
          (first.1, CalculateDistanceSq (t.PredictPosition now first.1)
            (t.PredictPosition now dst))).1 ∈ StdMap.keys (first :: tl) := by
        rcases h2 with h2 | ⟨h2, -⟩
        · rw [h2]
          exact List.mem_cons_self _ _
        · exact h2
      simp only []
      generalize hbest : (first :: tl).foldl
          (RoutingTable.BestNeighborStep t now (t.PredictPosition now dst))
          (first.1, CalculateDistanceSq (t.PredictPosition now first.1)
            (t.PredictPosition now dst)) = best at *
      have hb := CalculateDistanceSq_isPredicted (t.PredictPosition now best.1)
        (t.PredictPosition now dst) (RoutingTable.isPredicted_PredictPosition t now best.1) hpd
      by_cases hgt : (Double.sqrt (Double.ofInt best.2)).lt
          (CalculateDistance (t.PredictPosition now dst).toVector3D myPos) = true
      · right
        rw [if_pos hgt]
        refine ⟨hs, hmem, ?_, ?_, ?_⟩
        · rw [CalculateDistance_lattice _ _
            (RoutingTable.isPredicted_PredictPosition t now best.1) hpd, ← h1]
          exact hgt
        · intro m hm
          rw [← h1]
          exact h4 m hm
        · intro m hm heq
          rw [← h1] at heq
          exact h5 m hm heq
      · left
        rw [if_neg hgt]
        refine ⟨rfl, Or.inr (Or.inr ?_)⟩
        intro m hm
        rw [← Bool.not_eq_true]
        intro hlt
        apply hgt
        have hm' := CalculateDistanceSq_isPredicted (t.PredictPosition now m)
          (t.PredictPosition now dst) (RoutingTable.isPredicted_PredictPosition t now m) hpd
        rw [CalculateDistance_lattice _ _
          (RoutingTable.isPredicted_PredictPosition t now m) hpd] at hlt
        rw [← h1] at hb
        exact Double.le_lt_trans64 _ _ _
          ((Double.sqrt_ofInt_le_iff _ _ hb.1 hb.2 hm'.1 hm'.2).mpr (h4 m hm)) hlt

/-- `MatchRecovery` tests that the destination has an entry and that the neighbor
map is not empty. -/
theorem MatchRecovery64_iff (t : RoutingTable) (now : Int) (dst : Ipv4Address)
    (myPos : Vector3D) :
    MatchRecovery t now dst myPos = true ↔
      t.LookupRoute dst ≠ none ∧ LookupNeighbor t now [] myPos ≠ [] := by
  unfold MatchRecovery
  by_cases hs : t.LookupRoute dst = none
  · rw [if_pos ((sentinel_test64 t now dst).mpr hs)]
    simp [hs]
  · rw [if_neg (fun h => hs ((sentinel_test64 t now dst).mp h))]
    cases hnt : LookupNeighbor t now [] myPos <;> simp [hs]

end Binary64

/-! ## Data forwarding in double precision: the branches -/

namespace Double

theorem toUint16_ofInt (f : Int) (h0 : 0 ≤ f) (h1 : f ≤ 65535) :
    (ofInt f).toUint16 = some f := by
  have hne : (2 : Int) ^ 1074 ≠ 0 := pow_ne_zero _ (by decide)
  simp only [ofInt, toUint16]
  rw [Int.mul_tdiv_cancel _ hne, if_pos ⟨h0, h1⟩]

end Double

/-- A position with integer coordinates from 0 to 65535 is converted to itself. -/
theorem Vector3D.toUint16_toVector3D (v : Vector) (h : v.inUint16) :
    v.toVector3D.toUint16 = some v := by
  obtain ⟨⟨hx0, hx1⟩, ⟨hy0, hy1⟩, ⟨hz0, hz1⟩⟩ := h
  simp only [Vector3D.toUint16, Vector.toVector3D, Double.toUint16_ofInt _ hx0 hx1,
    Double.toUint16_ofInt _ hy0 hy1, Double.toUint16_ofInt _ hz0 hz1]

theorem Vector3D.toUint16_eq_some (v : Vector3D) (c : Vector) (h : v.toUint16 = some c) :
    v.x.toUint16 = some c.x ∧ v.y.toUint16 = some c.y ∧ v.z.toUint16 = some c.z := by
  unfold Vector3D.toUint16 at h
  cases hx : v.x.toUint16 <;> cases hy : v.y.toUint16 <;> cases hz : v.z.toUint16 <;>
    simp [hx, hy, hz] at h
  subst h
  exact ⟨rfl, rfl, rfl⟩

namespace Binary64

/-- The destination is a neighbor. -/
theorem Forwarding64_direct (t : RoutingTable) (now : Int) (myPos : Vector3D)
    (dataHeader : DataHeader) (header : Ipv4Header) (c : Vector)
    (hnb : header.m_destination ∈ StdMap.keys (LookupNeighbor t now [] myPos))
    (hvalid : dataHeader.dstPos.inUint16) (hcast : myPos.toUint16 = some c) :
    Forwarding t now myPos dataHeader header =
      some { ret := true,
             p := some
               { m_dstPosx := dataHeader.m_dstPosx, m_dstPosy := dataHeader.m_dstPosy,
                 m_dstPosz := dataHeader.m_dstPosy, m_updated := dataHeader.m_updated,
                 m_recPosx := 0, m_recPosy := 0, m_recPosz := 0, m_inRec := 0,
                 m_lastPosx := c.x, m_lastPosy := c.y, m_lastPosz := c.z },
             calls :=
               [CallbackCall.ucb
                 { m_dest := header.m_destination, m_source := header.m_source,
                   m_gateway := header.m_destination, m_outputDevice := 1 }
                 { m_dstPosx := dataHeader.m_dstPosx, m_dstPosy := dataHeader.m_dstPosy,
                   m_dstPosz := dataHeader.m_dstPosy, m_updated := dataHeader.m_updated,
                   m_recPosx := 0, m_recPosy := 0, m_recPosz := 0, m_inRec := 0,
                   m_lastPosx := c.x, m_lastPosy := c.y, m_lastPosz := c.z }
                 header] } := by
  obtain ⟨e, he⟩ := (StdMap.mem_keys_iff_find _ _).mp hnb
  obtain ⟨hx, hy, hz⟩ := Vector3D.toUint16_eq_some myPos c hcast
  obtain ⟨⟨hx0, hx1⟩, ⟨hy0, hy1⟩, -⟩ := hvalid
  simp only [DataHeader.dstPos] at hx0 hx1 hy0 hy1
  simp [Forwarding, he, hx, hy, hz, Double.toUint16_ofInt _ hx0 hx1,
    Double.toUint16_ofInt _ hy0 hy1]

/-- The destination is no neighbor and the packet stays in recovery mode. -/
theorem Forwarding64_continue (t : RoutingTable) (now : Int) (myPos : Vector3D)
    (dataHeader : DataHeader) (header : Ipv4Header) (c : Vector)
    (hnb : header.m_destination ∉ StdMap.keys (LookupNeighbor t now [] myPos))
    (hrec : dataHeader.m_inRec = 1)
    (hfar : (CalculateDistance myPos dataHeader.dstPos.toVector3D).lt
      (CalculateDistance dataHeader.recPos.toVector3D dataHeader.dstPos.toVector3D) = false)
    (hcast : myPos.toUint16 = some c) :
    Forwarding t now myPos dataHeader header =
      some { ret := true,
             p := some { dataHeader with
               m_lastPosx := c.x, m_lastPosy := c.y, m_lastPosz := c.z },
             calls := [] } := by
  have hf := StdMap.find_eq_none_of_not_mem _ _ hnb
  obtain ⟨hx, hy, hz⟩ := Vector3D.toUint16_eq_some myPos c hcast
  simp only [DataHeader.dstPos, DataHeader.recPos, Vector.toVector3D] at hfar
  simp [Forwarding, hf, hrec, hfar, hx, hy, hz]

/-- The destination is no neighbor, the greedy attempt is made and finds a next hop. -/
theorem Forwarding64_greedy (t : RoutingTable) (now : Int) (myPos : Vector3D)
    (dataHeader : DataHeader) (header : Ipv4Header) (c : Vector)
    (hnb : header.m_destination ∉ StdMap.keys (LookupNeighbor t now [] myPos))
    (hmode : greedyAttempt myPos dataHeader)
    (hbn : BestNeighbor t now header.m_destination myPos ≠ GetZero)
    (hvalid : dataHeader.dstPos.inUint16) (hcast : myPos.toUint16 = some c) :
    Forwarding t now myPos dataHeader header =
      some { ret := true,
             p := some
               { m_dstPosx := dataHeader.m_dstPosx, m_dstPosy := dataHeader.m_dstPosy,
                 m_dstPosz := dataHeader.m_dstPosz, m_updated := dataHeader.m_updated,
                 m_recPosx := 0, m_recPosy := 0, m_recPosz := 0, m_inRec := 0,
                 m_lastPosx := c.x, m_lastPosy := c.y, m_lastPosz := c.z },
             calls :=
               [CallbackCall.ucb
                 { m_dest := header.m_destination, m_source := header.m_source,
                   m_gateway := BestNeighbor t now header.m_destination myPos,
                   m_outputDevice := 1 }
                 { m_dstPosx := dataHeader.m_dstPosx, m_dstPosy := dataHeader.m_dstPosy,
                   m_dstPosz := dataHeader.m_dstPosz, m_updated := dataHeader.m_updated,
                   m_recPosx := 0, m_recPosy := 0, m_recPosz := 0, m_inRec := 0,
                   m_lastPosx := c.x, m_lastPosy := c.y, m_lastPosz := c.z }
                 header] } := by
  have hf := StdMap.find_eq_none_of_not_mem _ _ hnb
  obtain ⟨hx, hy, hz⟩ := Vector3D.toUint16_eq_some myPos c hcast
  obtain ⟨⟨hx0, hx1⟩, ⟨hy0, hy1⟩, ⟨hz0, hz1⟩⟩ := hvalid
  simp only [DataHeader.dstPos] at hx0 hx1 hy0 hy1 hz0 hz1
  simp only [greedyAttempt, DataHeader.dstPos, DataHeader.recPos, Vector.toVector3D] at hmode
  rcases hmode with h0 | ⟨h1, hlt⟩
  · simp [Forwarding, hf, h0, hbn, hx, hy, hz, Double.toUint16_ofInt _ hx0 hx1,
      Double.toUint16_ofInt _ hy0 hy1, Double.toUint16_ofInt _ hz0 hz1]
  · simp [Forwarding, hf, h1, hlt, hbn, hx, hy, hz, Double.toUint16_ofInt _ hx0 hx1,
      Double.toUint16_ofInt _ hy0 hy1, Double.toUint16_ofInt _ hz0 hz1]

/-- The destination is no neighbor, the greedy attempt is made and finds no next hop. -/
theorem Forwarding64_enter (t : RoutingTable) (now : Int) (myPos : Vector3D)
    (dataHeader : DataHeader) (header : Ipv4Header) (c : Vector)
    (hnb : header.m_destination ∉ StdMap.keys (LookupNeighbor t now [] myPos))
    (hmode : greedyAttempt myPos dataHeader)
    (hbn : BestNeighbor t now header.m_destination myPos = GetZero)
    (hvalid : dataHeader.dstPos.inUint16) (hcast : myPos.toUint16 = some c) :
    Forwarding t now myPos dataHeader header =
      some { ret := true,
             p := some { dataHeader with
               m_inRec := 1,
               m_recPosx := c.x, m_recPosy := c.y, m_recPosz := c.z,
               m_lastPosx := dataHeader.m_dstPosx, m_lastPosy := dataHeader.m_dstPosy,
               m_lastPosz := dataHeader.m_dstPosz },
             calls := [] } := by
  have hf := StdMap.find_eq_none_of_not_mem _ _ hnb
  obtain ⟨hx, hy, hz⟩ := Vector3D.toUint16_eq_some myPos c hcast
  obtain ⟨⟨hx0, hx1⟩, ⟨hy0, hy1⟩, ⟨hz0, hz1⟩⟩ := hvalid
  simp only [DataHeader.dstPos] at hx0 hx1 hy0 hy1 hz0 hz1
  simp only [greedyAttempt, DataHeader.dstPos, DataHeader.recPos, Vector.toVector3D] at hmode
  rcases hmode with h0 | ⟨h1, hlt⟩
  · simp [Forwarding, hf, h0, hbn, hx, hy, hz, Double.toUint16_ofInt _ hx0 hx1,
      Double.toUint16_ofInt _ hy0 hy1, Double.toUint16_ofInt _ hz0 hz1]
  · simp [Forwarding, hf, h1, hlt, hbn, hx, hy, hz, Double.toUint16_ofInt _ hx0 hx1,
      Double.toUint16_ofInt _ hy0 hy1, Double.toUint16_ofInt _ hz0 hz1]

/-- A packet in recovery mode at a node whose computed distance to the carried
destination position is less than that of the recovery-entry position is handled as
the same packet in greedy mode is. -/
theorem Forwarding64_leave (t : RoutingTable) (now : Int) (myPos : Vector3D)
    (dataHeader : DataHeader) (header : Ipv4Header) (hrec : dataHeader.m_inRec = 1)
    (hlt : (CalculateDistance myPos dataHeader.dstPos.toVector3D).lt
      (CalculateDistance dataHeader.recPos.toVector3D dataHeader.dstPos.toVector3D) = true) :
    Forwarding t now myPos dataHeader header =
      Forwarding t now myPos { dataHeader with m_inRec := 0 } header := by
  simp only [DataHeader.dstPos, DataHeader.recPos, Vector.toVector3D] at hlt
  cases hf : StdMap.find (LookupNeighbor t now [] myPos) header.m_destination with
  | some e => simp [Forwarding, hf]
  | none => simp [Forwarding, hf, hrec, hlt]

end Binary64
namespace Double

theorem round_false_cases (n s : Nat) :
    (∃ k : Nat, round false n s = finite (k : Int)) ∨ round false n s = inf false := by
  unfold round
  split
  · exact Or.inl ⟨0, rfl⟩
  · simp only []
    split
    · exact Or.inr rfl
    · exact Or.inl ⟨_, rfl⟩

/-- A square root is never less than zero. -/
theorem sqrt_not_lt_zero (x : Double) : (sqrt x).lt (finite 0) = false := by
  cases x with
  | finite n =>
    simp only [sqrt]
    split
    · rfl
    · rcases round_false_cases
        (2 * isqrt (n.toNat * 2 ^ 108) +
          (if isqrt (n.toNat * 2 ^ 108) * isqrt (n.toNat * 2 ^ 108) = n.toNat * 2 ^ 108
            then 0 else 1)) 592 with ⟨k, hk⟩ | hk
      · rw [hk]
        simp [lt]
      · rw [hk]
        rfl
  | inf x => cases x <;> rfl
  | nan => rfl

end Double

theorem CalculateDistance_not_lt_zero (a b : Vector3D) :
    (CalculateDistance a b).lt (Double.finite 0) = false := by
  unfold CalculateDistance
  exact Double.sqrt_not_lt_zero _

theorem CalculateDistance_self (v : Vector) (hv : v.isPredicted) :
    CalculateDistance v.toVector3D v.toVector3D = Double.finite 0 := by
  rw [CalculateDistance_lattice v v hv hv, (CalculateDistanceSq_eq_zero v v).mpr rfl]
  exact Double.sqrt_ofInt_zero

theorem Vector.isPredicted_of_inUint16 (v : Vector) (h : v.inUint16) : v.isPredicted := by
  obtain ⟨⟨hx0, hx1⟩, ⟨hy0, hy1⟩, ⟨hz0, hz1⟩⟩ := h
  exact ⟨⟨by omega, hx1⟩, ⟨by omega, hy1⟩, ⟨by omega, hz1⟩⟩

namespace Binary64

/-- The destination is no neighbor and the recovery flag is neither 1 nor 0: neither
block runs, no header is put back on the packet and no callback is invoked. -/
theorem Forwarding64_other (t : RoutingTable) (now : Int) (myPos : Vector3D)
    (dataHeader : DataHeader) (header : Ipv4Header)
    (hnb : header.m_destination ∉ StdMap.keys (LookupNeighbor t now [] myPos))
    (h1 : dataHeader.m_inRec ≠ 1) (h0 : dataHeader.m_inRec ≠ 0) :
    Forwarding t now myPos dataHeader header =
      some { ret := true, p := none, calls := [] } := by
  have hf := StdMap.find_eq_none_of_not_mem _ _ hnb
  simp [Forwarding, hf, h1, h0]

/-- When the conversion of the node position to `uint16_t` is undefined, so is the
result of every branch that writes a header. -/
theorem Forwarding64_undefined (t : RoutingTable) (now : Int) (myPos : Vector3D)
    (dataHeader : DataHeader) (header : Ipv4Header) (hcast : myPos.toUint16 = none)
    (hbranch : header.m_destination ∈ StdMap.keys (LookupNeighbor t now [] myPos) ∨
      dataHeader.m_inRec = 0 ∨ dataHeader.m_inRec = 1) :
    Forwarding t now myPos dataHeader header = none := by
  have hsome : myPos.x.toUint16 = none ∨ myPos.y.toUint16 = none ∨ myPos.z.toUint16 = none := by
    unfold Vector3D.toUint16 at hcast
    cases hx : myPos.x.toUint16 <;> cases hy : myPos.y.toUint16 <;>
      cases hz : myPos.z.toUint16 <;> simp [hx, hy, hz] at hcast ⊢
  cases hf : StdMap.find (LookupNeighbor t now [] myPos) header.m_destination with
  | some e =>
    rcases hsome with h | h | h <;> simp [Forwarding, hf, h]
  | none =>
    have hnb : header.m_destination ∉ StdMap.keys (LookupNeighbor t now [] myPos) := by
      intro hmem
      obtain ⟨e, he⟩ := (StdMap.mem_keys_iff_find _ _).mp hmem
      rw [hf] at he
      exact absurd he (by simp)
    rcases hbranch with hb | hb | hb
    · exact absurd hb hnb
    · by_cases hbn : BestNeighbor t now header.m_destination myPos = GetZero
      · rcases hsome with h | h | h <;> simp [Forwarding, hf, hb, hbn, h]
      · rcases hsome with h | h | h <;> simp [Forwarding, hf, hb, hbn, h]
    · cases hlt : (CalculateDistance myPos dataHeader.dstPos.toVector3D).lt
          (CalculateDistance dataHeader.recPos.toVector3D dataHeader.dstPos.toVector3D)
      · simp only [DataHeader.dstPos, DataHeader.recPos, Vector.toVector3D] at hlt
        rcases hsome with h | h | h <;> simp [Forwarding, hf, hb, hlt, h]
      · simp only [DataHeader.dstPos, DataHeader.recPos, Vector.toVector3D] at hlt
        by_cases hbn : BestNeighbor t now header.m_destination myPos = GetZero
        · rcases hsome with h | h | h <;> simp [Forwarding, hf, hb, hlt, hbn, h]
        · rcases hsome with h | h | h <;> simp [Forwarding, hf, hb, hlt, hbn, h]

end Binary64

/-! ## Node positions with integer coordinates

At a node position with integer coordinates from 0 to 65535 (from -1, even) no
comparison of the lookups is affected by rounding: the lookups in double precision
return what the lookups over exact squares return. -/

namespace Binary64

theorem CalculateDistance_le_250_iff (a v : Vector) (ha : a.isPredicted) (hv : v.isPredicted) :
    (CalculateDistance a.toVector3D v.toVector3D).le (Double.ofInt 250) = true ↔
      CalculateDistanceSq a v ≤ 250 * 250 := by
  rw [CalculateDistance_lattice a v ha hv, ← Double.sqrt_ofInt_62500]
  obtain ⟨h1, h2⟩ := CalculateDistanceSq_isPredicted a v ha hv
  exact Double.sqrt_ofInt_le_iff _ _ h1 h2 (by decide) (by decide)

theorem withinRange_lattice (t : RoutingTable) (now : Int) (v : Vector) (hv : v.isPredicted)
    (k : Ipv4Address) :
    withinRange t now v.toVector3D k = true ↔ t.withinRange now v k := by
  rw [withinRange_iff, RoutingTable.withinRange, RoutingTable.sentinel_test_iff,
    CalculateDistance_le_250_iff _ _ (RoutingTable.isPredicted_PredictPosition t now k) hv]
  constructor
  · rintro ⟨h1, h2⟩
    exact ⟨Option.ne_none_iff_exists'.mpr h1, h2⟩
  · rintro ⟨h1, h2⟩
    exact ⟨Option.ne_none_iff_exists'.mp h1, h2⟩

theorem LookupNeighbor_lattice (t : RoutingTable) (now : Int) (v : Vector)
    (hv : v.isPredicted) (acc : StdMap) :
    LookupNeighbor t now acc v.toVector3D = t.LookupNeighbor now acc v := by
  have hstep : LookupNeighborStep t now v.toVector3D = RoutingTable.LookupNeighborStep t now v := by
    funext acc i
    rw [LookupNeighborStep64_eq, RoutingTable.LookupNeighborStep_eq]
    by_cases h : t.withinRange now v i.1
    · rw [if_pos h, if_pos ((withinRange_lattice t now v hv i.1).mpr h)]
    · rw [if_neg h, if_neg (fun h' => h ((withinRange_lattice t now v hv i.1).mp h'))]
  simp only [LookupNeighbor, RoutingTable.LookupNeighbor, hstep]

theorem BestNeighbor_lattice (t : RoutingTable) (now : Int) (dst : Ipv4Address) (v : Vector)
    (hv : v.isPredicted) :
    BestNeighbor t now dst v.toVector3D = t.BestNeighbor now dst v := by
  rw [BestNeighbor64_eq, LookupNeighbor_lattice t now v hv]
  unfold RoutingTable.BestNeighbor
  have hpd := RoutingTable.isPredicted_PredictPosition t now dst
  by_cases hs : t.LookupRoute dst = none
  · rw [if_pos hs, if_pos ((RoutingTable.sentinel_test_iff t now dst).mpr hs)]
  · rw [if_neg hs, if_neg (fun h => hs ((RoutingTable.sentinel_test_iff t now dst).mp h))]
    simp only []
    cases hnt : t.LookupNeighbor now [] v with
    | nil => rfl
    | cons first rest =>
      simp only []
      obtain ⟨h1, -, -, -⟩ := RoutingTable.foldl_BestNeighborStep t now
        (t.PredictPosition now dst) (first :: rest) first.1
      generalize (first :: rest).foldl
          (RoutingTable.BestNeighborStep t now (t.PredictPosition now dst))
          (first.1, CalculateDistanceSq (t.PredictPosition now first.1)
            (t.PredictPosition now dst)) = best at *
      have hiff : (Double.sqrt (Double.ofInt best.2)).lt
          (CalculateDistance (t.PredictPosition now dst).toVector3D v.toVector3D) = true ↔
          CalculateDistanceSq (t.PredictPosition now dst) v > best.2 := by
        rw [h1, ← CalculateDistance_lattice _ _
          (RoutingTable.isPredicted_PredictPosition t now best.1) hpd]
        exact CalculateDistance_lt_iff _ _ _ _
          (RoutingTable.isPredicted_PredictPosition t now best.1) hpd hpd hv
      by_cases hgt : CalculateDistanceSq (t.PredictPosition now dst) v > best.2
      · rw [if_pos (hiff.mpr hgt), if_pos hgt]
      · rw [if_neg (fun h => hgt (hiff.mp h)), if_neg hgt]

end Binary64
/-! ## Greedy next-hop selection at a node position in double precision: the claims -/

namespace Binary64

/-- C1, as stated, fails: with `roundingTable` the node at `roundingPos` has peer 5
as its only neighbor, and the node is closer to the predicted position of peer 9
than peer 5 is, by exact arithmetic.  `BestNeighbor (9, myPos)` still returns
peer 5: the two distances round to doubles of which the one of the node is the
greater. -/
theorem C1_BestNeighbor_strict_improvement_counterexample :
    roundingPos.isFiniteDouble = true ∧
    BestNeighbor roundingTable 0 9 roundingPos = 5 ∧ (5 : Ipv4Address) ≠ GetZero ∧
    ExactDistanceSq roundingPos (roundingTable.PredictPosition 0 9).toVector3D <
      ExactDistanceSq (roundingTable.PredictPosition 0 5).toVector3D
        (roundingTable.PredictPosition 0 9).toVector3D := by
  decide!

/-- C1, amended.  Whenever `BestNeighbor (dst, myPos)` returns an address `n` other
than the zero address, the distance from the predicted position of `n` to the
predicted position of `dst`, as `CalculateDistance` computes it in double
arithmetic, is strictly less than the computed distance from `myPos` to the
predicted position of `dst`; for a node position with integer coordinates from 0 to
65535 the exact distances compare in the same way. -/
theorem C1_BestNeighbor_strict_improvement (t : RoutingTable) (now : Int)
    (dst : Ipv4Address) (myPos : Vector3D)
    (hret : BestNeighbor t now dst myPos ≠ GetZero) :
    (CalculateDistance (t.PredictPosition now (BestNeighbor t now dst myPos)).toVector3D
        (t.PredictPosition now dst).toVector3D).lt
      (CalculateDistance (t.PredictPosition now dst).toVector3D myPos) = true ∧
    ∀ v : Vector, v.inUint16 → myPos = v.toVector3D →
      CalculateDistanceSq (t.PredictPosition now (BestNeighbor t now dst myPos))
          (t.PredictPosition now dst) <
        CalculateDistanceSq v (t.PredictPosition now dst) := by
  rcases BestNeighbor64_cases t now dst myPos with ⟨h0, -⟩ | ⟨-, -, hlt, -, -⟩
  · exact absurd h0 hret
  · refine ⟨hlt, ?_⟩
    intro v hv hmy
    subst hmy
    rw [RoutingTable.CalculateDistanceSq_comm v]
    exact (CalculateDistance_lt_iff _ _ _ _
      (RoutingTable.isPredicted_PredictPosition t now _)
      (RoutingTable.isPredicted_PredictPosition t now dst)
      (RoutingTable.isPredicted_PredictPosition t now dst)
      (Vector.isPredicted_of_inUint16 v hv)).mp hlt

/-- Witness of the amended C1: from the origin, with `lineTable`, the next hop towards
peer 9 is peer 3, at distance 200 from the destination where the node itself is at
400. -/
theorem C1_BestNeighbor_strict_improvement_witness :
    BestNeighbor lineTable 0 9 (Vector.mk 0 0 0).toVector3D = 3 ∧
    (CalculateDistance
        (lineTable.PredictPosition 0
          (BestNeighbor lineTable 0 9 (Vector.mk 0 0 0).toVector3D)).toVector3D
        (lineTable.PredictPosition 0 9).toVector3D).lt
      (CalculateDistance (lineTable.PredictPosition 0 9).toVector3D
        (Vector.mk 0 0 0).toVector3D) = true :=
  ⟨by decide!,
    (C1_BestNeighbor_strict_improvement lineTable 0 9 (Vector.mk 0 0 0).toVector3D
      (by decide!)).1⟩

/-- C2, as stated, fails: with `edgeTable` the node at `nearOrigin`, (2^-30, 0, 0), is
farther than 250 from the predicted position (0,250,0) of peer 5, by exact
arithmetic.  The computed distance is 250, so peer 5 is a neighbor, and
`BestNeighbor (9, myPos)` returns it. -/
theorem C2_BestNeighbor_greedy_minimum_counterexample :
    nearOrigin.isFiniteDouble = true ∧
    BestNeighbor edgeTable 0 9 nearOrigin = 5 ∧ (5 : Ipv4Address) ≠ GetZero ∧
    250 * 250 * 2 ^ 2148 <
      ExactDistanceSq (edgeTable.PredictPosition 0 5).toVector3D nearOrigin ∧
    CalculateDistance (edgeTable.PredictPosition 0 5).toVector3D nearOrigin =
      Double.ofInt 250 := by
  decide!

/-- C2, amended.  Whenever `BestNeighbor (dst, myPos)` returns an address `n` other
than the zero address, `n` is a key of the neighbor map that `LookupNeighbor`
computes for `myPos` (the distance from its predicted position to `myPos`, as
`CalculateDistance` computes it in double arithmetic, is at most 250; for a node
position with integer coordinates from 0 to 65535 so is the exact distance), and no
neighbor is predicted closer to the predicted position of `dst` than `n` is. -/
theorem C2_BestNeighbor_greedy_minimum (t : RoutingTable) (now : Int)
    (dst : Ipv4Address) (myPos : Vector3D)
    (hret : BestNeighbor t now dst myPos ≠ GetZero) :
    BestNeighbor t now dst myPos ∈ StdMap.keys (LookupNeighbor t now [] myPos) ∧
    (CalculateDistance (t.PredictPosition now (BestNeighbor t now dst myPos)).toVector3D
        myPos).le (Double.ofInt 250) = true ∧
    (∀ v : Vector, v.inUint16 → myPos = v.toVector3D →
      CalculateDistanceSq (t.PredictPosition now (BestNeighbor t now dst myPos)) v ≤
        250 * 250) ∧
    ∀ m ∈ StdMap.keys (LookupNeighbor t now [] myPos),
      CalculateDistanceSq (t.PredictPosition now (BestNeighbor t now dst myPos))
          (t.PredictPosition now dst) ≤
        CalculateDistanceSq (t.PredictPosition now m) (t.PredictPosition now dst) := by
  rcases BestNeighbor64_cases t now dst myPos with ⟨h0, -⟩ | ⟨-, hmem, -, hmin, -⟩
  · exact absurd h0 hret
  · have hle := ((mem_keys_LookupNeighbor64 t now myPos _).mp hmem).2
    refine ⟨hmem, hle, ?_, hmin⟩
    intro v hv hmy
    subst hmy
    exact (CalculateDistance_le_250_iff _ _
      (RoutingTable.isPredicted_PredictPosition t now _)
      (Vector.isPredicted_of_inUint16 v hv)).mp hle

/-- Witness of the amended C2: in `lineTable`, seen from the origin, the neighbors are
the peers 2 and 3, and the next hop 3 is the one closest to peer 9. -/
theorem C2_BestNeighbor_greedy_minimum_witness :
    StdMap.keys (LookupNeighbor lineTable 0 [] (Vector.mk 0 0 0).toVector3D) = [2, 3] ∧
    BestNeighbor lineTable 0 9 (Vector.mk 0 0 0).toVector3D = 3 ∧
    ∀ m ∈ StdMap.keys (LookupNeighbor lineTable 0 [] (Vector.mk 0 0 0).toVector3D),
      CalculateDistanceSq
          (lineTable.PredictPosition 0
            (BestNeighbor lineTable 0 9 (Vector.mk 0 0 0).toVector3D))
          (lineTable.PredictPosition 0 9) ≤
        CalculateDistanceSq (lineTable.PredictPosition 0 m) (lineTable.PredictPosition 0 9) :=
  ⟨by decide!, by decide!,
    (C2_BestNeighbor_greedy_minimum lineTable 0 9 (Vector.mk 0 0 0).toVector3D
      (by decide!)).2.2.2⟩

/-- C3, as stated, fails: `roundingTable` has no entry keyed by the zero address,
peer 9 has an entry, the neighbor map of the node at `roundingPos` holds peer 5 only,
and by exact arithmetic peer 5 is not closer to the predicted position of peer 9
than the node is.  `BestNeighbor (9, myPos)` does not return the zero address: it
returns peer 5. -/
theorem C3_BestNeighbor_zero_iff_counterexample :
    roundingPos.isFiniteDouble = true ∧
    roundingTable.LookupRoute GetZero = none ∧
    StdMap.keys (LookupNeighbor roundingTable 0 [] roundingPos) = [5] ∧
    ¬ ExactDistanceSq (roundingTable.PredictPosition 0 5).toVector3D
        (roundingTable.PredictPosition 0 9).toVector3D <
      ExactDistanceSq roundingPos (roundingTable.PredictPosition 0 9).toVector3D ∧
    BestNeighbor roundingTable 0 9 roundingPos = 5 ∧ (5 : Ipv4Address) ≠ GetZero := by
  decide!

/-- C3, amended.  In a table without an entry keyed by the zero address,
`BestNeighbor (dst, myPos)` returns the zero address exactly when `dst` has no
entry, or the neighbor map of `myPos` is empty, or no neighbor has a distance to the
predicted position of `dst` that, as `CalculateDistance` computes it in double
arithmetic, is strictly less than the computed distance of `myPos`; in every other
case it returns a key of the neighbor map. -/
theorem C3_BestNeighbor_zero_iff (t : RoutingTable) (now : Int)
    (dst : Ipv4Address) (myPos : Vector3D) (hzero : t.LookupRoute GetZero = none) :
    (BestNeighbor t now dst myPos = GetZero ↔
      (t.LookupRoute dst = none ∨ LookupNeighbor t now [] myPos = [] ∨
        ∀ m ∈ StdMap.keys (LookupNeighbor t now [] myPos),
          (CalculateDistance (t.PredictPosition now m).toVector3D
              (t.PredictPosition now dst).toVector3D).lt
            (CalculateDistance (t.PredictPosition now dst).toVector3D myPos) = false)) ∧
    (BestNeighbor t now dst myPos ≠ GetZero →
      BestNeighbor t now dst myPos ∈ StdMap.keys (LookupNeighbor t now [] myPos)) := by
  rcases BestNeighbor64_cases t now dst myPos with
    ⟨h0, hwhy⟩ | ⟨hdst, hmem, hlt, -, -⟩
  · exact ⟨⟨fun _ => hwhy, fun _ => h0⟩, fun h => absurd h0 h⟩
  · have hne : BestNeighbor t now dst myPos ≠ GetZero := by
      intro h
      obtain ⟨⟨e, he⟩, -⟩ := (mem_keys_LookupNeighbor64 t now myPos _).mp hmem
      rw [h, hzero] at he
      exact absurd he (by simp)
    refine ⟨⟨fun h => absurd h hne, ?_⟩, fun _ => hmem⟩
    rintro (h | h | h)
    · exact absurd h hdst
    · rw [h] at hmem
      exact absurd hmem (by simp [StdMap.keys])
    · rw [h _ hmem] at hlt
      exact absurd hlt (by simp)

/-- Witness of the amended C3: `lineTable` has no entry keyed by the zero address;
from the origin the lookup for peer 9 succeeds, the one for the unknown peer 8
fails. -/
theorem C3_BestNeighbor_zero_iff_witness :
    lineTable.LookupRoute GetZero = none ∧
    BestNeighbor lineTable 0 9 (Vector.mk 0 0 0).toVector3D = 3 ∧
    BestNeighbor lineTable 0 8 (Vector.mk 0 0 0).toVector3D = GetZero ∧
    (BestNeighbor lineTable 0 9 (Vector.mk 0 0 0).toVector3D ≠ GetZero →
      BestNeighbor lineTable 0 9 (Vector.mk 0 0 0).toVector3D ∈
        StdMap.keys (LookupNeighbor lineTable 0 [] (Vector.mk 0 0 0).toVector3D)) :=
  ⟨by decide!, by decide!, by decide!,
    (C3_BestNeighbor_zero_iff lineTable 0 9 (Vector.mk 0 0 0).toVector3D (by decide!)).2⟩

/-- C5, as stated, fails: with `edgeTable` the node at `nearOrigin`, (2^-30, 0, 0), is
farther than 250 from the predicted position (0,250,0) of peer 5, by exact
arithmetic, yet `LookupNeighbor` includes peer 5: the computed distance is 250. -/
theorem C5_LookupNeighbor_correct_counterexample :
    nearOrigin.isFiniteDouble = true ∧
    250 * 250 * 2 ^ 2148 <
      ExactDistanceSq (edgeTable.PredictPosition 0 5).toVector3D nearOrigin ∧
    StdMap.keys (LookupNeighbor edgeTable 0 [] nearOrigin) = [5] ∧
    CalculateDistance (edgeTable.PredictPosition 0 5).toVector3D nearOrigin =
      Double.ofInt 250 := by
  decide!

/-- C5, amended.  Called with an empty output map, `LookupNeighbor` yields a map in
key order in which an address `a` is mapped to an entry `e` exactly when `e` is the
entry the table stores for `a` and the distance from the predicted position of `a`
to `myPos`, as `CalculateDistance` computes it in double arithmetic, is at most 250
(a computed distance of exactly 250 is included, a greater one excluded); for a node
position with integer coordinates from 0 to 65535 the computed distance is at most
250 exactly when the exact distance is. -/
theorem C5_LookupNeighbor_correct (t : RoutingTable) (now : Int) (myPos : Vector3D) :
    (StdMap.keys (LookupNeighbor t now [] myPos)).Pairwise (· < ·) ∧
    (∀ (a : Ipv4Address) (e : RoutingTableEntry),
      StdMap.find (LookupNeighbor t now [] myPos) a = some e ↔
        t.LookupRoute a = some e ∧
          (CalculateDistance (t.PredictPosition now a).toVector3D myPos).le
            (Double.ofInt 250) = true) ∧
    (∀ a : Ipv4Address,
      a ∈ StdMap.keys (LookupNeighbor t now [] myPos) ↔
        (∃ e, t.LookupRoute a = some e) ∧
          (CalculateDistance (t.PredictPosition now a).toVector3D myPos).le
            (Double.ofInt 250) = true) ∧
    ∀ v : Vector, v.inUint16 → myPos = v.toVector3D →
      ∀ a : Ipv4Address,
        (CalculateDistance (t.PredictPosition now a).toVector3D myPos).le
            (Double.ofInt 250) = true ↔
          CalculateDistanceSq (t.PredictPosition now a) v ≤ 250 * 250 := by
  refine ⟨sorted_LookupNeighbor64 t now myPos, find_LookupNeighbor64 t now myPos,
    mem_keys_LookupNeighbor64 t now myPos, ?_⟩
  intro v hv hmy a
  subst hmy
  exact CalculateDistance_le_250_iff _ _ (RoutingTable.isPredicted_PredictPosition t now a)
    (Vector.isPredicted_of_inUint16 v hv)

end Binary64

namespace Binary64

/-- Witness of the amended C5: in `lineTable`, seen from the origin, the neighbor map
holds the peers 2 and 3, in key order. -/
theorem C5_LookupNeighbor_correct_witness :
    StdMap.keys (LookupNeighbor lineTable 0 [] (Vector.mk 0 0 0).toVector3D) = [2, 3] ∧
    (StdMap.keys (LookupNeighbor lineTable 0 [] (Vector.mk 0 0 0).toVector3D)).Pairwise
      (· < ·) :=
  ⟨by decide!, (C5_LookupNeighbor_correct lineTable 0 (Vector.mk 0 0 0).toVector3D).1⟩

/-- C29, as stated, fails: with `lineTable`, at the origin, peer 9 has an entry and
there are neighbors, and `BestNeighbor (9, myPos)` returns the next hop 3, so the
third condition does not hold; `MatchRecovery (9, myPos)` returns true. -/
theorem C29_MatchRecovery_counterexample :
    lineTable.LookupRoute 9 ≠ none ∧
    StdMap.keys (LookupNeighbor lineTable 0 [] (Vector.mk 0 0 0).toVector3D) = [2, 3] ∧
    BestNeighbor lineTable 0 9 (Vector.mk 0 0 0).toVector3D = 3 ∧
    (3 : Ipv4Address) ≠ GetZero ∧
    MatchRecovery lineTable 0 9 (Vector.mk 0 0 0).toVector3D = true := by
  decide!

/-- C29, amended.  `MatchRecovery (dst, myPos)` returns true exactly when two
conditions hold: `dst` has a table entry, and the neighbor map of `myPos` is not
empty.  It does not consult `BestNeighbor`; where `BestNeighbor (dst, myPos)` has
returned the zero address, as it has at the one call of `MatchRecovery` in
`RouteOutput`, the result is true exactly when all three conditions hold. -/
theorem C29_MatchRecovery_conditions (t : RoutingTable) (now : Int) (dst : Ipv4Address)
    (myPos : Vector3D) :
    (MatchRecovery t now dst myPos = true ↔
      t.LookupRoute dst ≠ none ∧ LookupNeighbor t now [] myPos ≠ []) ∧
    (BestNeighbor t now dst myPos = GetZero →
      (MatchRecovery t now dst myPos = true ↔
        t.LookupRoute dst ≠ none ∧ LookupNeighbor t now [] myPos ≠ [] ∧
          BestNeighbor t now dst myPos = GetZero)) := by
  refine ⟨MatchRecovery64_iff t now dst myPos, ?_⟩
  intro hbn
  rw [MatchRecovery64_iff]
  exact ⟨fun h => ⟨h.1, h.2, hbn⟩, fun h => ⟨h.1, h.2.1⟩⟩

/-- Witness of the amended C29: with `lineTable`, at (300,0,0), peer 9 is known and
within reach, so `BestNeighbor` for the unknown peer 8 returns the zero address and
`MatchRecovery (8, myPos)` is false, while `MatchRecovery (9, myPos)` is true. -/
theorem C29_MatchRecovery_conditions_witness :
    BestNeighbor lineTable 0 8 (Vector.mk 300 0 0).toVector3D = GetZero ∧
    MatchRecovery lineTable 0 8 (Vector.mk 300 0 0).toVector3D = false ∧
    MatchRecovery lineTable 0 9 (Vector.mk 300 0 0).toVector3D = true :=
  ⟨by decide!, by decide!,
    (C29_MatchRecovery_conditions lineTable 0 9 (Vector.mk 300 0 0).toVector3D).1.mpr
      ⟨by decide!, by decide!⟩⟩

/-- C31, as stated, fails, in two ways.  In `zeroKeyTable` peer 9 is predicted at
(100,0,0), at distance 100 from the origin, and the origin differs from that
position, yet `BestNeighbor (9, origin)` returns the zero address: the entry keyed by
the zero address is predicted at the same point and comes first in key order.  In
`originTable`, which has no such entry, peer 9 is predicted at (0,0,0); the node at
`tinyPos`, (1e-200, 0, 0), differs from that position, but its computed distance to it
is 0, and `BestNeighbor (9, myPos)` returns the zero address. -/
theorem C31_destination_in_range_counterexample :
    (zeroKeyTable.LookupRoute 9 = some { m_x := 100, m_adress := 9 } ∧
      (CalculateDistance (zeroKeyTable.PredictPosition 0 9).toVector3D
        (Vector.mk 0 0 0).toVector3D).le (Double.ofInt 250) = true ∧
      (Vector.mk 0 0 0).toVector3D ≠ (zeroKeyTable.PredictPosition 0 9).toVector3D ∧
      BestNeighbor zeroKeyTable 0 9 (Vector.mk 0 0 0).toVector3D = GetZero) ∧
    (tinyPos.isFiniteDouble = true ∧
      originTable.LookupRoute GetZero = none ∧
      originTable.LookupRoute 9 = some { m_adress := 9 } ∧
      (CalculateDistance (originTable.PredictPosition 0 9).toVector3D tinyPos).le
        (Double.ofInt 250) = true ∧
      tinyPos ≠ (originTable.PredictPosition 0 9).toVector3D ∧
      CalculateDistance (originTable.PredictPosition 0 9).toVector3D tinyPos =
        Double.finite 0 ∧
      BestNeighbor originTable 0 9 tinyPos = GetZero) := by
  decide!

/-- C31, amended.  In a table without an entry keyed by the zero address: if `dst`
has an entry whose predicted position is at a computed distance of at most 250 from
`myPos`, then `BestNeighbor (dst, myPos)` returns a next hop (an address other than
the zero address) exactly when the distance between `myPos` and the predicted
position of `dst`, as `CalculateDistance` computes it in double arithmetic, is greater
than zero; for a node position with integer coordinates from 0 to 65535 that is
exactly when `myPos` differs from the predicted position of `dst`.  The address
returned then is a neighbor predicted at the very position of `dst`, the one with the
smallest address among these, and so it is `dst` itself exactly when no neighbor with
a smaller address is predicted at that point. -/
theorem C31_destination_in_range (t : RoutingTable) (now : Int) (dst : Ipv4Address)
    (myPos : Vector3D) (hzero : t.LookupRoute GetZero = none)
    (hdst : t.LookupRoute dst ≠ none)
    (hrange : (CalculateDistance (t.PredictPosition now dst).toVector3D myPos).le
      (Double.ofInt 250) = true) :
    (BestNeighbor t now dst myPos ≠ GetZero ↔
      (Double.finite 0).lt
        (CalculateDistance (t.PredictPosition now dst).toVector3D myPos) = true) ∧
    (∀ v : Vector, v.inUint16 → myPos = v.toVector3D →
      (BestNeighbor t now dst myPos ≠ GetZero ↔ v ≠ t.PredictPosition now dst)) ∧
    (BestNeighbor t now dst myPos ≠ GetZero →
      BestNeighbor t now dst myPos ∈ StdMap.keys (LookupNeighbor t now [] myPos) ∧
      t.PredictPosition now (BestNeighbor t now dst myPos) = t.PredictPosition now dst ∧
      (∀ m ∈ StdMap.keys (LookupNeighbor t now [] myPos),
        t.PredictPosition now m = t.PredictPosition now dst →
          BestNeighbor t now dst myPos ≤ m) ∧
      (BestNeighbor t now dst myPos = dst ↔
        ∀ m ∈ StdMap.keys (LookupNeighbor t now [] myPos),
          t.PredictPosition now m = t.PredictPosition now dst → dst ≤ m)) := by
  have hpd := RoutingTable.isPredicted_PredictPosition t now dst
  have hmemdst : dst ∈ StdMap.keys (LookupNeighbor t now [] myPos) :=
    (mem_keys_LookupNeighbor64 t now myPos dst).mpr
      ⟨Option.ne_none_iff_exists'.mp hdst, hrange⟩
  have hself : CalculateDistanceSq (t.PredictPosition now dst) (t.PredictPosition now dst)
      = 0 := (CalculateDistanceSq_eq_zero _ _).mpr rfl
  have hself64 := CalculateDistance_self (t.PredictPosition now dst) hpd
  have hmain : (BestNeighbor t now dst myPos ≠ GetZero ↔
      (Double.finite 0).lt
        (CalculateDistance (t.PredictPosition now dst).toVector3D myPos) = true) ∧
      (BestNeighbor t now dst myPos ≠ GetZero →
        BestNeighbor t now dst myPos ∈ StdMap.keys (LookupNeighbor t now [] myPos) ∧
        t.PredictPosition now (BestNeighbor t now dst myPos) = t.PredictPosition now dst ∧
        (∀ m ∈ StdMap.keys (LookupNeighbor t now [] myPos),
          t.PredictPosition now m = t.PredictPosition now dst →
            BestNeighbor t now dst myPos ≤ m) ∧
        (BestNeighbor t now dst myPos = dst ↔
          ∀ m ∈ StdMap.keys (LookupNeighbor t now [] myPos),
            t.PredictPosition now m = t.PredictPosition now dst → dst ≤ m)) := by
    rcases BestNeighbor64_cases t now dst myPos with
      ⟨h0, hwhy⟩ | ⟨-, hmem, hlt, hmin, hfirst⟩
    · have hnot : (Double.finite 0).lt
          (CalculateDistance (t.PredictPosition now dst).toVector3D myPos) = false := by
        rcases hwhy with h | h | h
        · exact absurd h hdst
        · rw [h] at hmemdst
          exact absurd hmemdst (by simp [StdMap.keys])
        · have := h dst hmemdst
          rw [hself64] at this
          exact this
      refine ⟨⟨fun h => absurd h0 h, fun h => ?_⟩, fun h => absurd h0 h⟩
      rw [hnot] at h
      exact absurd h (by simp)
    · have hd0 : CalculateDistanceSq (t.PredictPosition now (BestNeighbor t now dst myPos))
          (t.PredictPosition now dst) = 0 := by
        have hle := hmin dst hmemdst
        rw [hself] at hle
        exact le_antisymm hle (CalculateDistanceSq_nonneg _ _)
      have hP := (CalculateDistanceSq_eq_zero _ _).mp hd0
      have hne : BestNeighbor t now dst myPos ≠ GetZero := by
        intro h
        obtain ⟨⟨e, he⟩, -⟩ := (mem_keys_LookupNeighbor64 t now myPos _).mp hmem
        rw [h, hzero] at he
        exact absurd he (by simp)
      have hpos : (Double.finite 0).lt
          (CalculateDistance (t.PredictPosition now dst).toVector3D myPos) = true := by
        rw [hP, hself64] at hlt
        exact hlt
      have hsmall : ∀ m ∈ StdMap.keys (LookupNeighbor t now [] myPos),
          t.PredictPosition now m = t.PredictPosition now dst →
            BestNeighbor t now dst myPos ≤ m := by
        intro m hm hPm
        apply hfirst m hm
        rw [hd0, hPm, hself]
      refine ⟨⟨fun _ => hpos, fun _ => hne⟩, fun _ => ⟨hmem, hP, hsmall, ?_⟩⟩
      constructor
      · intro h m hm hPm
        rw [← h]
        exact hsmall m hm hPm
      · intro h
        exact le_antisymm (hsmall dst hmemdst rfl) (h _ hmem hP)
  refine ⟨hmain.1, ?_, hmain.2⟩
  intro v hv hmy
  rw [hmain.1]
  subst hmy
  have hvp := Vector.isPredicted_of_inUint16 v hv
  rw [← hself64, CalculateDistance_lt_iff _ _ _ _ hpd hpd hpd hvp, hself]
  constructor
  · intro h hvd
    rw [hvd, hself] at h
    exact absurd h (lt_irrefl _)
  · intro h
    rcases lt_or_eq_of_le (CalculateDistanceSq_nonneg (t.PredictPosition now dst) v) with h1 | h1
    · exact h1
    · exact absurd ((CalculateDistanceSq_eq_zero _ _).mp h1.symm).symm h

/-- Witness of the amended C31: `lineTable` has no entry keyed by the zero address
and peer 3 is predicted at (200,0,0), within 250 of the origin; `BestNeighbor`
returns peer 3 itself. -/
theorem C31_destination_in_range_witness :
    lineTable.LookupRoute GetZero = none ∧ lineTable.LookupRoute 3 ≠ none ∧
    (CalculateDistance (lineTable.PredictPosition 0 3).toVector3D
      (Vector.mk 0 0 0).toVector3D).le (Double.ofInt 250) = true ∧
    BestNeighbor lineTable 0 3 (Vector.mk 0 0 0).toVector3D = 3 ∧
    (BestNeighbor lineTable 0 3 (Vector.mk 0 0 0).toVector3D ≠ GetZero ↔
      (Double.finite 0).lt
        (CalculateDistance (lineTable.PredictPosition 0 3).toVector3D
          (Vector.mk 0 0 0).toVector3D) = true) :=
  ⟨by decide!, by decide!, by decide!, by decide!,
    (C31_destination_in_range lineTable 0 3 (Vector.mk 0 0 0).toVector3D (by decide!)
      (by decide!) (by decide!)).1⟩

end Binary64

namespace Binary64

/-- C35, as stated, fails.  After `SetIpv4` and one beacon of peer 9 at (0,300,0), at
the node position (200,0,0) the neighbor map holds `127.0.0.1` (its entry is
predicted at the origin, 200 away), and `BestNeighbor (9, myPos)` returns
`127.0.0.1`, which is predicted closer to peer 9 than the node is.  At the node
position `nearEdge`, (2^-30, 250, 0), the neighbor map holds `127.0.0.1` as well,
although the node is farther than 250 from the origin by exact arithmetic: the
computed distance is 250. -/
theorem C35_loopback_entry_counterexample :
    beaconFar.m_myadress ≠ GetLoopback ∧
    (SetIpv4 {}).m_ipv4AddressEntry = [(GetLoopback, SetIpv4_rt)] ∧
    GetLoopback ∈ StdMap.keys
      (LookupNeighbor (recvAll GetRightVelocity (SetIpv4 {}) [beaconFar]) 0 []
        (Vector.mk 200 0 0).toVector3D) ∧
    BestNeighbor (recvAll GetRightVelocity (SetIpv4 {}) [beaconFar]) 0 9
      (Vector.mk 200 0 0).toVector3D = GetLoopback ∧
    nearEdge.isFiniteDouble = true ∧
    250 * 250 * 2 ^ 2148 < ExactDistanceSq (Vector.mk 0 0 0).toVector3D nearEdge ∧
    GetLoopback ∈ StdMap.keys
      (LookupNeighbor (recvAll GetRightVelocity (SetIpv4 {}) [beaconFar]) 0 [] nearEdge) := by
  decide!

/-- C35, amended.  Starting from the table that `SetIpv4` initialises and after any
sequence of beacons from non-loopback senders, the entry of `127.0.0.1` is still the
one `SetIpv4` stored and is predicted at (0,0,0) at every clock value; it is treated
as every other entry: `LookupNeighbor` includes `127.0.0.1` in the neighbor map
exactly when the distance from (0,0,0) to `myPos`, as `CalculateDistance` computes it
in double arithmetic, is at most 250 (for a node position with integer coordinates
from 0 to 65535: exactly when the exact distance is), and for every `myPos` for which
it is not, `BestNeighbor` does not return `127.0.0.1`, for every `dst` and `now`. -/
theorem C35_loopback_entry (getRightVelocity : Nat → Nat → Nat → Nat → Vector)
    (hdrs : List MyprotocolHeader)
    (_hsenders : ∀ hdr ∈ hdrs, hdr.m_myadress ≠ GetLoopback)
    (now : Int) (dst : Ipv4Address) (myPos : Vector3D) :
    (recvAll getRightVelocity (SetIpv4 {}) hdrs).LookupRoute GetLoopback =
      some SetIpv4_rt ∧
    (recvAll getRightVelocity (SetIpv4 {}) hdrs).PredictPosition now GetLoopback =
      Vector.mk 0 0 0 ∧
    (GetLoopback ∈ StdMap.keys
        (LookupNeighbor (recvAll getRightVelocity (SetIpv4 {}) hdrs) now [] myPos) ↔
      (CalculateDistance (Vector.mk 0 0 0).toVector3D myPos).le (Double.ofInt 250) = true) ∧
    (∀ v : Vector, v.inUint16 → myPos = v.toVector3D →
      (GetLoopback ∈ StdMap.keys
          (LookupNeighbor (recvAll getRightVelocity (SetIpv4 {}) hdrs) now [] myPos) ↔
        CalculateDistanceSq (Vector.mk 0 0 0) v ≤ 250 * 250)) ∧
    ((CalculateDistance (Vector.mk 0 0 0).toVector3D myPos).le (Double.ofInt 250) = false →
      BestNeighbor (recvAll getRightVelocity (SetIpv4 {}) hdrs) now dst myPos ≠
        GetLoopback) := by
  have hl := LookupRoute_recvAll_of_some getRightVelocity hdrs (SetIpv4 {}) GetLoopback
    SetIpv4_rt LookupRoute_SetIpv4
  have hp : (recvAll getRightVelocity (SetIpv4 {}) hdrs).PredictPosition now GetLoopback =
      Vector.mk 0 0 0 := by
    rw [RoutingTable.PredictPosition_some now hl]
    simp [SetIpv4_rt, toUint16]
  have hiff : GetLoopback ∈ StdMap.keys
        (LookupNeighbor (recvAll getRightVelocity (SetIpv4 {}) hdrs) now [] myPos) ↔
      (CalculateDistance (Vector.mk 0 0 0).toVector3D myPos).le (Double.ofInt 250) = true := by
    rw [mem_keys_LookupNeighbor64, hp]
    exact ⟨fun h => h.2, fun h => ⟨⟨_, hl⟩, h⟩⟩
  refine ⟨hl, hp, hiff, ?_, ?_⟩
  · intro v hv hmy
    rw [hiff]
    subst hmy
    exact CalculateDistance_le_250_iff _ _ (by decide) (Vector.isPredicted_of_inUint16 v hv)
  · intro hfar hbn
    rcases BestNeighbor64_cases (recvAll getRightVelocity (SetIpv4 {}) hdrs)
        now dst myPos with ⟨h0, -⟩ | ⟨-, hmem, -, -, -⟩
    · rw [hbn] at h0
      exact absurd h0 (by decide)
    · rw [hbn] at hmem
      rw [hiff.mp hmem] at hfar
      exact absurd hfar (by simp)

/-- Witness of the amended C35: after `SetIpv4` and the beacon of peer 9 at
(0,300,0), at the node position (300,0,0), farther than 250 from the origin, the
neighbor map does not hold `127.0.0.1` and `BestNeighbor (9, myPos)` does not return
it. -/
theorem C35_loopback_entry_witness :
    (∀ hdr ∈ [beaconFar], hdr.m_myadress ≠ GetLoopback) ∧
    (CalculateDistance (Vector.mk 0 0 0).toVector3D (Vector.mk 300 0 0).toVector3D).le
      (Double.ofInt 250) = false ∧
    GetLoopback ∉ StdMap.keys
      (LookupNeighbor (recvAll GetRightVelocity (SetIpv4 {}) [beaconFar]) 0 []
        (Vector.mk 300 0 0).toVector3D) ∧
    BestNeighbor (recvAll GetRightVelocity (SetIpv4 {}) [beaconFar]) 0 9
      (Vector.mk 300 0 0).toVector3D ≠ GetLoopback :=
  ⟨by decide!, by decide!,
    fun h =>
      absurd ((C35_loopback_entry GetRightVelocity [beaconFar] (by decide!) 0 9
        (Vector.mk 300 0 0).toVector3D).2.2.1.mp h) (by decide!),
    (C35_loopback_entry GetRightVelocity [beaconFar] (by decide!) 0 9
      (Vector.mk 300 0 0).toVector3D).2.2.2.2 (by decide!)⟩

end Binary64

/-! ## Data forwarding at a node position with integer coordinates -/

/-- At a node position with integer coordinates from 0 to 65535 and a well-formed
header, `Forwarding` at the position of doubles has a defined result, the one that
`Forwarding` at the integer position gives. -/
theorem Forwarding_lattice (t : RoutingTable) (now : Int) (v : Vector)
    (dataHeader : DataHeader) (header : Ipv4Header) (hv : v.inUint16)
    (hvalid : dataHeader.valid) :
    Binary64.Forwarding t now v.toVector3D dataHeader header =
      some (Forwarding t now v dataHeader header) := by
  have hvp := Vector.isPredicted_of_inUint16 v hv
  have hcast := Vector3D.toUint16_toVector3D v hv
  have hdst : dataHeader.dstPos.inUint16 := ⟨hvalid.1, hvalid.2.1, hvalid.2.2.1⟩
  have hrp : dataHeader.recPos.inUint16 :=
    ⟨hvalid.2.2.2.2.1, hvalid.2.2.2.2.2.1, hvalid.2.2.2.2.2.2.1⟩
  have hLN := Binary64.LookupNeighbor_lattice t now v hvp []
  have hBN := Binary64.BestNeighbor_lattice t now header.m_destination v hvp
  have hlt := Binary64.CalculateDistance_lt_iff v dataHeader.dstPos dataHeader.recPos
    dataHeader.dstPos hvp (Vector.isPredicted_of_inUint16 _ hdst)
    (Vector.isPredicted_of_inUint16 _ hrp) (Vector.isPredicted_of_inUint16 _ hdst)
  obtain ⟨⟨hx0, hx1⟩, ⟨hy0, hy1⟩, ⟨hz0, hz1⟩⟩ := hv
  have hdx := toUint16_of_range hdst.1.1 hdst.1.2
  have hdy := toUint16_of_range hdst.2.1.1 hdst.2.1.2
  have hdz := toUint16_of_range hdst.2.2.1 hdst.2.2.2
  have hvx := toUint16_of_range hx0 hx1
  have hvy := toUint16_of_range hy0 hy1
  have hvz := toUint16_of_range hz0 hz1
  simp only [DataHeader.dstPos] at hdx hdy hdz
  by_cases hnb : header.m_destination ∈ StdMap.keys (t.LookupNeighbor now [] v)
  · rw [Forwarding_direct t now v dataHeader header hnb,
      Binary64.Forwarding64_direct t now v.toVector3D dataHeader header v (hLN ▸ hnb) hdst hcast,
      hdx, hdy, hvx, hvy, hvz]
  · have hnb64 : header.m_destination ∉
        StdMap.keys (Binary64.LookupNeighbor t now [] v.toVector3D) := hLN ▸ hnb
    have hgreedy : ∀ hm : greedyAttempt v dataHeader,
        Binary64.greedyAttempt v.toVector3D dataHeader →
        Binary64.Forwarding t now v.toVector3D dataHeader header =
          some (Forwarding t now v dataHeader header) := by
      intro hm hm64
      by_cases hbn : t.BestNeighbor now header.m_destination v = GetZero
      · rw [Forwarding_enter t now v dataHeader header hnb hm hbn,
          Binary64.Forwarding64_enter t now v.toVector3D dataHeader header v hnb64 hm64
            (hBN ▸ hbn) hdst hcast, hdx, hdy, hdz, hvx, hvy, hvz]
      · rw [Forwarding_greedy t now v dataHeader header hnb hm hbn,
          Binary64.Forwarding64_greedy t now v.toVector3D dataHeader header v hnb64 hm64
            (hBN ▸ hbn) hdst hcast, hBN, hdx, hdy, hdz, hvx, hvy, hvz]
    by_cases h1 : dataHeader.m_inRec = 1
    · by_cases hl : CalculateDistanceSq v dataHeader.dstPos <
          CalculateDistanceSq dataHeader.recPos dataHeader.dstPos
      · exact hgreedy (Or.inr ⟨h1, hl⟩) (Or.inr ⟨h1, hlt.mpr hl⟩)
      · have hfar : (CalculateDistance v.toVector3D dataHeader.dstPos.toVector3D).lt
            (CalculateDistance dataHeader.recPos.toVector3D dataHeader.dstPos.toVector3D) =
              false := by
          rw [← Bool.not_eq_true]
          exact fun h => hl (hlt.mp h)
        rw [Forwarding_continue t now v dataHeader header hnb h1 hl,
          Binary64.Forwarding64_continue t now v.toVector3D dataHeader header v hnb64 h1 hfar
            hcast, hvx, hvy, hvz]
    · by_cases h0 : dataHeader.m_inRec = 0
      · exact hgreedy (Or.inl h0) (Or.inl h0)
      · rw [Forwarding_other t now v dataHeader header hnb h1 h0,
          Binary64.Forwarding64_other t now v.toVector3D dataHeader header hnb64 h1 h0]

/-! ## Data forwarding at a node position in double precision: the claims -/

namespace Binary64

/-- C12, as stated, fails: with `lineTable` the node at `halfPos`, (10.5, 0, 0), has
peer 3 as a neighbor; a packet for it is forwarded to peer 3 itself, but the last hop
of the outgoing header is (10,0,0), not the node position: the conversion to
`uint16_t` has cut the fraction off. -/
theorem C12_Forwarding_direct_delivery_counterexample :
    halfPos.isFiniteDouble = true ∧
    toPeer3.m_destination ∈ StdMap.keys (LookupNeighbor lineTable 0 [] halfPos) ∧
    Forwarding lineTable 0 halfPos recoveryHeader400 toPeer3 =
      some { ret := true,
             p := some { m_dstPosx := 400, m_updated := 2, m_lastPosx := 10 },
             calls :=
               [CallbackCall.ucb
                 { m_dest := 3, m_source := 167772161, m_gateway := 3, m_outputDevice := 1 }
                 { m_dstPosx := 400, m_updated := 2, m_lastPosx := 10 } toPeer3] } ∧
    (Vector.mk 10 0 0).toVector3D ≠ halfPos := by
  decide!

/-- C12, amended.  When the destination is a key of the neighbor map of the node,
`Forwarding` hands the packet to the forward callback with the destination itself as
gateway; the header on the packet has `inRec = 0`, recovery position (0,0,0) and, as
last hop, the node position converted to `uint16_t`, each coordinate cut to its
integer part (a position with integer coordinates from 0 to 65535 is converted to
itself; where the conversion is undefined, so is the result).  A header that differs
only in its recovery flag, recovery position or last hop gives the same result, and
`BestNeighbor` plays no part in it. -/
theorem C12_Forwarding_direct_delivery (t : RoutingTable) (now : Int) (myPos : Vector3D)
    (dataHeader : DataHeader) (header : Ipv4Header)
    (hnb : header.m_destination ∈ StdMap.keys (LookupNeighbor t now [] myPos))
    (hdst : dataHeader.dstPos.inUint16) :
    (∀ c : Vector, myPos.toUint16 = some c →
      ∃ out : DataHeader,
        Forwarding t now myPos dataHeader header =
          some { ret := true, p := some out,
                 calls :=
                   [CallbackCall.ucb
                     { m_dest := header.m_destination, m_source := header.m_source,
                       m_gateway := header.m_destination, m_outputDevice := 1 }
                     out header] } ∧
        out.m_inRec = 0 ∧ out.recPos = Vector.mk 0 0 0 ∧ out.lastPos = c) ∧
    (∀ v : Vector, v.inUint16 → myPos = v.toVector3D → myPos.toUint16 = some v) ∧
    (myPos.toUint16 = none → Forwarding t now myPos dataHeader header = none) ∧
    ∀ other : DataHeader,
      other.m_dstPosx = dataHeader.m_dstPosx → other.m_dstPosy = dataHeader.m_dstPosy →
      other.m_dstPosz = dataHeader.m_dstPosz → other.m_updated = dataHeader.m_updated →
      Forwarding t now myPos other header = Forwarding t now myPos dataHeader header := by
  refine ⟨?_, ?_, ?_, ?_⟩
  · intro c hcast
    exact ⟨_, Forwarding64_direct t now myPos dataHeader header c hnb hdst hcast, rfl, rfl, rfl⟩
  · intro v hv hmy
    rw [hmy]
    exact Vector3D.toUint16_toVector3D v hv
  · intro hnone
    exact Forwarding64_undefined t now myPos dataHeader header hnone (Or.inl hnb)
  · intro other hx hy hz hu
    have hdst' : other.dstPos.inUint16 := by
      unfold DataHeader.dstPos at hdst ⊢
      rw [hx, hy, hz]
      exact hdst
    cases hcast : myPos.toUint16 with
    | none =>
      rw [Forwarding64_undefined t now myPos dataHeader header hcast (Or.inl hnb),
        Forwarding64_undefined t now myPos other header hcast (Or.inl hnb)]
    | some c =>
      rw [Forwarding64_direct t now myPos dataHeader header c hnb hdst hcast,
        Forwarding64_direct t now myPos other header c hnb hdst' hcast, hx, hy, hu]

/-- Witness of the amended C12: with `lineTable`, at the origin, peer 3 is a neighbor;
a packet for it that arrives in recovery mode is forwarded to peer 3 itself. -/
theorem C12_Forwarding_direct_delivery_witness :
    toPeer3.m_destination ∈
      StdMap.keys (LookupNeighbor lineTable 0 [] (Vector.mk 0 0 0).toVector3D) ∧
    recoveryHeader400.dstPos.inUint16 ∧
    (Forwarding lineTable 0 (Vector.mk 0 0 0).toVector3D recoveryHeader400 toPeer3 =
      some { ret := true,
             p := some { m_dstPosx := 400, m_updated := 2 },
             calls :=
               [CallbackCall.ucb
                 { m_dest := 3, m_source := 167772161, m_gateway := 3, m_outputDevice := 1 }
                 { m_dstPosx := 400, m_updated := 2 } toPeer3] }) ∧
    ∃ out : DataHeader,
      Forwarding lineTable 0 (Vector.mk 0 0 0).toVector3D recoveryHeader400 toPeer3 =
        some { ret := true, p := some out,
               calls :=
                 [CallbackCall.ucb
                   { m_dest := toPeer3.m_destination, m_source := toPeer3.m_source,
                     m_gateway := toPeer3.m_destination, m_outputDevice := 1 }
                   out toPeer3] } ∧
      out.m_inRec = 0 ∧ out.recPos = Vector.mk 0 0 0 ∧ out.lastPos = Vector.mk 0 0 0 :=
  ⟨by decide!, by decide!, by decide!,
    (C12_Forwarding_direct_delivery lineTable 0 (Vector.mk 0 0 0).toVector3D
      recoveryHeader400 toPeer3 (by decide!) (by decide!)).1 (Vector.mk 0 0 0) (by decide!)⟩

/-- C16, as stated, fails: with `lineTable` the node at `halfPos`, (10.5, 0, 0), keeps
the packet of `recoveryHeader` for peer 9 in recovery, but the last hop of the
outgoing header is (10,0,0), not the node position: the conversion to `uint16_t` has
cut the fraction off. -/
theorem C16_Forwarding_recovery_continuation_counterexample :
    halfPos.isFiniteDouble = true ∧
    toPeer9.m_destination ∉ StdMap.keys (LookupNeighbor lineTable 0 [] halfPos) ∧
    recoveryHeader.m_inRec = 1 ∧
    Forwarding lineTable 0 halfPos recoveryHeader toPeer9 =
      some { ret := true,
             p := some { m_dstPosy := 300, m_recPosx := 10, m_inRec := 1, m_lastPosx := 10 },
             calls := [] } ∧
    (Vector.mk 10 0 0).toVector3D ≠ halfPos := by
  decide!

/-- C16, amended.  When the destination is no neighbor and `inRec` is still 1 after
the exit check, `Forwarding` invokes no callback, so no next hop is used whatever
`BestNeighbor` would return; the header on the packet keeps `inRec = 1`, the
destination position, its update time and the recovery-entry position of the
incoming header, and its last hop is the node position converted to `uint16_t`, each
coordinate cut to its integer part (a position with integer coordinates from 0 to
65535 is converted to itself; where the conversion is undefined, so is the result). -/
theorem C16_Forwarding_recovery_continuation (t : RoutingTable) (now : Int)
    (myPos : Vector3D) (dataHeader : DataHeader) (header : Ipv4Header)
    (hnb : header.m_destination ∉ StdMap.keys (LookupNeighbor t now [] myPos))
    (hrec : dataHeader.m_inRec = 1)
    (hfar : (CalculateDistance myPos dataHeader.dstPos.toVector3D).lt
      (CalculateDistance dataHeader.recPos.toVector3D dataHeader.dstPos.toVector3D) = false) :
    (∀ c : Vector, myPos.toUint16 = some c →
      ∃ out : DataHeader,
        Forwarding t now myPos dataHeader header =
          some { ret := true, p := some out, calls := [] } ∧
        out.m_inRec = 1 ∧ out.dstPos = dataHeader.dstPos ∧
        out.m_updated = dataHeader.m_updated ∧ out.recPos = dataHeader.recPos ∧
        out.lastPos = c) ∧
    (∀ v : Vector, v.inUint16 → myPos = v.toVector3D → myPos.toUint16 = some v) ∧
    (myPos.toUint16 = none → Forwarding t now myPos dataHeader header = none) := by
  refine ⟨?_, ?_, ?_⟩
  · intro c hcast
    exact ⟨_, Forwarding64_continue t now myPos dataHeader header c hnb hrec hfar hcast, hrec,
      rfl, rfl, rfl, rfl⟩
  · intro v hv hmy
    rw [hmy]
    exact Vector3D.toUint16_toVector3D v hv
  · intro hnone
    exact Forwarding64_undefined t now myPos dataHeader header hnone (Or.inr (Or.inr hrec))

/-- Witness of the amended C16: with `lineTable`, at the origin, the packet of
`recoveryHeader400` for peer 9 stays in recovery, although peer 3 is a neighbor
closer to peer 9; only the last hop changes, from (50,0,0) to (0,0,0). -/
theorem C16_Forwarding_recovery_continuation_witness :
    toPeer9.m_destination ∉
      StdMap.keys (LookupNeighbor lineTable 0 [] (Vector.mk 0 0 0).toVector3D) ∧
    recoveryHeader400.m_inRec = 1 ∧
    BestNeighbor lineTable 0 9 (Vector.mk 0 0 0).toVector3D = 3 ∧
    Forwarding lineTable 0 (Vector.mk 0 0 0).toVector3D recoveryHeader400 toPeer9 =
      some { ret := true,
             p := some { m_dstPosx := 400, m_updated := 2, m_recPosx := 10, m_inRec := 1 },
             calls := [] } ∧
    ∃ out : DataHeader,
      Forwarding lineTable 0 (Vector.mk 0 0 0).toVector3D recoveryHeader400 toPeer9 =
        some { ret := true, p := some out, calls := [] } ∧
      out.m_inRec = 1 ∧ out.dstPos = recoveryHeader400.dstPos ∧
      out.m_updated = recoveryHeader400.m_updated ∧
      out.recPos = recoveryHeader400.recPos ∧ out.lastPos = Vector.mk 0 0 0 :=
  ⟨by decide!, by decide!, by decide!, by decide!,
    (C16_Forwarding_recovery_continuation lineTable 0 (Vector.mk 0 0 0).toVector3D
      recoveryHeader400 toPeer9 (by decide!) (by decide!) (by decide!)).1 (Vector.mk 0 0 0)
      (by decide!)⟩

/-- C17, as stated, fails, in two ways.  With `freshTable` at clock value 5, at the
origin, the greedy attempt for the packet of `greedyHeader` to peer 9 returns peer 3
and the packet is forwarded to it; the table holds for peer 9 the sample (400,0,0)
with timestamp 5, but the outgoing header still carries (300,0,0) and update time 2,
as the incoming header did.  With `lineTable`, at `halfPos`, (10.5, 0, 0), the packet
is forwarded to peer 3 with last hop (10,0,0), which is not the node position. -/
theorem C17_Forwarding_greedy_header_counterexample :
    (BestNeighbor freshTable 5 9 (Vector.mk 0 0 0).toVector3D = 3 ∧
      freshTable.LookupRoute 9 = some { m_x := 400, m_timestamp := 5, m_adress := 9 } ∧
      Forwarding freshTable 5 (Vector.mk 0 0 0).toVector3D greedyHeader toPeer9 =
        some { ret := true,
               p := some { m_dstPosx := 300, m_updated := 2 },
               calls :=
                 [CallbackCall.ucb
                   { m_dest := 9, m_source := 167772161, m_gateway := 3,
                     m_outputDevice := 1 }
                   { m_dstPosx := 300, m_updated := 2 } toPeer9] }) ∧
    (halfPos.isFiniteDouble = true ∧
      Forwarding lineTable 0 halfPos greedyHeader toPeer9 =
        some { ret := true,
               p := some { m_dstPosx := 300, m_updated := 2, m_lastPosx := 10 },
               calls :=
                 [CallbackCall.ucb
                   { m_dest := 9, m_source := 167772161, m_gateway := 3,
                     m_outputDevice := 1 }
                   { m_dstPosx := 300, m_updated := 2, m_lastPosx := 10 } toPeer9] } ∧
      (Vector.mk 10 0 0).toVector3D ≠ halfPos) := by
  decide!

/-- C17, amended.  When the greedy attempt returns a next hop, the packet is handed
to the forward callback with exactly that next hop as gateway; the outgoing header
carries the destination position and the update time of the incoming header,
`inRec = 0`, recovery position (0,0,0) and, as last hop, the node position converted
to `uint16_t`, each coordinate cut to its integer part (a position with integer
coordinates from 0 to 65535 is converted to itself; where the conversion is
undefined, so is the result). -/
theorem C17_Forwarding_greedy_header (t : RoutingTable) (now : Int) (myPos : Vector3D)
    (dataHeader : DataHeader) (header : Ipv4Header)
    (hnb : header.m_destination ∉ StdMap.keys (LookupNeighbor t now [] myPos))
    (hmode : greedyAttempt myPos dataHeader)
    (hbn : BestNeighbor t now header.m_destination myPos ≠ GetZero)
    (hdst : dataHeader.dstPos.inUint16) :
    (∀ c : Vector, myPos.toUint16 = some c →
      ∃ out : DataHeader,
        Forwarding t now myPos dataHeader header =
          some { ret := true, p := some out,
                 calls :=
                   [CallbackCall.ucb
                     { m_dest := header.m_destination, m_source := header.m_source,
                       m_gateway := BestNeighbor t now header.m_destination myPos,
                       m_outputDevice := 1 } out header] } ∧
        out.dstPos = dataHeader.dstPos ∧ out.m_updated = dataHeader.m_updated ∧
        out.m_inRec = 0 ∧ out.recPos = Vector.mk 0 0 0 ∧ out.lastPos = c) ∧
    (∀ v : Vector, v.inUint16 → myPos = v.toVector3D → myPos.toUint16 = some v) ∧
    (myPos.toUint16 = none → Forwarding t now myPos dataHeader header = none) := by
  refine ⟨?_, ?_, ?_⟩
  · intro c hcast
    exact ⟨_, Forwarding64_greedy t now myPos dataHeader header c hnb hmode hbn hdst hcast,
      rfl, rfl, rfl, rfl, rfl⟩
  · intro v hv hmy
    rw [hmy]
    exact Vector3D.toUint16_toVector3D v hv
  · intro hnone
    apply Forwarding64_undefined t now myPos dataHeader header hnone
    rcases hmode with h0 | ⟨h1, -⟩
    · exact Or.inr (Or.inl h0)
    · exact Or.inr (Or.inr h1)

/-- Witness of the amended C17: the packet of `greedyHeader` at the origin, with
`freshTable` at clock value 5. -/
theorem C17_Forwarding_greedy_header_witness :
    toPeer9.m_destination ∉
      StdMap.keys (LookupNeighbor freshTable 5 [] (Vector.mk 0 0 0).toVector3D) ∧
    greedyAttempt (Vector.mk 0 0 0).toVector3D greedyHeader ∧
    BestNeighbor freshTable 5 9 (Vector.mk 0 0 0).toVector3D = 3 ∧
    greedyHeader.dstPos.inUint16 ∧
    ∃ out : DataHeader,
      Forwarding freshTable 5 (Vector.mk 0 0 0).toVector3D greedyHeader toPeer9 =
        some { ret := true, p := some out,
               calls :=
                 [CallbackCall.ucb
                   { m_dest := toPeer9.m_destination, m_source := toPeer9.m_source,
                     m_gateway :=
                       BestNeighbor freshTable 5 toPeer9.m_destination
                         (Vector.mk 0 0 0).toVector3D,
                     m_outputDevice := 1 } out toPeer9] } ∧
      out.dstPos = greedyHeader.dstPos ∧ out.m_updated = greedyHeader.m_updated ∧
      out.m_inRec = 0 ∧ out.recPos = Vector.mk 0 0 0 ∧ out.lastPos = Vector.mk 0 0 0 :=
  ⟨by decide!, by decide!, by decide!, by decide!,
    (C17_Forwarding_greedy_header freshTable 5 (Vector.mk 0 0 0).toVector3D greedyHeader
      toPeer9 (by decide!) (by decide!) (by decide!) (by decide!)).1 (Vector.mk 0 0 0)
      (by decide!)⟩

end Binary64

namespace Binary64

/-- A packet in greedy mode leaves a node in greedy mode, or in recovery mode entered
at that node. -/
theorem Forwarding64_of_greedy_mode (t : RoutingTable) (now : Int) (myPos : Vector3D)
    (dataHeader : DataHeader) (header : Ipv4Header) (c : Vector)
    (h0 : dataHeader.m_inRec = 0) (hdst : dataHeader.dstPos.inUint16)
    (hcast : myPos.toUint16 = some c) :
    ∃ r out, Forwarding t now myPos dataHeader header = some r ∧ r.p = some out ∧
      (out.m_inRec = 0 ∨ (out.m_inRec = 1 ∧ out.recPos = c)) := by
  by_cases hnb : header.m_destination ∈ StdMap.keys (LookupNeighbor t now [] myPos)
  · exact ⟨_, _, Forwarding64_direct t now myPos dataHeader header c hnb hdst hcast, rfl,
      Or.inl rfl⟩
  · have hm : greedyAttempt myPos dataHeader := Or.inl h0
    by_cases hbn : BestNeighbor t now header.m_destination myPos = GetZero
    · exact ⟨_, _, Forwarding64_enter t now myPos dataHeader header c hnb hm hbn hdst hcast,
        rfl, Or.inr ⟨rfl, rfl⟩⟩
    · exact ⟨_, _, Forwarding64_greedy t now myPos dataHeader header c hnb hm hbn hdst hcast,
        rfl, Or.inl rfl⟩

/-- For a packet in recovery mode whose destination is no neighbor, the outcome is
the continuation of the recovery exactly when the computed distance of the node to
the carried destination position is not less than that of the recovery-entry
position. -/
theorem Forwarding64_continue_iff (t : RoutingTable) (now : Int) (myPos : Vector3D)
    (dataHeader : DataHeader) (header : Ipv4Header) (c : Vector)
    (hnb : header.m_destination ∉ StdMap.keys (LookupNeighbor t now [] myPos))
    (hrec : dataHeader.m_inRec = 1) (hdst : dataHeader.dstPos.inUint16)
    (hcast : myPos.toUint16 = some c) :
    Forwarding t now myPos dataHeader header =
        some { ret := true,
               p := some { dataHeader with
                 m_lastPosx := c.x, m_lastPosy := c.y, m_lastPosz := c.z },
               calls := [] } ↔
      (CalculateDistance myPos dataHeader.dstPos.toVector3D).lt
        (CalculateDistance dataHeader.recPos.toVector3D dataHeader.dstPos.toVector3D) =
          false := by
  constructor
  · intro h
    rw [← Bool.not_eq_true]
    intro hlt
    have hm : greedyAttempt myPos dataHeader := Or.inr ⟨hrec, hlt⟩
    by_cases hbn : BestNeighbor t now header.m_destination myPos = GetZero
    · rw [Forwarding64_enter t now myPos dataHeader header c hnb hm hbn hdst hcast] at h
      have hp := Option.some.inj (congrArg ForwardingResult.p (Option.some.inj h))
      have hrx := congrArg DataHeader.m_recPosx hp
      have hry := congrArg DataHeader.m_recPosy hp
      have hrz := congrArg DataHeader.m_recPosz hp
      have hlx := congrArg DataHeader.m_lastPosx hp
      have hly := congrArg DataHeader.m_lastPosy hp
      have hlz := congrArg DataHeader.m_lastPosz hp
      simp only at hrx hry hrz hlx hly hlz
      have hsame : dataHeader.recPos = dataHeader.dstPos := by
        simp only [DataHeader.recPos, DataHeader.dstPos, Vector.mk.injEq]
        exact ⟨by omega, by omega, by omega⟩
      rw [hsame, CalculateDistance_self _ (Vector.isPredicted_of_inUint16 _ hdst),
        CalculateDistance_not_lt_zero] at hlt
      exact absurd hlt (by simp)
    · rw [Forwarding64_greedy t now myPos dataHeader header c hnb hm hbn hdst hcast] at h
      simp at h
  · intro hfar
    exact Forwarding64_continue t now myPos dataHeader header c hnb hrec hfar hcast

/-- C13, as stated, fails, in two ways.  With `lineTable` at the origin, the packet of
`recoveryHeader` for peer 9 is in recovery mode, peer 9 is no neighbor, and the node
is not closer to the predicted position (400,0,0) of peer 9 than the recovery-entry
position (10,0,0) is; the packet does not stay in recovery: the header carries
(0,300,0) as destination position, to which the node is closer, so the flag is
cleared and the packet is forwarded to peer 3.  With `table300`, the node at
`smallPos`, (1e-20, 0, 0), is closer to the predicted position (300,0,0) of peer 9,
which the header `recoveryHeader300` carries too, than the recovery-entry position
(0,0,0) is, by exact arithmetic; the two computed distances are equal, and the packet
stays in recovery. -/
theorem C13_Forwarding_recovery_exit_counterexample :
    (toPeer9.m_destination ∉
        StdMap.keys (LookupNeighbor lineTable 0 [] (Vector.mk 0 0 0).toVector3D) ∧
      recoveryHeader.m_inRec = 1 ∧
      ¬ CalculateDistanceSq (Vector.mk 0 0 0) (lineTable.PredictPosition 0 9) <
        CalculateDistanceSq recoveryHeader.recPos (lineTable.PredictPosition 0 9) ∧
      Forwarding lineTable 0 (Vector.mk 0 0 0).toVector3D recoveryHeader toPeer9 =
        some { ret := true,
               p := some { m_dstPosy := 300 },
               calls :=
                 [CallbackCall.ucb
                   { m_dest := 9, m_source := 167772161, m_gateway := 3,
                     m_outputDevice := 1 }
                   { m_dstPosy := 300 } toPeer9] }) ∧
    (smallPos.isFiniteDouble = true ∧
      toPeer9.m_destination ∉ StdMap.keys (LookupNeighbor table300 0 [] smallPos) ∧
      recoveryHeader300.m_inRec = 1 ∧
      table300.PredictPosition 0 9 = recoveryHeader300.dstPos ∧
      ExactDistanceSq smallPos (table300.PredictPosition 0 9).toVector3D <
        ExactDistanceSq recoveryHeader300.recPos.toVector3D
          (table300.PredictPosition 0 9).toVector3D ∧
      Forwarding table300 0 smallPos recoveryHeader300 toPeer9 =
        some { ret := true, p := some { m_dstPosx := 300, m_inRec := 1 }, calls := [] }) := by
  decide!

/-- C13, amended.  For a packet whose destination is no neighbor and whose header has
`inRec = 1`: if the distance of the node to the destination position carried in the
header, as `CalculateDistance` computes it in double arithmetic, is strictly less
than the computed distance of the recovery-entry position, the flag is cleared and
the greedy attempt is made on this hop (the result is that of the same header with
`inRec = 0`, and a next hop found by `BestNeighbor` is used as gateway); otherwise
the packet stays in recovery, with `inRec = 1` and no callback invoked.  For a node
position with integer coordinates from 0 to 65535 the computed distances compare as
the exact ones do. -/
theorem C13_Forwarding_recovery_exit (t : RoutingTable) (now : Int) (myPos : Vector3D)
    (dataHeader : DataHeader) (header : Ipv4Header)
    (hnb : header.m_destination ∉ StdMap.keys (LookupNeighbor t now [] myPos))
    (hrec : dataHeader.m_inRec = 1) (hvalid : dataHeader.valid) :
    ((CalculateDistance myPos dataHeader.dstPos.toVector3D).lt
        (CalculateDistance dataHeader.recPos.toVector3D dataHeader.dstPos.toVector3D) = true →
      Forwarding t now myPos dataHeader header =
          Forwarding t now myPos { dataHeader with m_inRec := 0 } header ∧
        (BestNeighbor t now header.m_destination myPos ≠ GetZero →
          ∀ c : Vector, myPos.toUint16 = some c →
          ∃ out : DataHeader,
            Forwarding t now myPos dataHeader header =
              some { ret := true, p := some out,
                     calls :=
                       [CallbackCall.ucb
                         { m_dest := header.m_destination, m_source := header.m_source,
                           m_gateway := BestNeighbor t now header.m_destination myPos,
                           m_outputDevice := 1 } out header] } ∧
            out.m_inRec = 0)) ∧
    ((CalculateDistance myPos dataHeader.dstPos.toVector3D).lt
        (CalculateDistance dataHeader.recPos.toVector3D dataHeader.dstPos.toVector3D) = false →
      ∀ c : Vector, myPos.toUint16 = some c →
      ∃ out : DataHeader,
        Forwarding t now myPos dataHeader header =
          some { ret := true, p := some out, calls := [] } ∧
        out.m_inRec = 1) ∧
    (∀ v : Vector, v.inUint16 → myPos = v.toVector3D →
      ((CalculateDistance myPos dataHeader.dstPos.toVector3D).lt
          (CalculateDistance dataHeader.recPos.toVector3D dataHeader.dstPos.toVector3D) = true ↔
        CalculateDistanceSq v dataHeader.dstPos <
          CalculateDistanceSq dataHeader.recPos dataHeader.dstPos)) := by
  have hdst : dataHeader.dstPos.inUint16 := ⟨hvalid.1, hvalid.2.1, hvalid.2.2.1⟩
  have hrp : dataHeader.recPos.inUint16 :=
    ⟨hvalid.2.2.2.2.1, hvalid.2.2.2.2.2.1, hvalid.2.2.2.2.2.2.1⟩
  refine ⟨?_, ?_, ?_⟩
  · intro hlt
    refine ⟨Forwarding64_leave t now myPos dataHeader header hrec hlt, ?_⟩
    intro hbn c hcast
    exact ⟨_, Forwarding64_greedy t now myPos dataHeader header c hnb (Or.inr ⟨hrec, hlt⟩)
      hbn hdst hcast, rfl⟩
  · intro hfar c hcast
    exact ⟨_, Forwarding64_continue t now myPos dataHeader header c hnb hrec hfar hcast, hrec⟩
  · intro v hv hmy
    subst hmy
    exact CalculateDistance_lt_iff _ _ _ _ (Vector.isPredicted_of_inUint16 v hv)
      (Vector.isPredicted_of_inUint16 _ hdst) (Vector.isPredicted_of_inUint16 _ hrp)
      (Vector.isPredicted_of_inUint16 _ hdst)

/-- Witness of the amended C13: the packet of `recoveryHeader` at the origin, with
`lineTable`, leaves recovery and is forwarded to peer 3. -/
theorem C13_Forwarding_recovery_exit_witness :
    toPeer9.m_destination ∉
      StdMap.keys (LookupNeighbor lineTable 0 [] (Vector.mk 0 0 0).toVector3D) ∧
    recoveryHeader.m_inRec = 1 ∧ recoveryHeader.valid ∧
    (CalculateDistance (Vector.mk 0 0 0).toVector3D recoveryHeader.dstPos.toVector3D).lt
      (CalculateDistance recoveryHeader.recPos.toVector3D
        recoveryHeader.dstPos.toVector3D) = true ∧
    BestNeighbor lineTable 0 9 (Vector.mk 0 0 0).toVector3D = 3 ∧
    Forwarding lineTable 0 (Vector.mk 0 0 0).toVector3D recoveryHeader toPeer9 =
      Forwarding lineTable 0 (Vector.mk 0 0 0).toVector3D
        { recoveryHeader with m_inRec := 0 } toPeer9 :=
  ⟨by decide!, by decide!, by decide!, by decide!, by decide!,
    ((C13_Forwarding_recovery_exit lineTable 0 (Vector.mk 0 0 0).toVector3D recoveryHeader
      toPeer9 (by decide!) (by decide!) (by decide!)).1 (by decide!)).1⟩

end Binary64

namespace Binary64

/-- C14, as stated, fails in its second sentence.  With `farTable`, at the origin, the
packet of `staleHeader` for peer 9 enters recovery: the header becomes
`enteredHeader`, with recovery-entry position (0,0,0).  With `lineTable` the packet
then reaches the node at (100,0,0), which is strictly closer to the destination,
predicted at (400,0,0), than the recovery-entry position is (300 against 400).  The
packet does not leave recovery there: the exit check uses the position (0,300,0)
carried in the header, from which the node is farther than the recovery-entry
position. -/
theorem C14_Forwarding_recovery_entry_counterexample :
    Forwarding farTable 0 (Vector.mk 0 0 0).toVector3D staleHeader toPeer9 =
      some { ret := true, p := some enteredHeader, calls := [] } ∧
    enteredHeader.m_inRec = 1 ∧ enteredHeader.recPos = Vector.mk 0 0 0 ∧
    toPeer9.m_destination ∉
      StdMap.keys (LookupNeighbor lineTable 0 [] (Vector.mk 100 0 0).toVector3D) ∧
    lineTable.PredictPosition 0 9 = Vector.mk 400 0 0 ∧
    CalculateDistanceSq (Vector.mk 100 0 0) (lineTable.PredictPosition 0 9) <
      CalculateDistanceSq enteredHeader.recPos (lineTable.PredictPosition 0 9) ∧
    Forwarding lineTable 0 (Vector.mk 100 0 0).toVector3D enteredHeader toPeer9 =
      some { ret := true,
             p := some { m_dstPosy := 300, m_inRec := 1, m_lastPosx := 100 },
             calls := [] } := by
  decide!

/-- C14, amended.  When the destination is no neighbor, the greedy attempt is made
(`inRec` is 0 on arrival, or 1 and cleared by the exit check) and `BestNeighbor`
returns the zero address, then, for a node position with integer coordinates from 0
to 65535, no callback is invoked and the header on the packet has `inRec = 1`, the
node position as recovery-entry position and the carried destination position
unchanged.  At any node that this packet reaches later and whose distance to the
destination position carried in the header, as `CalculateDistance` computes it in
double arithmetic, is strictly less than the computed distance of the recovery-entry
position, the packet leaves recovery: it is handled as the same packet in greedy mode
is, and goes out with `inRec = 0`, or with `inRec = 1` as a new entry made at that
node. -/
theorem C14_Forwarding_recovery_entry (t : RoutingTable) (now : Int) (v : Vector)
    (dataHeader : DataHeader) (header : Ipv4Header)
    (hnb : header.m_destination ∉ StdMap.keys (LookupNeighbor t now [] v.toVector3D))
    (hmode : greedyAttempt v.toVector3D dataHeader)
    (hbn : BestNeighbor t now header.m_destination v.toVector3D = GetZero)
    (hdst : dataHeader.dstPos.inUint16) (hpos : v.inUint16) :
    ∃ out : DataHeader,
      Forwarding t now v.toVector3D dataHeader header =
        some { ret := true, p := some out, calls := [] } ∧
      out.m_inRec = 1 ∧ out.recPos = v ∧ out.dstPos = dataHeader.dstPos ∧
      ∀ (t2 : RoutingTable) (now2 : Int) (myPos2 : Vector3D),
        (CalculateDistance myPos2 out.dstPos.toVector3D).lt
          (CalculateDistance out.recPos.toVector3D out.dstPos.toVector3D) = true →
        Forwarding t2 now2 myPos2 out header =
            Forwarding t2 now2 myPos2 { out with m_inRec := 0 } header ∧
          ∀ c2 : Vector, myPos2.toUint16 = some c2 →
            ∃ r out2, Forwarding t2 now2 myPos2 out header = some r ∧ r.p = some out2 ∧
              (out2.m_inRec = 0 ∨ (out2.m_inRec = 1 ∧ out2.recPos = c2)) := by
  refine ⟨_, Forwarding64_enter t now v.toVector3D dataHeader header v hnb hmode hbn hdst
    (Vector3D.toUint16_toVector3D v hpos), rfl, rfl, rfl, ?_⟩
  intro t2 now2 myPos2 hlt
  have hleave := Forwarding64_leave t2 now2 myPos2 _ header rfl hlt
  refine ⟨hleave, ?_⟩
  intro c2 hcast2
  rw [hleave]
  exact Forwarding64_of_greedy_mode t2 now2 myPos2 _ header c2 rfl hdst hcast2

/-- Witness of the amended C14: a node without neighbors.  With `farTable`, at the
origin, the destination 9 is out of range and there is no neighbor; the packet of
`greedyHeader` enters recovery with recovery-entry position (0,0,0). -/
theorem C14_Forwarding_recovery_entry_witness :
    toPeer9.m_destination ∉
      StdMap.keys (LookupNeighbor farTable 0 [] (Vector.mk 0 0 0).toVector3D) ∧
    greedyAttempt (Vector.mk 0 0 0).toVector3D greedyHeader ∧
    BestNeighbor farTable 0 9 (Vector.mk 0 0 0).toVector3D = GetZero ∧
    greedyHeader.dstPos.inUint16 ∧ (Vector.mk 0 0 0).inUint16 ∧
    Forwarding farTable 0 (Vector.mk 0 0 0).toVector3D greedyHeader toPeer9 =
      some { ret := true,
             p := some { m_dstPosx := 300, m_updated := 2, m_inRec := 1, m_lastPosx := 300 },
             calls := [] } ∧
    ∃ out : DataHeader,
      Forwarding farTable 0 (Vector.mk 0 0 0).toVector3D greedyHeader toPeer9 =
        some { ret := true, p := some out, calls := [] } ∧
      out.m_inRec = 1 ∧ out.recPos = Vector.mk 0 0 0 ∧ out.dstPos = greedyHeader.dstPos ∧
      ∀ (t2 : RoutingTable) (now2 : Int) (myPos2 : Vector3D),
        (CalculateDistance myPos2 out.dstPos.toVector3D).lt
          (CalculateDistance out.recPos.toVector3D out.dstPos.toVector3D) = true →
        Forwarding t2 now2 myPos2 out toPeer9 =
            Forwarding t2 now2 myPos2 { out with m_inRec := 0 } toPeer9 ∧
          ∀ c2 : Vector, myPos2.toUint16 = some c2 →
            ∃ r out2, Forwarding t2 now2 myPos2 out toPeer9 = some r ∧ r.p = some out2 ∧
              (out2.m_inRec = 0 ∨ (out2.m_inRec = 1 ∧ out2.recPos = c2)) :=
  ⟨by decide!, by decide!, by decide!, by decide!, by decide!, by decide!,
    C14_Forwarding_recovery_entry farTable 0 (Vector.mk 0 0 0) greedyHeader toPeer9
      (by decide!) (by decide!) (by decide!) (by decide!) (by decide!)⟩

/-- C33, as stated, fails: with `farTable`, the node at `smallPos`, (1e-20, 0, 0), is
closer to the position (300,0,0) carried in `recoveryHeader300` than the
recovery-entry position (0,0,0) is, by exact arithmetic.  The two computed distances
are equal, so the packet is kept in recovery; the same packet arriving with
`inRec = 0` is handled differently (it enters recovery anew, with the carried
destination position as last hop). -/
theorem C33_Forwarding_exit_on_carried_position_counterexample :
    smallPos.isFiniteDouble = true ∧
    toPeer9.m_destination ∉ StdMap.keys (LookupNeighbor farTable 0 [] smallPos) ∧
    recoveryHeader300.m_inRec = 1 ∧
    ExactDistanceSq smallPos recoveryHeader300.dstPos.toVector3D <
      ExactDistanceSq recoveryHeader300.recPos.toVector3D
        recoveryHeader300.dstPos.toVector3D ∧
    CalculateDistance smallPos recoveryHeader300.dstPos.toVector3D =
      CalculateDistance recoveryHeader300.recPos.toVector3D
        recoveryHeader300.dstPos.toVector3D ∧
    Forwarding farTable 0 smallPos recoveryHeader300 toPeer9 =
      some { ret := true, p := some { m_dstPosx := 300, m_inRec := 1 }, calls := [] } ∧
    Forwarding farTable 0 smallPos { recoveryHeader300 with m_inRec := 0 } toPeer9 =
      some { ret := true,
             p := some { m_dstPosx := 300, m_inRec := 1, m_lastPosx := 300 },
             calls := [] } := by
  decide!

/-- C33, amended.  For a packet in recovery mode with well-formed header whose
destination is no neighbor, at a node position that the conversion to `uint16_t`
takes to `c`: `Forwarding` continues the recovery (header put back with only the last
hop rewritten, no callback) exactly when the distance of the node to the carried
destination position, as `CalculateDistance` computes it in double arithmetic, is not
less than the computed distance of the recovery-entry position; the same holds with
every other table and clock value under which the destination is no neighbor; for a
node position with integer coordinates from 0 to 65535 the computed distances compare
as the exact ones do; and when the computed distance is strictly less, the result is
that of the same packet arriving in greedy mode. -/
theorem C33_Forwarding_exit_on_carried_position (t : RoutingTable) (now : Int)
    (myPos : Vector3D) (dataHeader : DataHeader) (header : Ipv4Header) (c : Vector)
    (hnb : header.m_destination ∉ StdMap.keys (LookupNeighbor t now [] myPos))
    (hrec : dataHeader.m_inRec = 1) (hvalid : dataHeader.valid)
    (hcast : myPos.toUint16 = some c) :
    (Forwarding t now myPos dataHeader header =
        some { ret := true,
               p := some { dataHeader with
                 m_lastPosx := c.x, m_lastPosy := c.y, m_lastPosz := c.z },
               calls := [] } ↔
      (CalculateDistance myPos dataHeader.dstPos.toVector3D).lt
        (CalculateDistance dataHeader.recPos.toVector3D dataHeader.dstPos.toVector3D) =
          false) ∧
    (∀ (t2 : RoutingTable) (now2 : Int),
      header.m_destination ∉ StdMap.keys (LookupNeighbor t2 now2 [] myPos) →
      (Forwarding t2 now2 myPos dataHeader header =
          some { ret := true,
                 p := some { dataHeader with
                   m_lastPosx := c.x, m_lastPosy := c.y, m_lastPosz := c.z },
                 calls := [] } ↔
        Forwarding t now myPos dataHeader header =
          some { ret := true,
                 p := some { dataHeader with
                   m_lastPosx := c.x, m_lastPosy := c.y, m_lastPosz := c.z },
                 calls := [] })) ∧
    (∀ v : Vector, v.inUint16 → myPos = v.toVector3D →
      ((CalculateDistance myPos dataHeader.dstPos.toVector3D).lt
          (CalculateDistance dataHeader.recPos.toVector3D dataHeader.dstPos.toVector3D) =
            false ↔
        CalculateDistanceSq dataHeader.recPos dataHeader.dstPos ≤
          CalculateDistanceSq v dataHeader.dstPos)) ∧
    ((CalculateDistance myPos dataHeader.dstPos.toVector3D).lt
        (CalculateDistance dataHeader.recPos.toVector3D dataHeader.dstPos.toVector3D) = true →
      Forwarding t now myPos dataHeader header =
        Forwarding t now myPos { dataHeader with m_inRec := 0 } header) := by
  have hdst : dataHeader.dstPos.inUint16 := ⟨hvalid.1, hvalid.2.1, hvalid.2.2.1⟩
  have hrp : dataHeader.recPos.inUint16 :=
    ⟨hvalid.2.2.2.2.1, hvalid.2.2.2.2.2.1, hvalid.2.2.2.2.2.2.1⟩
  refine ⟨Forwarding64_continue_iff t now myPos dataHeader header c hnb hrec hdst hcast,
    ?_, ?_, ?_⟩
  · intro t2 now2 hnb2
    rw [Forwarding64_continue_iff t2 now2 myPos dataHeader header c hnb2 hrec hdst hcast,
      Forwarding64_continue_iff t now myPos dataHeader header c hnb hrec hdst hcast]
  · intro v hv hmy
    subst hmy
    rw [← Bool.not_eq_true, CalculateDistance_lt_iff _ _ _ _
      (Vector.isPredicted_of_inUint16 v hv) (Vector.isPredicted_of_inUint16 _ hdst)
      (Vector.isPredicted_of_inUint16 _ hrp) (Vector.isPredicted_of_inUint16 _ hdst)]
    exact not_lt
  · intro hlt
    exact Forwarding64_leave t now myPos dataHeader header hrec hlt

/-- Witness of the amended C33: with `lineTable`, at (100,0,0), peer 9 is no neighbor
and the node is closer to the carried position (400,0,0) than the recovery-entry
position (10,0,0): the packet of `recoveryHeader400` is handled as in greedy mode, and
the outcome is not the continuation of the recovery. -/
theorem C33_Forwarding_exit_on_carried_position_witness :
    toPeer9.m_destination ∉
      StdMap.keys (LookupNeighbor lineTable 0 [] (Vector.mk 100 0 0).toVector3D) ∧
    recoveryHeader400.m_inRec = 1 ∧ recoveryHeader400.valid ∧
    (Vector.mk 100 0 0).toVector3D.toUint16 = some (Vector.mk 100 0 0) ∧
    (CalculateDistance (Vector.mk 100 0 0).toVector3D
        recoveryHeader400.dstPos.toVector3D).lt
      (CalculateDistance recoveryHeader400.recPos.toVector3D
        recoveryHeader400.dstPos.toVector3D) = true ∧
    Forwarding lineTable 0 (Vector.mk 100 0 0).toVector3D recoveryHeader400 toPeer9 =
      Forwarding lineTable 0 (Vector.mk 100 0 0).toVector3D
        { recoveryHeader400 with m_inRec := 0 } toPeer9 :=
  ⟨by decide!, by decide!, by decide!, by decide!, by decide!,
    (C33_Forwarding_exit_on_carried_position lineTable 0 (Vector.mk 100 0 0).toVector3D
      recoveryHeader400 toPeer9 (Vector.mk 100 0 0) (by decide!) (by decide!) (by decide!)
      (by decide!)).2.2.2 (by decide!)⟩

end Binary64

end myprotocol
